import Mathlib

/-!
Verification development for the `bun-node` router's request-dispatch engine
(`BunRouter` in `src/unnamed/part_001`, the revision with the six-key
specificity comparator).  The embedding models:

* the route table and `setRoute` (duplicate-name check, append),
* the three match computations and caches keyed by the composite cache key,
* the lodash `orderBy` specificity sort of terminal candidates,
* the full `handle()` dispatch loop, including the per-callback
  `new Promise((resolve, reject) => ...)` wrapper, the `nextFnGenerator`
  continuation semantics (first resolve/reject wins; later calls only mutate
  the shared flags), `response.headersSent` polling, `response.end` on truthy
  middleware returns, and the `throwError` coercion of thrown values.

Callbacks are modelled by a behaviour description `CbBeh`: the sequence of
arguments they pass to `next`, whether their execution makes
`response.headersSent` true, the truthiness of their awaited return value,
and an optional thrown value.  The interpreter additionally records a ghost
trace of callback executions (`Ev`) so that temporal claims ("no later
callback executes") can be stated; the returned value component corresponds
exactly to the TypeScript return value of `handle()`.  Asynchronous
interleaving of a promise executor's tail with the outer loop is serialised:
the executor's post-`await` code (e.g. `response.end`) is applied before the
dispatch loop continues, which preserves all externally observable outcomes
modelled here.
-/

namespace BunNode

/-- A JS value used as an error signal, classified the way the router
classifies it (`instanceof Error || isObject`, `isString`, `isNumeric`,
anything else). -/
inductive ErrVal
  | errObj (id : Nat)     -- an `Error` instance or any other object
  | strVal (s : String)
  | numVal (n : Int)
  | otherVal (id : Nat)   -- neither object, string, nor numeric (bool, symbol, ...)
deriving DecidableEq, Repr

/-- JS truthiness of an error-channel value. -/
def ErrVal.truthy : ErrVal → Bool
  | .errObj _ => true
  | .strVal s => s ≠ ""
  | .numVal n => n ≠ 0
  | .otherVal _ => true

/-- The value that escapes `handle()`'s promise when it rejects:
either a value propagated unchanged, a `new Error(String(v))` wrapper,
or the generic middleware error. -/
inductive ThrownOut
  | raw (e : ErrVal)
  | wrapped (s : String)
  | generic
deriving DecidableEq, Repr

/-- `BunRouter.throwError` (src/unnamed/part_001:864-872): Error/object
values are rethrown unchanged, strings and numerics are wrapped in a
generic `Error` carrying the stringified value, anything else becomes the
generic middleware error. -/
def throwError' : ErrVal → ThrownOut
  | .errObj i => .raw (.errObj i)
  | .strVal s => .wrapped s
  | .numVal n => .wrapped (toString n)
  | .otherVal _ => .generic

/-- Argument of a `next(...)` invocation, classified the way
`nextFnGenerator` classifies it: `undefined`/`null`, the literal string
`"next"`, the literal string `"skip"`, or anything else (an error signal). -/
inductive NextArg
  | nil
  | nextStr
  | skip
  | err (e : ErrVal)
deriving DecidableEq, Repr

/-- Behaviour of one callback invocation: the arguments it passes to the
`next` continuation (in order), whether its execution makes
`response.headersSent` become true, the truthiness of its awaited return
value, and the value it throws (after its other effects), if any. -/
structure CbBeh where
  nextCalls : List NextArg
  sendsHeaders : Bool
  retTruthy : Bool
  throws : Option ErrVal
deriving DecidableEq, Repr

/-- `matchedRoute` of `@routejs/router`: the result of a successful
`route.match({host, method, path})`. -/
structure MatchResult where
  host : Option String
  method : String
  path : String
  params : List (String × String)
  subdomains : List String
  callbacks : List CbBeh
deriving DecidableEq, Repr

/-- A stored route.  `matchFn` is the collaborator contract of the
`@routejs/router` pattern matcher (spec §4.2): deterministic and
side-effect free, hence a plain function `(host, method, path) ↦ result`. -/
structure Route where
  host : Option String
  path : Option String
  method : Option String
  name : Option String
  params : List String            -- declared path parameters (`route.params`)
  callbacks : List CbBeh
  matchFn : String → String → String → Option MatchResult

/-- The request descriptor passed to `handle()`. -/
structure Req where
  requestHost : String
  requestMethod : String
  requestUrl : String
deriving DecidableEq, Repr

/-- Characters before the first occurrence of `c`. -/
def takeBeforeChar (c : Char) : List Char → List Char
  | [] => []
  | x :: xs => if x = c then [] else x :: takeBeforeChar c xs

/-- Query-string stripping: `requestUrl.slice(0, requestUrl.indexOf("?"))`
when the URL contains `?`, otherwise the URL itself. -/
def requestPathOf (u : String) : String := ⟨takeBeforeChar '?' u.data⟩

/-- `route.match({host: requestHost, method: requestMethod, path: requestPath})`. -/
def matchRoute (r : Route) (req : Req) : Option MatchResult :=
  r.matchFn req.requestHost req.requestMethod (requestPathOf req.requestUrl)

/-- Cache key: `host:{host || "none"}:path:{requestUrl}:method:{method}`. -/
def cacheKey (req : Req) : String :=
  "host:" ++ (if req.requestHost = "" then "none" else req.requestHost) ++
    ":path:" ++ req.requestUrl ++ ":method:" ++ req.requestMethod

/-! ### The specificity comparator (src/unnamed/part_001:253-318) -/

/-- Split a character list on a single separator character. -/
def splitOnChar (c : Char) : List Char → List (List Char)
  | [] => [[]]
  | x :: xs =>
    if x = c then [] :: splitOnChar c xs
    else
      match splitOnChar c xs with
      | [] => [[x]]
      | h :: t => (x :: h) :: t

/-- Model of `fast-isnumeric` on a string key: an optional sign, digits,
optionally with one decimal point. -/
def isNumericStr (s : String) : Bool :=
  let t :=
    match s.data with
    | c :: rest => if c = '-' || c = '+' then rest else s.data
    | [] => s.data
  match splitOnChar '.' t with
  | [a] => !a.isEmpty && a.all Char.isDigit
  | [a, b] => (!a.isEmpty || !b.isEmpty) && a.all Char.isDigit && b.all Char.isDigit
  | _ => false

/-- Position of the first `(` in a character list (JS `indexOf("(")`). -/
def firstBracket : List Char → Nat → Option Nat
  | [], _ => none
  | c :: cs, i => if c = '(' then some i else firstBracket cs (i + 1)

/-- Position of the last `)` in a character list (lodash `lastIndexOf(part, ")")`). -/
def lastBracket : List Char → Nat → Option Nat → Option Nat
  | [], _, acc => acc
  | c :: cs, i, acc => lastBracket cs (i + 1) (if c = ')' then some i else acc)

/-- A `/:`-split path segment counts as regex-constrained when it contains
`(` and a later `)`. -/
def segHasRegexp (part : List Char) : Bool :=
  match firstBracket part 0, lastBracket part 0 none with
  | some i, some j => i < j
  | _, _ => false

/-- Split a character list on the two-character separator `/:`. -/
def splitOnSlashColon : List Char → List (List Char)
  | [] => [[]]
  | [x] => [[x]]
  | x :: y :: rest =>
    if x = '/' && y = ':' then [] :: splitOnSlashColon rest
    else
      match splitOnSlashColon (y :: rest) with
      | [] => [[x]]
      | h :: t => (x :: h) :: t

/-- `String.prototype.toLowerCase` on the underlying characters. -/
def strToLower (s : String) : String := ⟨s.data.map Char.toLower⟩

/-- One matched terminal route together with its registration index. -/
structure MatchedEntry where
  matched : MatchResult
  route : Route
  routeIndex : Nat

/-- Sort key 1: rank 0 when the matched host equals the request host
case-insensitively, else rank 1 (ascending). -/
def hostExactKey (req : Req) (e : MatchedEntry) : Nat :=
  match e.matched.host with
  | some h => if strToLower h = strToLower req.requestHost then 0 else 1
  | none => 1

/-- Sort key 2: `String(route.host || "").length` (descending). -/
def hostLenKey (e : MatchedEntry) : Nat := (e.route.host.getD "").length

/-- Sort key 3: rank 0 when the matched method equals the request method
case-insensitively, else rank 1 (ascending). -/
def methodExactKey (req : Req) (e : MatchedEntry) : Nat :=
  if strToLower e.matched.method = strToLower req.requestMethod then 0 else 1

/-- Sort key 4: `route.params.length` (ascending). -/
def paramCountKey (e : MatchedEntry) : Nat := e.route.params.length

/-- Sort key 5: number of non-numeric keys of `matched.params` (descending). -/
def namedParamsKey (e : MatchedEntry) : Nat :=
  ((e.matched.params.map Prod.fst).filter (fun k => !isNumericStr k)).length

/-- Sort key 6: number of `/:`-split segments of `matched.path` (with a
leading `/` forced) that contain a regex constraint (descending). -/
def regexpKey (e : MatchedEntry) : Nat :=
  let p := e.matched.path.data
  let p := if p.head? = some '/' then p else '/' :: p
  ((splitOnSlashColon p).filter segHasRegexp).length

/-- The six `orderBy` criteria with their directions
(`["asc", "desc", "asc", "asc", "desc", "desc"]`); `true` = descending. -/
def sixKeys (req : Req) : List ((MatchedEntry → Nat) × Bool) :=
  [(hostExactKey req, false), (hostLenKey, true), (methodExactKey req, false),
   (paramCountKey, false), (namedParamsKey, true), (regexpKey, true)]

/-- lodash `compareAscending` on numbers. -/
def cmpAsc (a b : Nat) : Ordering :=
  if a < b then .lt else if b < a then .gt else .eq

/-- lodash `compareMultiple`: first criterion whose comparison (flipped for
descending keys) is non-equal decides. -/
def cmpKeys {α : Type} (ks : List ((α → Nat) × Bool)) (a b : α) : Ordering :=
  match ks with
  | [] => .eq
  | (f, desc) :: rest =>
    let o := cmpAsc (f a) (f b)
    let o2 := if desc then o.swap else o
    match o2 with
    | .eq => cmpKeys rest a b
    | o3 => o3

/-- "a may come before b": the multi-key comparison is not `gt`. -/
def leKeys {α : Type} (ks : List ((α → Nat) × Bool)) (a b : α) : Bool :=
  match cmpKeys ks a b with
  | .gt => false
  | _ => true

/-- Stable insertion: the new element goes in front of the first existing
element it compares ≤ to. -/
def insertLe {α : Type} (le : α → α → Bool) (x : α) : List α → List α
  | [] => [x]
  | y :: ys => if le x y then x :: y :: ys else y :: insertLe le x ys

/-- Stable sort (elements are inserted right-to-left, so an
earlier-positioned element ends up before later elements with equal keys);
this is the specified behaviour of lodash `orderBy`. -/
def sortLe {α : Type} (le : α → α → Bool) : List α → List α
  | [] => []
  | x :: xs => insertLe le x (sortLe le xs)

/-- lodash `orderBy` with numeric criteria and per-criterion directions. -/
def lodashOrderBy {α : Type} (ks : List ((α → Nat) × Bool)) (l : List α) : List α :=
  sortLe (leKeys ks) l

/-! ### The three match computations (cache-miss path) -/

/-- An entry of `routeCacheGlobalMiddlewares` / `routeCacheRouteMiddlewares`
(indexes are stored as decimal strings in the source; `lodash.get` on an
array with such a string is plain indexing, so they are modelled as `Nat`). -/
structure MwEntry where
  routeIndex : Nat
  callbackIndexes : List Nat
deriving DecidableEq, Repr

/-- Matched global middlewares: every global middleware that matches
contributes all of its own `route.callbacks` indexes. -/
def collectGlobalMws (req : Req) : Nat → List Route → List MwEntry
  | _, [] => []
  | i, r :: rs =>
    match matchRoute r req with
    | some _ => ⟨i, List.range r.callbacks.length⟩ :: collectGlobalMws req (i + 1) rs
    | none => collectGlobalMws req (i + 1) rs

def computeGlobalMws (gmws : List Route) (req : Req) : List MwEntry :=
  collectGlobalMws req 0 gmws

/-- Matched path middlewares (`isString(route.path) && isUndefined(route.method)`);
the callback indexes come from the match result's `callbacks`. -/
def collectRouteMws (req : Req) : Nat → List Route → List MwEntry
  | _, [] => []
  | i, r :: rs =>
    if r.path.isSome && r.method.isNone then
      match matchRoute r req with
      | some m => ⟨i, List.range m.callbacks.length⟩ :: collectRouteMws req (i + 1) rs
      | none => collectRouteMws req (i + 1) rs
    else collectRouteMws req (i + 1) rs

def computeRouteMws (routes : List Route) (req : Req) : List MwEntry :=
  collectRouteMws req 0 routes

/-- Matched terminal routes (`isString(route.path) && isString(route.method)`),
in registration order, before sorting. -/
def collectTerminal (req : Req) : Nat → List Route → List MatchedEntry
  | _, [] => []
  | i, r :: rs =>
    if r.path.isSome && r.method.isSome then
      match matchRoute r req with
      | some m => ⟨m, r, i⟩ :: collectTerminal req (i + 1) rs
      | none => collectTerminal req (i + 1) rs
    else collectTerminal req (i + 1) rs

def computeHandlerEntries (routes : List Route) (req : Req) : List MatchedEntry :=
  collectTerminal req 0 routes

/-- `routeCacheRouteHandlers` value: the matched terminal routes sorted by
the six-key comparator, reduced to their registration indexes. -/
def computeHandlers (routes : List Route) (req : Req) : List Nat :=
  (lodashOrderBy (sixKeys req) (computeHandlerEntries routes req)).map
    (fun e => e.routeIndex)

/-! ### The dispatch interpreter -/

/-- The mutable dispatch state of one `handle()` call. -/
structure DState where
  headersSent : Bool
  errorThrown : Option ErrVal
  contMw : Bool     -- continueProcessingMiddlewares
  contRh : Bool     -- continueProcessingRouteHandlers
  matched : Option MatchResult
deriving DecidableEq, Repr

def initDState : DState := ⟨false, none, true, true, none⟩

/-- Settlement of one per-callback promise: resolved with the boolean passed
by the `next` handler, resolved with one of the executor's control strings,
or rejected via `next(error)`. -/
inductive PResp
  | boolR (b : Bool)
  | endRouting
  | normal
  | skipMiddlewares
  | continueHandlers
  | continueHandler
  | continueCallback
  | rejected (e : ErrVal)
deriving DecidableEq, Repr

/-- A promise settles only once: keep the first settlement. -/
def keepFirst (fr : Option PResp) (r : PResp) : Option PResp :=
  match fr with
  | some x => some x
  | none => some r

/-- Later `resolve` calls on an already-settled promise are no-ops. -/
def resolveOr (fr : Option PResp) (r : PResp) : PResp := fr.getD r

/-- One invocation of the `nextFnGenerator` handler: `undefined`/`null`
resolves with the current `continueProcessingMiddlewares`; `"next"` sets it
and resolves `true`; `"skip"` clears it and resolves `false`; anything else
records the error, clears `continueProcessingRouteHandlers` and rejects. -/
def stepNext (st : DState) (fr : Option PResp) : NextArg → DState × Option PResp
  | .nil => (st, keepFirst fr (.boolR st.contMw))
  | .nextStr => ({ st with contMw := true }, keepFirst fr (.boolR true))
  | .skip => ({ st with contMw := false }, keepFirst fr (.boolR false))
  | .err e =>
    ({ st with contRh := false, errorThrown := some e }, keepFirst fr (.rejected e))

def runNexts (st : DState) (fr : Option PResp) : List NextArg → DState × Option PResp
  | [] => (st, fr)
  | a :: rest =>
    let p := stepNext st fr a
    runNexts p.1 p.2 rest

/-- Result of running one callback body inside the promise executor. -/
structure CbExec where
  st : DState
  firstRes : Option PResp
  threw : Bool
  hasBeenCalled : Bool
  retTruthy : Bool
deriving DecidableEq, Repr

/-- Execute a callback: apply its headers effect, process its `next` calls,
then (when it throws) let the executor's `catch` record the thrown value. -/
def execCb (st : DState) (cb : CbBeh) : CbExec :=
  let stH := if cb.sendsHeaders then { st with headersSent := true } else st
  let p := runNexts stH none cb.nextCalls
  match cb.throws with
  | some e =>
    ⟨{ p.1 with errorThrown := some e }, p.2, true, !cb.nextCalls.isEmpty, cb.retTruthy⟩
  | none => ⟨p.1, p.2, false, !cb.nextCalls.isEmpty, cb.retTruthy⟩

/-- Executor used for middlewares when no terminal route matched
(src/unnamed/part_001:400-430 and 488-518): a truthy return with headers not
yet sent is ended by the engine (`await response.end(resp)`); headers sent or
truthy return resolves `"end-routing"`, a throw resolves `"skip-middlewares"`,
anything else `"normal"`. -/
def siteNoRouteMw (st : DState) (cb : CbBeh) : DState × PResp :=
  let e := execCb st cb
  if e.threw then (e.st, resolveOr e.firstRes .skipMiddlewares)
  else if e.st.headersSent || e.retTruthy then
    let st' :=
      if !e.st.headersSent && e.retTruthy then { e.st with headersSent := true }
      else e.st
    (st', resolveOr e.firstRes .endRouting)
  else (e.st, resolveOr e.firstRes .normal)

/-- Executor used for middlewares of the terminal-route branch
(src/unnamed/part_001:624-653 and 706-735). -/
def siteRouteMw (st : DState) (cb : CbBeh) : DState × PResp :=
  let e := execCb st cb
  if e.threw then (e.st, resolveOr e.firstRes .continueHandlers)
  else if e.st.headersSent then (e.st, resolveOr e.firstRes .endRouting)
  else if !e.hasBeenCalled && !e.retTruthy then
    (e.st, resolveOr e.firstRes .skipMiddlewares)
  else (e.st, resolveOr e.firstRes .normal)

/-- Executor used for terminal-route callbacks (src/unnamed/part_001:797-824). -/
def siteTerminal (st : DState) (cb : CbBeh) (isLastCallback : Bool) : DState × PResp :=
  let e := execCb st cb
  if e.threw then (e.st, resolveOr e.firstRes .continueHandler)
  else if e.st.headersSent || (!e.hasBeenCalled && !e.retTruthy) then
    (e.st, resolveOr e.firstRes .endRouting)
  else
    (e.st,
      resolveOr e.firstRes (if isLastCallback then .continueHandler else .continueCallback))

/-- Which handler chain a recorded callback execution belongs to. -/
inductive Tier
  | globalMw
  | pathMw
  | terminal
deriving DecidableEq, Repr

/-- Ghost trace event: one callback execution. -/
structure Ev where
  tier : Tier
  routeIdx : Nat
  cbIdx : Nat
  cb : CbBeh
deriving DecidableEq, Repr

/-- The value `handle()` resolves with. -/
inductive HandleRet
  | matched (m : MatchResult)
  | trueR
  | undefRes
deriving DecidableEq, Repr

/-- The settlement of `handle()`'s promise. -/
inductive HandleOut
  | ok (r : HandleRet)
  | thrown (t : ThrownOut)
deriving DecidableEq, Repr

/-- `return matchedRoute || true`. -/
def retOrTrue (m : Option MatchResult) : HandleRet :=
  match m with
  | some mr => .matched mr
  | none => .trueR

/-- `return matchedRoute` (an `undefined` matched route resolves `undefined`). -/
def retOrUndefRes (m : Option MatchResult) : HandleRet :=
  match m with
  | some mr => .matched mr
  | none => .undefRes

/-- Final lines of `handle()` (src/unnamed/part_001:856-860). -/
def finalRet (st : DState) : HandleRet :=
  match st.matched, st.headersSent with
  | some m, true => .matched m
  | _, _ => .undefRes

end BunNode

namespace BunNode

/-! ### Loop structure of `handle()` (src/unnamed/part_001:334-861)

Each labelled loop of the source becomes a recursive function returning the
updated state, the trace of callback executions, and a control outcome that
mirrors the `break`/`continue`/`return`/rejection reached. -/

/-- Outcome of the callback loop of one middleware route in the
no-terminal-route branch: run the next middleware route, break out of the
tier loop, or a promise rejection escaping `handle()`. -/
inductive ACbOut
  | cont
  | brk
  | rej (e : ErrVal)
deriving DecidableEq, Repr

/-- `middleWareCallbackIterator` of the no-terminal-route branch: iterate the
cached callback indexes of one matched middleware route `r`.
`"end-routing"` re-matches the route into `matchedRoute`, clears both
continue flags and breaks the tier loop; `"skip-middlewares"` clears
`continueProcessingMiddlewares` and breaks the tier loop; a rejected promise
escapes; anything else continues with the next callback. -/
def aCbLoop (tier : Tier) (ri : Nat) (r : Route) (req : Req) (st : DState) :
    List Nat → DState × List Ev × ACbOut
  | [] => (st, [], .cont)
  | k :: ks =>
    match r.callbacks[k]? with
    | none => aCbLoop tier ri r req st ks
    | some cb =>
      let p := siteNoRouteMw st cb
      let ev : Ev := ⟨tier, ri, k, cb⟩
      match p.2 with
      | .endRouting =>
        ({ p.1 with contMw := false, contRh := false, matched := matchRoute r req },
          [ev], .brk)
      | .skipMiddlewares => ({ p.1 with contMw := false }, [ev], .brk)
      | .rejected e => (p.1, [ev], .rej e)
      | _ =>
        let rest := aCbLoop tier ri r req p.1 ks
        (rest.1, ev :: rest.2.1, rest.2.2)

/-- Outcome of a tier loop (and of the whole no-terminal-route middleware
phase): completion or a rejection escaping `handle()`. -/
inductive TierOut
  | done
  | rej (e : ErrVal)
deriving DecidableEq, Repr

/-- `globalMiddlewareIterator` / `routeMiddlewareIterator` of the
no-terminal-route branch: for each cached entry, stop when
`continueProcessingMiddlewares` is false, skip entries whose route index no
longer resolves, otherwise run the route's callback loop. -/
def aTier (tier : Tier) (src : List Route) (req : Req) (st : DState) :
    List MwEntry → DState × List Ev × TierOut
  | [] => (st, [], .done)
  | ent :: rest =>
    if st.contMw then
      match src[ent.routeIndex]? with
      | none => aTier tier src req st rest
      | some r =>
        let p := aCbLoop tier ent.routeIndex r req st ent.callbackIndexes
        match p.2.2 with
        | .cont =>
          let q := aTier tier src req p.1 rest
          (q.1, p.2.1 ++ q.2.1, q.2.2)
        | .brk => (p.1, p.2.1, .done)
        | .rej e => (p.1, p.2.1, .rej e)
    else (st, [], .done)

/-- Outcome of the no-terminal-route middleware phase. -/
inductive AOut
  | fallThrough
  | retOut (r : HandleRet)
  | thrownOut (t : ThrownOut)
deriving DecidableEq, Repr

/-- The no-terminal-route branch (src/unnamed/part_001:379-562): run the
global tier, check `errorThrown` (coercing via `throwError`) and
`headersSent` (returning `matchedRoute || true`), then the path-middleware
tier and the same checks. -/
def sectionA (gmws routes : List Route) (req : Req) (st : DState)
    (gE rmE : List MwEntry) : DState × List Ev × AOut :=
  let p := aTier .globalMw gmws req st gE
  match p.2.2 with
  | .rej e => (p.1, p.2.1, .thrownOut (.raw e))
  | .done =>
    match p.1.errorThrown with
    | some e => (p.1, p.2.1, .thrownOut (throwError' e))
    | none =>
      if p.1.headersSent then (p.1, p.2.1, .retOut (retOrTrue p.1.matched))
      else
        let q := aTier .pathMw routes req p.1 rmE
        match q.2.2 with
        | .rej e => (q.1, p.2.1 ++ q.2.1, .thrownOut (.raw e))
        | .done =>
          match q.1.errorThrown with
          | some e => (q.1, p.2.1 ++ q.2.1, .thrownOut (throwError' e))
          | none =>
            if q.1.headersSent then (q.1, p.2.1 ++ q.2.1, .retOut (retOrTrue q.1.matched))
            else (q.1, p.2.1 ++ q.2.1, .fallThrough)

/-- Outcome of the callback loop of one middleware route in the
terminal-route branch. -/
inductive BCbOut
  | cont
  | brkTier
  | brkHandle
  | contHandle
  | rej (e : ErrVal)
deriving DecidableEq, Repr

/-- `middleWareCallbackIterator` of the terminal-route branch:
`"end-routing"` re-matches the middleware route into `matchedRoute`, clears
both flags and breaks `handleIterator`; `"skip-middlewares"` clears
`continueProcessingMiddlewares` and breaks the tier loop;
`"continue-handlers"` continues `handleIterator`; a rejection escapes;
anything else continues with the next callback. -/
def bCbLoop (tier : Tier) (ri : Nat) (r : Route) (req : Req) (st : DState) :
    List Nat → DState × List Ev × BCbOut
  | [] => (st, [], .cont)
  | k :: ks =>
    match r.callbacks[k]? with
    | none => bCbLoop tier ri r req st ks
    | some cb =>
      let p := siteRouteMw st cb
      let ev : Ev := ⟨tier, ri, k, cb⟩
      match p.2 with
      | .endRouting =>
        ({ p.1 with contMw := false, contRh := false, matched := matchRoute r req },
          [ev], .brkHandle)
      | .skipMiddlewares => ({ p.1 with contMw := false }, [ev], .brkTier)
      | .continueHandlers => (p.1, [ev], .contHandle)
      | .rejected e => (p.1, [ev], .rej e)
      | _ =>
        let rest := bCbLoop tier ri r req p.1 ks
        (rest.1, ev :: rest.2.1, rest.2.2)

/-- Outcome of a middleware tier loop in the terminal-route branch. -/
inductive BTierOut
  | done
  | brkHandle
  | contHandle
  | rej (e : ErrVal)
deriving DecidableEq, Repr

/-- Middleware tier loop of the terminal-route branch. -/
def bTier (tier : Tier) (src : List Route) (req : Req) (st : DState) :
    List MwEntry → DState × List Ev × BTierOut
  | [] => (st, [], .done)
  | ent :: rest =>
    if st.contMw then
      match src[ent.routeIndex]? with
      | none => bTier tier src req st rest
      | some r =>
        let p := bCbLoop tier ent.routeIndex r req st ent.callbackIndexes
        match p.2.2 with
        | .cont =>
          let q := bTier tier src req p.1 rest
          (q.1, p.2.1 ++ q.2.1, q.2.2)
        | .brkTier => (p.1, p.2.1, .done)
        | .brkHandle => (p.1, p.2.1, .brkHandle)
        | .contHandle => (p.1, p.2.1, .contHandle)
        | .rej e => (p.1, p.2.1, .rej e)
    else (st, [], .done)

/-- Outcome of the terminal callback loop (`handleCallbackIterator`). -/
inductive TCbOut
  | finished
  | retM
  | brkHandle
  | contHandle
  | rej (e : ErrVal)
deriving DecidableEq, Repr

/-- `handleCallbackIterator` (src/unnamed/part_001:780-853): iterate the
positions of `matchedRoute.callbacks`; each iteration first returns
`matchedRoute` when `continueProcessingRouteHandlers` is false; a
non-function callback returns `matchedRoute` when it is the last callback of
the last candidate; `"end-routing"` re-matches the candidate route `r` and
breaks `handleIterator`; `"continue-handlers"` continues `handleIterator`;
a rejection escapes; `"continue-callback"`, `"continue-handler"` and the
boolean resolutions continue with the next callback. -/
def tCbLoop (ri : Nat) (r : Route) (cbs : List CbBeh) (isLastHandler : Bool)
    (req : Req) (st : DState) : List Nat → DState × List Ev × TCbOut
  | [] => (st, [], .finished)
  | k :: ks =>
    if st.contRh then
      let isLastCallback := k = cbs.length - 1
      match cbs[k]? with
      | none =>
        if isLastHandler && isLastCallback then (st, [], .retM)
        else tCbLoop ri r cbs isLastHandler req st ks
      | some cb =>
        let p := siteTerminal st cb isLastCallback
        let ev : Ev := ⟨.terminal, ri, k, cb⟩
        match p.2 with
        | .endRouting =>
          ({ p.1 with contMw := false, contRh := false, matched := matchRoute r req },
            [ev], .brkHandle)
        | .continueHandlers => (p.1, [ev], .contHandle)
        | .rejected e => (p.1, [ev], .rej e)
        | _ =>
          let rest := tCbLoop ri r cbs isLastHandler req p.1 ks
          (rest.1, ev :: rest.2.1, rest.2.2)
    else (st, [], .retM)

/-- Outcome of `handleIterator`. -/
inductive HIterOut
  | finished
  | ret (r : HandleRet)
  | thrown (t : ThrownOut)
deriving DecidableEq, Repr

/-- `handleIterator` (src/unnamed/part_001:568-854) over the remaining
(position, candidate route index) pairs.  Each iteration: coerce and throw a
recorded error; return `matchedRoute` when `continueProcessingRouteHandlers`
is false; resolve and re-match the candidate (skipping on failure); set
`matchedRoute`; run the global then path middleware tiers; return
`matchedRoute || true` when headers were sent; then run the candidate's
callback list. -/
def handleIter (routes gmws : List Route) (gE rmE : List MwEntry)
    (candCount : Nat) (req : Req) (st : DState) :
    List (Nat × Nat) → DState × List Ev × HIterOut
  | [] => (st, [], .finished)
  | (j, ci) :: rest =>
    match st.errorThrown with
    | some e => (st, [], .thrown (throwError' e))
    | none =>
      if st.contRh then
        match routes[ci]? with
        | none => handleIter routes gmws gE rmE candCount req st rest
        | some r =>
          match matchRoute r req with
          | none => handleIter routes gmws gE rmE candCount req st rest
          | some m =>
            let isLastHandler := j = candCount - 1
            let st1 := { st with matched := some m }
            let pG := bTier .globalMw gmws req st1 gE
            match pG.2.2 with
            | .brkHandle => (pG.1, pG.2.1, .finished)
            | .contHandle =>
              let q := handleIter routes gmws gE rmE candCount req pG.1 rest
              (q.1, pG.2.1 ++ q.2.1, q.2.2)
            | .rej e => (pG.1, pG.2.1, .thrown (.raw e))
            | .done =>
              let pR := bTier .pathMw routes req pG.1 rmE
              match pR.2.2 with
              | .brkHandle => (pR.1, pG.2.1 ++ pR.2.1, .finished)
              | .contHandle =>
                let q := handleIter routes gmws gE rmE candCount req pR.1 rest
                (q.1, pG.2.1 ++ pR.2.1 ++ q.2.1, q.2.2)
              | .rej e => (pR.1, pG.2.1 ++ pR.2.1, .thrown (.raw e))
              | .done =>
                if pR.1.headersSent then
                  (pR.1, pG.2.1 ++ pR.2.1, .ret (retOrTrue pR.1.matched))
                else
                  let pT := tCbLoop ci r m.callbacks isLastHandler req pR.1
                    (List.range m.callbacks.length)
                  let evs := pG.2.1 ++ pR.2.1 ++ pT.2.1
                  match pT.2.2 with
                  | .finished =>
                    let q := handleIter routes gmws gE rmE candCount req pT.1 rest
                    (q.1, evs ++ q.2.1, q.2.2)
                  | .retM => (pT.1, evs, .ret (retOrUndefRes pT.1.matched))
                  | .brkHandle => (pT.1, evs, .finished)
                  | .contHandle =>
                    let q := handleIter routes gmws gE rmE candCount req pT.1 rest
                    (q.1, evs ++ q.2.1, q.2.2)
                  | .rej e => (pT.1, evs, .thrown (.raw e))
      else (st, [], .ret (retOrUndefRes st.matched))

/-- The result of one `handle()` call: the ghost trace, the settlement of
the returned promise, and the final dispatch state (ghost). -/
structure HandleResult where
  events : List Ev
  out : HandleOut
  finalSt : DState
deriving DecidableEq, Repr

/-- Dispatch given the resolved middleware/candidate lists: the
no-terminal-route branch runs only when the candidate list is empty; the
candidate loop follows; the final lines return `matchedRoute` only when it
is set and headers were sent, otherwise `undefined`. -/
def handleCore (routes gmws : List Route) (gE rmE : List MwEntry)
    (cands : List Nat) (req : Req) : HandleResult :=
  if cands.isEmpty then
    let p := sectionA gmws routes req initDState gE rmE
    match p.2.2 with
    | .thrownOut t => ⟨p.2.1, .thrown t, p.1⟩
    | .retOut r => ⟨p.2.1, .ok r, p.1⟩
    | .fallThrough => ⟨p.2.1, .ok (finalRet p.1), p.1⟩
  else
    let p := handleIter routes gmws gE rmE cands.length req initDState
      cands.enum
    match p.2.2 with
    | .finished => ⟨p.2.1, .ok (finalRet p.1), p.1⟩
    | .ret r => ⟨p.2.1, .ok r, p.1⟩
    | .thrown t => ⟨p.2.1, .thrown t, p.1⟩

/-- Association list standing for the `Map` caches. -/
def lookupA {β : Type} (k : String) : List (String × β) → Option β
  | [] => none
  | (k', v) :: rest => if k' = k then some v else lookupA k rest

def setA {β : Type} (k : String) (v : β) : List (String × β) → List (String × β)
  | [] => [(k, v)]
  | (k', v') :: rest => if k' = k then (k, v) :: rest else (k', v') :: setA k v rest

/-- The router's mutable state: the lazily built `_globalMiddlewares` list
(with its `_hasSetGlobalMiddlewares` flag) and the three match caches. -/
structure RouterState where
  hasSetGlobalMws : Bool
  globalMws : List Route
  cacheGlobal : List (String × List MwEntry)
  cacheRouteMw : List (String × List MwEntry)
  cacheHandlers : List (String × List Nat)

def initRouterState : RouterState := ⟨false, [], [], [], []⟩

/-- `BunRouter.handle` (src/unnamed/part_001:108-862): build the global
middleware list on first use, resolve the three lists from cache or compute
and store them, then dispatch. -/
def handle (routes : List Route) (rs : RouterState) (req : Req) :
    HandleResult × RouterState :=
  let gmws :=
    if rs.hasSetGlobalMws then rs.globalMws
    else routes.filter (fun r => r.method.isNone && r.path.isNone)
  let rs1 : RouterState := { rs with hasSetGlobalMws := true, globalMws := gmws }
  let key := cacheKey req
  let p1 :=
    match lookupA key rs1.cacheGlobal with
    | some v => (v, rs1)
    | none =>
      let v := computeGlobalMws gmws req
      (v, { rs1 with cacheGlobal := setA key v rs1.cacheGlobal })
  let p2 :=
    match lookupA key p1.2.cacheRouteMw with
    | some v => (v, p1.2)
    | none =>
      let v := computeRouteMws routes req
      (v, { p1.2 with cacheRouteMw := setA key v p1.2.cacheRouteMw })
  let p3 :=
    match lookupA key p2.2.cacheHandlers with
    | some v => (v, p2.2)
    | none =>
      let v := computeHandlers routes req
      (v, { p2.2 with cacheHandlers := setA key v p2.2.cacheHandlers })
  (handleCore routes gmws p1.1 p2.1 p3.1 req, p3.2)

/-- Options accepted by `setRoute`. -/
structure RouteOption where
  host : Option String
  path : String
  method : Option String
  name : Option String
  params : List String
  callbacks : List CbBeh
  matchFn : String → String → String → Option MatchResult

def RouteOption.toRoute (o : RouteOption) : Route :=
  ⟨o.host, some o.path, o.method, o.name, o.params, o.callbacks, o.matchFn⟩

/-- `BunRouter.setRoute` (src/unnamed/part_001:62-90): when `option.name` is
truthy (a non-empty string) and an existing route carries the same name, the
call throws before anything is appended; otherwise the constructed route is
appended to the table (`this.use(route)`). -/
def setRoute (routes : List Route) (o : RouteOption) :
    Except String (List Route) :=
  let dup :=
    match o.name with
    | some n => n ≠ "" && routes.any (fun r => r.name = some n)
    | none => false
  if dup then
    .error ("Route with name \"" ++ o.name.getD "" ++ "\" already exists..")
  else
    .ok (routes ++ [o.toRoute])

end BunNode

namespace BunNode

/-! ### Cache lemmas and C7 -/

theorem lookupA_setA_self {β : Type} (k : String) (v : β) (m : List (String × β)) :
    lookupA k (setA k v m) = some v := by
  induction m with
  | nil => simp [setA, lookupA]
  | cons hd tl ih =>
    by_cases h : hd.1 = k
    · simp [setA, h, lookupA]
    · simp [setA, h, lookupA, ih]

/-- C7: calling `handle` a second time with the identical request against an
unchanged route table yields the identical result (trace, outcome and final
state included) and leaves the router state unchanged: the cache-hit path is
equivalent to the cache-miss computation. -/
theorem c7_cache_idempotent (routes : List Route) (req : Req) :
    handle routes (handle routes initRouterState req).2 req =
      handle routes initRouterState req := by
  simp [handle, initRouterState, lookupA, lookupA_setA_self, setA]

end BunNode

namespace BunNode

/-! ### C9: duplicate route names -/

/-- C9 (amended): a registration whose NON-EMPTY name equals the name of an
already-registered route fails with the duplicate-name error (nothing is
appended and the existing table is untouched, the check happening before
`this.use`); a registration without such a collision appends the new route
at the end of the table, leaving all existing routes in place. -/
theorem c9_duplicate_name_registration :
    (∀ (routes : List Route) (o : RouteOption) (n : String),
        o.name = some n → n ≠ "" → (∃ r ∈ routes, r.name = some n) →
        setRoute routes o =
          .error ("Route with name \"" ++ n ++ "\" already exists..")) ∧
    (∀ (routes : List Route) (o : RouteOption),
        (∀ n, o.name = some n → n = "" ∨ ∀ r ∈ routes, r.name ≠ some n) →
        setRoute routes o = .ok (routes ++ [o.toRoute])) := by
  constructor
  · rintro routes o n h1 h2 ⟨r, hr, hrn⟩
    simp only [setRoute, h1]
    have hany : routes.any (fun r => r.name = some n) = true :=
      List.any_eq_true.mpr ⟨r, hr, by simp [hrn]⟩
    simp [hany, h2]
  · intro routes o h
    simp only [setRoute]
    match ho : o.name with
    | none => simp
    | some n =>
      rcases h n ho with h' | h'
      · simp [h']
      · have hany : routes.any (fun r => r.name = some n) = false := by
          rw [List.any_eq_false]
          intro r hr
          simp [h' r hr]
        simp [hany]

/-- A route / registration option carrying the empty-string name. -/
def emptyNameRoute : Route :=
  ⟨none, some "/e", some "GET", some "", [], [], fun _ _ _ => none⟩

def emptyNameOpt : RouteOption :=
  ⟨none, "/e2", some "GET", some "", [], [], fun _ _ _ => none⟩

/-- C9 counterexample: registering a route whose name `""` equals the name
of an already-registered route SUCCEEDS and appends (the source guards the
duplicate check with the truthiness test `if (option.name)`), contradicting
the claim that every registration with a colliding name fails. -/
theorem c9_counterexample :
    setRoute [emptyNameRoute] emptyNameOpt =
      .ok [emptyNameRoute, emptyNameOpt.toRoute] := rfl

def wRoute : Route := ⟨none, some "/w", some "GET", some "dup", [], [], fun _ _ _ => none⟩

def wOpt : RouteOption := ⟨none, "/w2", some "GET", some "dup", [], [], fun _ _ _ => none⟩

theorem c9_witness :
    setRoute [wRoute] wOpt = .error ("Route with name \"dup\" already exists..") ∧
    setRoute [wRoute] { wOpt with name := some "fresh" } =
      .ok ([wRoute] ++ [({ wOpt with name := some "fresh" } : RouteOption).toRoute]) :=
  ⟨c9_duplicate_name_registration.1 [wRoute] wOpt "dup" rfl (by decide)
      ⟨wRoute, by simp, rfl⟩,
    c9_duplicate_name_registration.2 [wRoute] _ (by
      intro n hn
      right
      intro r hr
      simp only [List.mem_singleton] at hr
      subst hr
      simp only [RouteOption.name] at hn
      intro hcontra
      rw [show wRoute.name = some "dup" from rfl] at hcontra
      rw [← hn] at hcontra
      simp at hcontra)⟩

end BunNode

namespace BunNode

/-! ### C1: the six-key specificity ordering -/

theorem leKeys_nil {α : Type} (a b : α) : leKeys [] a b = true := rfl

theorem leKeys_cons_asc {α : Type} (f : α → Nat) (ks : List ((α → Nat) × Bool))
    (a b : α) :
    leKeys ((f, false) :: ks) a b = true ↔
      f a < f b ∨ (f a = f b ∧ leKeys ks a b = true) := by
  rcases Nat.lt_trichotomy (f a) (f b) with h | h | h
  · have h1 : cmpAsc (f a) (f b) = .lt := by simp [cmpAsc, h]
    simp only [leKeys, cmpKeys, h1]
    constructor
    · intro _; exact Or.inl h
    · intro _; rfl
  · have h1 : cmpAsc (f a) (f b) = .eq := by simp [cmpAsc, h]
    simp only [leKeys, cmpKeys, h1]
    constructor
    · intro hk; exact Or.inr ⟨h, hk⟩
    · rintro (hlt | ⟨_, hk⟩)
      · omega
      · exact hk
  · have h1 : cmpAsc (f a) (f b) = .gt := by
      have h2 : ¬ f a < f b := by omega
      simp [cmpAsc, h2, h]
    simp only [leKeys, cmpKeys, h1]
    constructor
    · intro hk; cases hk
    · rintro (hlt | ⟨he, _⟩) <;> omega

theorem leKeys_cons_desc {α : Type} (f : α → Nat) (ks : List ((α → Nat) × Bool))
    (a b : α) :
    leKeys ((f, true) :: ks) a b = true ↔
      f b < f a ∨ (f a = f b ∧ leKeys ks a b = true) := by
  rcases Nat.lt_trichotomy (f a) (f b) with h | h | h
  · have h1 : cmpAsc (f a) (f b) = .lt := by simp [cmpAsc, h]
    simp only [leKeys, cmpKeys, h1, Ordering.swap]
    constructor
    · intro hk; cases hk
    · rintro (hlt | ⟨he, _⟩) <;> omega
  · have h1 : cmpAsc (f a) (f b) = .eq := by simp [cmpAsc, h]
    simp only [leKeys, cmpKeys, h1, Ordering.swap]
    constructor
    · intro hk; exact Or.inr ⟨h, hk⟩
    · rintro (hlt | ⟨_, hk⟩)
      · omega
      · exact hk
  · have h1 : cmpAsc (f a) (f b) = .gt := by
      have h2 : ¬ f a < f b := by omega
      simp [cmpAsc, h2, h]
    simp only [leKeys, cmpKeys, h1, Ordering.swap]
    constructor
    · intro _; exact Or.inl h
    · intro _; rfl

theorem leKeys_total {α : Type} (ks : List ((α → Nat) × Bool)) (a b : α) :
    leKeys ks a b = true ∨ leKeys ks b a = true := by
  induction ks with
  | nil => exact Or.inl rfl
  | cons hd tl ih =>
    obtain ⟨f, d⟩ := hd
    cases d
    · rcases Nat.lt_trichotomy (f a) (f b) with h | h | h
      · exact Or.inl ((leKeys_cons_asc f tl a b).mpr (Or.inl h))
      · rcases ih with h' | h'
        · exact Or.inl ((leKeys_cons_asc f tl a b).mpr (Or.inr ⟨h, h'⟩))
        · exact Or.inr ((leKeys_cons_asc f tl b a).mpr (Or.inr ⟨h.symm, h'⟩))
      · exact Or.inr ((leKeys_cons_asc f tl b a).mpr (Or.inl h))
    · rcases Nat.lt_trichotomy (f a) (f b) with h | h | h
      · exact Or.inr ((leKeys_cons_desc f tl b a).mpr (Or.inl h))
      · rcases ih with h' | h'
        · exact Or.inl ((leKeys_cons_desc f tl a b).mpr (Or.inr ⟨h, h'⟩))
        · exact Or.inr ((leKeys_cons_desc f tl b a).mpr (Or.inr ⟨h.symm, h'⟩))
      · exact Or.inl ((leKeys_cons_desc f tl a b).mpr (Or.inl h))

theorem leKeys_trans {α : Type} (ks : List ((α → Nat) × Bool)) (a b c : α) :
    leKeys ks a b = true → leKeys ks b c = true → leKeys ks a c = true := by
  induction ks with
  | nil => intro _ _; rfl
  | cons hd tl ih =>
    obtain ⟨f, d⟩ := hd
    cases d
    · rw [leKeys_cons_asc, leKeys_cons_asc, leKeys_cons_asc]
      rintro (h1 | ⟨h1e, h1r⟩) (h2 | ⟨h2e, h2r⟩)
      · exact Or.inl (by omega)
      · exact Or.inl (by omega)
      · exact Or.inl (by omega)
      · exact Or.inr ⟨by omega, ih h1r h2r⟩
    · rw [leKeys_cons_desc, leKeys_cons_desc, leKeys_cons_desc]
      rintro (h1 | ⟨h1e, h1r⟩) (h2 | ⟨h2e, h2r⟩)
      · exact Or.inl (by omega)
      · exact Or.inl (by omega)
      · exact Or.inl (by omega)
      · exact Or.inr ⟨by omega, ih h1r h2r⟩

/-- All criteria agree on `a` and `b`. -/
def allKeysEq {α : Type} (ks : List ((α → Nat) × Bool)) (a b : α) : Prop :=
  ∀ p ∈ ks, p.1 a = p.1 b

theorem allKeysEq_leKeys {α : Type} (ks : List ((α → Nat) × Bool)) (a b : α) :
    allKeysEq ks a b → leKeys ks a b = true := by
  induction ks with
  | nil => intro _; rfl
  | cons hd tl ih =>
    obtain ⟨f, d⟩ := hd
    intro h
    have h1 : f a = f b := h (f, d) (List.mem_cons_self _ _)
    have h2 : allKeysEq tl a b := fun p hp => h p (List.mem_cons_of_mem _ hp)
    cases d
    · exact (leKeys_cons_asc f tl a b).mpr (Or.inr ⟨h1, ih h2⟩)
    · exact (leKeys_cons_desc f tl a b).mpr (Or.inr ⟨h1, ih h2⟩)

/-! Stable insertion sort lemmas for the `orderBy` model. -/

theorem insertLe_perm {α : Type} (le : α → α → Bool) (x : α) (l : List α) :
    (insertLe le x l).Perm (x :: l) := by
  induction l with
  | nil => exact List.Perm.refl _
  | cons y ys ih =>
    by_cases h : le x y = true
    · simp only [insertLe, h, if_true]
      exact List.Perm.refl _
    · simp only [insertLe, h, if_false, Bool.false_eq_true]
      exact (List.Perm.cons y ih).trans (List.Perm.swap x y ys)

theorem mem_insertLe {α : Type} (le : α → α → Bool) (x : α) (l : List α) (z : α) :
    z ∈ insertLe le x l ↔ z = x ∨ z ∈ l := by
  rw [(insertLe_perm le x l).mem_iff]
  simp

theorem sortLe_perm {α : Type} (le : α → α → Bool) (l : List α) :
    (sortLe le l).Perm l := by
  induction l with
  | nil => exact List.Perm.refl _
  | cons x xs ih =>
    exact (insertLe_perm le x (sortLe le xs)).trans (List.Perm.cons x ih)

theorem pairwise_insertLe {α : Type} (le : α → α → Bool)
    (htot : ∀ a b, le a b = true ∨ le b a = true)
    (htrans : ∀ a b c, le a b = true → le b c = true → le a c = true)
    (x : α) (l : List α) (hl : l.Pairwise (fun a b => le a b = true)) :
    (insertLe le x l).Pairwise (fun a b => le a b = true) := by
  induction l with
  | nil => simp [insertLe]
  | cons y ys ih =>
    rcases List.pairwise_cons.mp hl with ⟨hy, hys⟩
    by_cases h : le x y = true
    · simp only [insertLe, h, if_true]
      refine List.pairwise_cons.mpr ⟨?_, hl⟩
      intro z hz
      rcases List.mem_cons.mp hz with hz | hz
      · subst hz; exact h
      · exact htrans x y z h (hy z hz)
    · simp only [insertLe, h, if_false, Bool.false_eq_true]
      refine List.pairwise_cons.mpr ⟨?_, ih hys⟩
      intro z hz
      rcases (mem_insertLe le x ys z).mp hz with hz | hz
      · subst hz
        rcases htot z y with h' | h'
        · exact absurd h' h
        · exact h'
      · exact hy z hz

theorem sortLe_pairwise {α : Type} (le : α → α → Bool)
    (htot : ∀ a b, le a b = true ∨ le b a = true)
    (htrans : ∀ a b c, le a b = true → le b c = true → le a c = true)
    (l : List α) : (sortLe le l).Pairwise (fun a b => le a b = true) := by
  induction l with
  | nil => simp [sortLe]
  | cons x xs ih => exact pairwise_insertLe le htot htrans x (sortLe le xs) ih

theorem stable_insertLe {α : Type} (le : α → α → Bool) (idx : α → Nat)
    (E : α → α → Prop) (hE : ∀ a b, E a b → le a b = true)
    (hEsymm : ∀ a b, E a b → E b a) (x : α) (l : List α)
    (hx : ∀ y ∈ l, idx x < idx y)
    (hl : l.Pairwise (fun a b => E a b → idx a < idx b)) :
    (insertLe le x l).Pairwise (fun a b => E a b → idx a < idx b) := by
  induction l with
  | nil => simp [insertLe]
  | cons y ys ih =>
    rcases List.pairwise_cons.mp hl with ⟨hy, hys⟩
    by_cases h : le x y = true
    · simp only [insertLe, h, if_true]
      refine List.pairwise_cons.mpr ⟨?_, hl⟩
      intro z hz _
      exact hx z hz
    · simp only [insertLe, h, if_false, Bool.false_eq_true]
      refine List.pairwise_cons.mpr ⟨?_, ?_⟩
      · intro z hz
        rcases (mem_insertLe le x ys z).mp hz with hz | hz
        · subst hz
          intro hyx
          exact absurd (hE z y (hEsymm y z hyx)) h
        · exact hy z hz
      · exact ih (fun z hz => hx z (List.mem_cons_of_mem _ hz)) hys

theorem stable_sortLe {α : Type} (le : α → α → Bool) (idx : α → Nat)
    (E : α → α → Prop) (hE : ∀ a b, E a b → le a b = true)
    (hEsymm : ∀ a b, E a b → E b a) (l : List α)
    (hl : l.Pairwise (fun a b => idx a < idx b)) :
    (sortLe le l).Pairwise (fun a b => E a b → idx a < idx b) := by
  induction l with
  | nil => simp [sortLe]
  | cons x xs ih =>
    rcases List.pairwise_cons.mp hl with ⟨hx, hxs⟩
    refine stable_insertLe le idx E hE hEsymm x (sortLe le xs) ?_ (ih hxs)
    intro y hy
    exact hx y ((sortLe_perm le xs).mem_iff.mp hy)

theorem collectTerminal_idx_ge (req : Req) (i : Nat) (rs : List Route) :
    ∀ e ∈ collectTerminal req i rs, i ≤ e.routeIndex := by
  induction rs generalizing i with
  | nil => intro e he; simp [collectTerminal] at he
  | cons r rest ih =>
    intro e he
    simp only [collectTerminal] at he
    by_cases hg : (r.path.isSome && r.method.isSome) = true
    · rw [if_pos hg] at he
      cases hm : matchRoute r req with
      | none =>
        rw [hm] at he
        exact Nat.le_of_succ_le (ih (i + 1) e he)
      | some m =>
        rw [hm] at he
        rcases List.mem_cons.mp he with he | he
        · subst he; exact Nat.le_refl i
        · exact Nat.le_of_succ_le (ih (i + 1) e he)
    · rw [if_neg hg] at he
      exact Nat.le_of_succ_le (ih (i + 1) e he)

theorem collectTerminal_pairwise_idx (req : Req) (i : Nat) (rs : List Route) :
    (collectTerminal req i rs).Pairwise
      (fun a b => a.routeIndex < b.routeIndex) := by
  induction rs generalizing i with
  | nil => simp [collectTerminal]
  | cons r rest ih =>
    simp only [collectTerminal]
    by_cases hg : (r.path.isSome && r.method.isSome) = true
    · rw [if_pos hg]
      cases hm : matchRoute r req with
      | none => exact ih (i + 1)
      | some m =>
        refine List.pairwise_cons.mpr ⟨?_, ih (i + 1)⟩
        intro e he
        have := collectTerminal_idx_ge req (i + 1) rest e he
        simpa using Nat.lt_of_succ_le this
    · rw [if_neg hg]
      exact ih (i + 1)

/-- The spec's six-key comparator, written out as the prioritized
comparison of §4.4: host-match exactness ascending, declared-host length
descending, method-match exactness ascending, path-parameter count
ascending, named-capture count descending, regex-segment count descending. -/
def specSixLe (req : Req) (a b : MatchedEntry) : Prop :=
  hostExactKey req a < hostExactKey req b ∨
    (hostExactKey req a = hostExactKey req b ∧
      (hostLenKey b < hostLenKey a ∨
        (hostLenKey a = hostLenKey b ∧
          (methodExactKey req a < methodExactKey req b ∨
            (methodExactKey req a = methodExactKey req b ∧
              (paramCountKey a < paramCountKey b ∨
                (paramCountKey a = paramCountKey b ∧
                  (namedParamsKey b < namedParamsKey a ∨
                    (namedParamsKey a = namedParamsKey b ∧
                      (regexpKey b < regexpKey a ∨
                        regexpKey a = regexpKey b))))))))))

/-- Equality under all six specificity keys. -/
def sameSixKeys (req : Req) (a b : MatchedEntry) : Prop :=
  hostExactKey req a = hostExactKey req b ∧ hostLenKey a = hostLenKey b ∧
    methodExactKey req a = methodExactKey req b ∧
    paramCountKey a = paramCountKey b ∧ namedParamsKey a = namedParamsKey b ∧
    regexpKey a = regexpKey b

theorem leKeys_six_iff (req : Req) (a b : MatchedEntry) :
    leKeys (sixKeys req) a b = true ↔ specSixLe req a b := by
  simp only [sixKeys, leKeys_cons_asc, leKeys_cons_desc, leKeys_nil, and_true,
    specSixLe]

theorem sameSixKeys_allEq (req : Req) (a b : MatchedEntry) :
    sameSixKeys req a b → allKeysEq (sixKeys req) a b := by
  intro h p hp
  simp only [sixKeys, List.mem_cons, List.not_mem_nil, or_false] at hp
  obtain ⟨h1, h2, h3, h4, h5, h6⟩ := h
  rcases hp with hp | hp | hp | hp | hp | hp <;> subst hp <;> assumption

/-- C1: the terminal-route candidate order cached and dispatched by
`handle()` (`computeHandlers`, stored in `routeCacheRouteHandlers` and then
iterated in order by the candidate loop) is exactly the six-key comparator
order of §4.4: it is a permutation of the matching terminal routes, it is
sorted by the prioritized comparison (host exactness asc, declared-host
length desc, method exactness asc, path-parameter count asc, named-capture
count desc, regex-segment count desc), and candidates equal under all six
keys keep their registration order (stable sort). -/
theorem c1_terminal_specificity_order (routes : List Route) (req : Req) :
    computeHandlers routes req =
        (lodashOrderBy (sixKeys req) (computeHandlerEntries routes req)).map
          (fun e => e.routeIndex) ∧
      (lodashOrderBy (sixKeys req) (computeHandlerEntries routes req)).Perm
        (computeHandlerEntries routes req) ∧
      (lodashOrderBy (sixKeys req) (computeHandlerEntries routes req)).Pairwise
        (specSixLe req) ∧
      (lodashOrderBy (sixKeys req) (computeHandlerEntries routes req)).Pairwise
        (fun a b => sameSixKeys req a b → a.routeIndex < b.routeIndex) := by
  refine ⟨rfl, sortLe_perm _ _, ?_, ?_⟩
  · have h := sortLe_pairwise (leKeys (sixKeys req)) (leKeys_total _)
      (leKeys_trans _) (computeHandlerEntries routes req)
    exact h.imp (fun hab => (leKeys_six_iff req _ _).mp hab)
  · refine stable_sortLe (leKeys (sixKeys req)) (fun e => e.routeIndex)
      (sameSixKeys req) ?_ ?_ _ ?_
    · intro a b hab
      exact allKeysEq_leKeys _ _ _ (sameSixKeys_allEq req a b hab)
    · intro a b hab
      obtain ⟨h1, h2, h3, h4, h5, h6⟩ := hab
      exact ⟨h1.symm, h2.symm, h3.symm, h4.symm, h5.symm, h6.symm⟩
    · exact collectTerminal_pairwise_idx req 0 routes

end BunNode

namespace BunNode

/-! ### Executor-site lemmas -/

theorem runNexts_keepFirst (x : PResp) (args : List NextArg) :
    ∀ st : DState, (runNexts st (some x) args).2 = some x := by
  induction args with
  | nil => intro st; rfl
  | cons a rest ih =>
    intro st
    have h : (stepNext st (some x) a).2 = some x := by cases a <;> rfl
    simp only [runNexts]
    rw [h]
    exact ih _

/-- The first argument ever passed to `next`, when it is an error signal. -/
def firstNextErr (cb : CbBeh) : Option ErrVal :=
  match cb.nextCalls with
  | .err e :: _ => some e
  | _ => none

theorem execCb_firstRes_rej (st : DState) (cb : CbBeh) (er : ErrVal)
    (h : firstNextErr cb = some er) :
    (execCb st cb).firstRes = some (.rejected er) := by
  cases hcalls : cb.nextCalls with
  | nil => simp [firstNextErr, hcalls] at h
  | cons a rest =>
    cases a with
    | err e' =>
      have he : e' = er := by
        simp only [firstNextErr, hcalls] at h
        exact Option.some_injective _ h
      subst he
      simp only [execCb, hcalls, runNexts, stepNext, keepFirst]
      rw [runNexts_keepFirst]
      cases cb.throws <;> rfl
    | nil => simp [firstNextErr, hcalls] at h
    | nextStr => simp [firstNextErr, hcalls] at h
    | skip => simp [firstNextErr, hcalls] at h

theorem siteNoRouteMw_rej (st : DState) (cb : CbBeh) (er : ErrVal)
    (h : firstNextErr cb = some er) :
    (siteNoRouteMw st cb).2 = .rejected er := by
  have h1 := execCb_firstRes_rej st cb er h
  simp only [siteNoRouteMw, resolveOr, h1, Option.getD_some]
  split <;> try rfl
  split <;> rfl

theorem siteRouteMw_rej (st : DState) (cb : CbBeh) (er : ErrVal)
    (h : firstNextErr cb = some er) :
    (siteRouteMw st cb).2 = .rejected er := by
  have h1 := execCb_firstRes_rej st cb er h
  simp only [siteRouteMw, resolveOr, h1, Option.getD_some]
  split <;> try rfl
  split <;> try rfl
  split <;> rfl

theorem siteTerminal_rej (st : DState) (cb : CbBeh) (er : ErrVal) (isLast : Bool)
    (h : firstNextErr cb = some er) :
    (siteTerminal st cb isLast).2 = .rejected er := by
  have h1 := execCb_firstRes_rej st cb er h
  simp only [siteTerminal, resolveOr, h1, Option.getD_some]
  split <;> try rfl
  split <;> rfl

theorem execCb_noNext_noThrow (st : DState) (cb : CbBeh)
    (h1 : cb.nextCalls = []) (h2 : cb.throws = none) :
    execCb st cb =
      ⟨if cb.sendsHeaders then { st with headersSent := true } else st,
        none, false, false, cb.retTruthy⟩ := by
  simp [execCb, h1, h2, runNexts]

theorem siteNoRouteMw_halt (st : DState) (cb : CbBeh)
    (h1 : cb.nextCalls = []) (h2 : cb.throws = none)
    (h3 : cb.sendsHeaders = true ∨ cb.retTruthy = true) :
    siteNoRouteMw st cb = ({ st with headersSent := true }, .endRouting) := by
  obtain ⟨hsent, eth, cmw, crh, mtd⟩ := st
  simp only [siteNoRouteMw, execCb_noNext_noThrow _ cb h1 h2]
  rcases h3 with h3 | h3
  · simp [h3, resolveOr]
  · cases hs : cb.sendsHeaders <;> cases hsent <;> simp [h3, resolveOr, hs]

theorem siteRouteMw_halt (st : DState) (cb : CbBeh)
    (h1 : cb.nextCalls = []) (h2 : cb.throws = none)
    (h3 : cb.sendsHeaders = true) :
    siteRouteMw st cb = ({ st with headersSent := true }, .endRouting) := by
  simp [siteRouteMw, execCb_noNext_noThrow st cb h1 h2, h3, resolveOr]

theorem siteTerminal_halt (st : DState) (cb : CbBeh) (isLast : Bool)
    (h1 : cb.nextCalls = []) (h2 : cb.throws = none)
    (h3 : cb.sendsHeaders = true) :
    siteTerminal st cb isLast = ({ st with headersSent := true }, .endRouting) := by
  simp [siteTerminal, execCb_noNext_noThrow st cb h1 h2, h3, resolveOr]

theorem siteNoRouteMw_passNil (st : DState) (cb : CbBeh)
    (h1 : cb.nextCalls = [.nil]) (h2 : cb.sendsHeaders = false)
    (h3 : cb.retTruthy = false) (h4 : cb.throws = none) :
    siteNoRouteMw st cb = (st, .boolR st.contMw) := by
  simp only [siteNoRouteMw, execCb, h1, h2, h3, h4, runNexts, stepNext, keepFirst,
    resolveOr, Option.getD_some, if_false, Bool.false_eq_true, ite_false]
  cases hh : st.headersSent <;> simp [hh]

theorem siteRouteMw_passNil (st : DState) (cb : CbBeh)
    (h1 : cb.nextCalls = [.nil]) (h2 : cb.sendsHeaders = false)
    (h3 : cb.retTruthy = false) (h4 : cb.throws = none) :
    siteRouteMw st cb = (st, .boolR st.contMw) := by
  simp only [siteRouteMw, execCb, h1, h2, h3, h4, runNexts, stepNext, keepFirst,
    resolveOr, Option.getD_some, if_false, Bool.false_eq_true, ite_false]
  cases hh : st.headersSent <;> simp [hh]

theorem siteTerminal_passNil (st : DState) (cb : CbBeh) (isLast : Bool)
    (h1 : cb.nextCalls = [.nil]) (h2 : cb.sendsHeaders = false)
    (h3 : cb.retTruthy = false) (h4 : cb.throws = none) :
    siteTerminal st cb isLast = (st, .boolR st.contMw) := by
  simp only [siteTerminal, execCb, h1, h2, h3, h4, runNexts, stepNext, keepFirst,
    resolveOr, Option.getD_some, if_false, Bool.false_eq_true, ite_false]
  cases hh : st.headersSent <;> simp [hh]

theorem siteNoRouteMw_passNone (st : DState) (cb : CbBeh)
    (h1 : cb.nextCalls = []) (h2 : cb.sendsHeaders = false)
    (h3 : cb.retTruthy = false) (h4 : cb.throws = none) :
    siteNoRouteMw st cb =
      (st, if st.headersSent then .endRouting else .normal) := by
  simp only [siteNoRouteMw, execCb_noNext_noThrow st cb h1 h4, h2, h3, resolveOr,
    if_false, Bool.false_eq_true, ite_false]
  cases hh : st.headersSent <;> simp [hh]

theorem siteTerminal_doNothing (st : DState) (cb : CbBeh) (isLast : Bool)
    (h1 : cb.nextCalls = []) (h2 : cb.sendsHeaders = false)
    (h3 : cb.retTruthy = false) (h4 : cb.throws = none) :
    siteTerminal st cb isLast = (st, .endRouting) := by
  simp only [siteTerminal, execCb_noNext_noThrow st cb h1 h4, h2, h3, resolveOr,
    if_false, Bool.false_eq_true, ite_false]
  cases hh : st.headersSent <;> simp [hh]

end BunNode

namespace BunNode

/-! ### Trace decomposition helpers and callback classifications -/

theorem append_cons_eq_singleton {α : Type} (pre post : List α) (e y : α)
    (h : pre ++ e :: post = [y]) : pre = [] ∧ e = y ∧ post = [] := by
  cases pre <;> simp_all

theorem append_cons_eq_cons {α : Type} (pre post evs' : List α) (e y : α)
    (h : pre ++ e :: post = y :: evs') :
    (pre = [] ∧ e = y ∧ post = evs') ∨
      ∃ pre', pre = y :: pre' ∧ pre' ++ e :: post = evs' := by
  cases pre with
  | nil =>
    left
    simpa using h
  | cons p pre' =>
    right
    injection h with h1 h2
    exact ⟨pre', by rw [h1], h2⟩

/-- A callback that neither throws nor passes an error to `next`. -/
def errFreeCb (cb : CbBeh) : Prop :=
  cb.throws = none ∧ ∀ v, NextArg.err v ∉ cb.nextCalls

/-- The halting shape of the no-terminal-route executor: no `next` call, no
throw, and either the callback sent headers or returned a truthy value. -/
def haltACb (cb : CbBeh) : Prop :=
  cb.nextCalls = [] ∧ cb.throws = none ∧
    (cb.sendsHeaders = true ∨ cb.retTruthy = true)

theorem runNexts_headersSent (args : List NextArg) :
    ∀ (st : DState) (fr : Option PResp),
      (runNexts st fr args).1.headersSent = st.headersSent := by
  induction args with
  | nil => intro st fr; rfl
  | cons a rest ih =>
    intro st fr
    simp only [runNexts]
    rw [ih]
    cases a <;> rfl

theorem runNexts_errorThrown (args : List NextArg) :
    ∀ (st : DState) (fr : Option PResp), (∀ v, NextArg.err v ∉ args) →
      (runNexts st fr args).1.errorThrown = st.errorThrown := by
  induction args with
  | nil => intro st fr _; rfl
  | cons a rest ih =>
    intro st fr h
    have hrest : ∀ v, NextArg.err v ∉ rest := by
      intro v hv
      exact h v (List.mem_cons_of_mem _ hv)
    simp only [runNexts]
    rw [ih _ _ hrest]
    cases a with
    | err v => exact absurd (List.mem_cons_self _ _) (h v)
    | nil => rfl
    | nextStr => rfl
    | skip => rfl

theorem execCb_threw (st : DState) (cb : CbBeh) :
    (execCb st cb).threw = cb.throws.isSome := by
  cases h : cb.throws <;> simp [execCb, h]

theorem execCb_errorThrown (st : DState) (cb : CbBeh) (h : errFreeCb cb) :
    (execCb st cb).st.errorThrown = st.errorThrown := by
  obtain ⟨h1, h2⟩ := h
  simp only [execCb, h1]
  rw [runNexts_errorThrown _ _ _ h2]
  cases cb.sendsHeaders <;> rfl

theorem siteNoRouteMw_errorThrown (st : DState) (cb : CbBeh) (h : errFreeCb cb) :
    (siteNoRouteMw st cb).1.errorThrown = st.errorThrown := by
  have h1 := execCb_errorThrown st cb h
  have h2 : (execCb st cb).threw = false := by
    rw [execCb_threw, h.1]
    rfl
  simp only [siteNoRouteMw, h2, if_false, Bool.false_eq_true, ite_false]
  split
  · split <;> simpa using h1
  · simpa using h1

theorem siteNoRouteMw_headersSent (st : DState) (cb : CbBeh)
    (h2 : cb.sendsHeaders = false) (h3 : cb.retTruthy = false) :
    (siteNoRouteMw st cb).1.headersSent = st.headersSent := by
  have hst : (execCb st cb).st.headersSent = st.headersSent := by
    simp only [execCb]
    cases hthr : cb.throws <;> simp [h2, runNexts_headersSent]
  have hrt : (execCb st cb).retTruthy = false := by
    cases hthr : cb.throws <;> simp [execCb, hthr, h3]
  simp only [siteNoRouteMw]
  split
  · exact hst
  · rw [hrt]
    simp only [Bool.or_false, Bool.and_false, Bool.false_eq_true, if_false, ite_false]
    split <;> exact hst

/-! Per-case equations for the no-terminal-route callback loop. -/

theorem aCbLoop_cons_none (tier : Tier) (ri : Nat) (r : Route) (req : Req)
    (st : DState) (k : Nat) (ks : List Nat) (hcb : r.callbacks[k]? = none) :
    aCbLoop tier ri r req st (k :: ks) = aCbLoop tier ri r req st ks := by
  simp [aCbLoop, hcb]

theorem aCbLoop_cons_endRouting (tier : Tier) (ri : Nat) (r : Route) (req : Req)
    (st : DState) (k : Nat) (ks : List Nat) (cb : CbBeh)
    (hcb : r.callbacks[k]? = some cb)
    (hp : (siteNoRouteMw st cb).2 = .endRouting) :
    aCbLoop tier ri r req st (k :: ks) =
      ({ (siteNoRouteMw st cb).1 with
          contMw := false, contRh := false, matched := matchRoute r req },
        [⟨tier, ri, k, cb⟩], .brk) := by
  simp [aCbLoop, hcb, hp]

theorem aCbLoop_cons_skip (tier : Tier) (ri : Nat) (r : Route) (req : Req)
    (st : DState) (k : Nat) (ks : List Nat) (cb : CbBeh)
    (hcb : r.callbacks[k]? = some cb)
    (hp : (siteNoRouteMw st cb).2 = .skipMiddlewares) :
    aCbLoop tier ri r req st (k :: ks) =
      ({ (siteNoRouteMw st cb).1 with contMw := false }, [⟨tier, ri, k, cb⟩], .brk) := by
  simp [aCbLoop, hcb, hp]

theorem aCbLoop_cons_rej (tier : Tier) (ri : Nat) (r : Route) (req : Req)
    (st : DState) (k : Nat) (ks : List Nat) (cb : CbBeh) (er : ErrVal)
    (hcb : r.callbacks[k]? = some cb)
    (hp : (siteNoRouteMw st cb).2 = .rejected er) :
    aCbLoop tier ri r req st (k :: ks) =
      ((siteNoRouteMw st cb).1, [⟨tier, ri, k, cb⟩], .rej er) := by
  simp [aCbLoop, hcb, hp]

theorem aCbLoop_cons_other (tier : Tier) (ri : Nat) (r : Route) (req : Req)
    (st : DState) (k : Nat) (ks : List Nat) (cb : CbBeh)
    (hcb : r.callbacks[k]? = some cb)
    (hp1 : (siteNoRouteMw st cb).2 ≠ .endRouting)
    (hp2 : (siteNoRouteMw st cb).2 ≠ .skipMiddlewares)
    (hp3 : ∀ er, (siteNoRouteMw st cb).2 ≠ .rejected er) :
    aCbLoop tier ri r req st (k :: ks) =
      ((aCbLoop tier ri r req (siteNoRouteMw st cb).1 ks).1,
        ⟨tier, ri, k, cb⟩ :: (aCbLoop tier ri r req (siteNoRouteMw st cb).1 ks).2.1,
        (aCbLoop tier ri r req (siteNoRouteMw st cb).1 ks).2.2) := by
  simp only [aCbLoop, hcb]

theorem aCbLoop_tags (tier : Tier) (ri : Nat) (r : Route) (req : Req) :
    ∀ (ks : List Nat) (st : DState) (x : Ev),
      x ∈ (aCbLoop tier ri r req st ks).2.1 → x.tier = tier ∧ x.routeIdx = ri := by
  intro ks
  induction ks with
  | nil => intro st x hx; simp [aCbLoop] at hx
  | cons k ks ih =>
    intro st x hx
    cases hcb : r.callbacks[k]? with
    | none =>
      rw [aCbLoop_cons_none tier ri r req st k ks hcb] at hx
      exact ih st x hx
    | some cb =>
      cases hp : (siteNoRouteMw st cb).2 with
      | endRouting =>
        rw [aCbLoop_cons_endRouting tier ri r req st k ks cb hcb hp] at hx
        simp only [List.mem_singleton] at hx
        subst hx; exact ⟨rfl, rfl⟩
      | skipMiddlewares =>
        rw [aCbLoop_cons_skip tier ri r req st k ks cb hcb hp] at hx
        simp only [List.mem_singleton] at hx
        subst hx; exact ⟨rfl, rfl⟩
      | rejected er =>
        rw [aCbLoop_cons_rej tier ri r req st k ks cb er hcb hp] at hx
        simp only [List.mem_singleton] at hx
        subst hx; exact ⟨rfl, rfl⟩
      | boolR b =>
        rw [aCbLoop_cons_other tier ri r req st k ks cb hcb
          (by simp [hp]) (by simp [hp]) (by simp [hp])] at hx
        rcases List.mem_cons.mp hx with hx | hx
        · subst hx; exact ⟨rfl, rfl⟩
        · exact ih _ x hx
      | normal =>
        rw [aCbLoop_cons_other tier ri r req st k ks cb hcb
          (by simp [hp]) (by simp [hp]) (by simp [hp])] at hx
        rcases List.mem_cons.mp hx with hx | hx
        · subst hx; exact ⟨rfl, rfl⟩
        · exact ih _ x hx
      | continueHandlers =>
        rw [aCbLoop_cons_other tier ri r req st k ks cb hcb
          (by simp [hp]) (by simp [hp]) (by simp [hp])] at hx
        rcases List.mem_cons.mp hx with hx | hx
        · subst hx; exact ⟨rfl, rfl⟩
        · exact ih _ x hx
      | continueHandler =>
        rw [aCbLoop_cons_other tier ri r req st k ks cb hcb
          (by simp [hp]) (by simp [hp]) (by simp [hp])] at hx
        rcases List.mem_cons.mp hx with hx | hx
        · subst hx; exact ⟨rfl, rfl⟩
        · exact ih _ x hx
      | continueCallback =>
        rw [aCbLoop_cons_other tier ri r req st k ks cb hcb
          (by simp [hp]) (by simp [hp]) (by simp [hp])] at hx
        rcases List.mem_cons.mp hx with hx | hx
        · subst hx; exact ⟨rfl, rfl⟩
        · exact ih _ x hx


end BunNode

namespace BunNode

/-! ### Positional lemmas for the no-terminal-route callback loop -/

theorem resolveOr_eq_rejected (fr : Option PResp) (c : PResp) (er : ErrVal)
    (hc : c ≠ .rejected er) (h : resolveOr fr c = .rejected er) :
    fr = some (.rejected er) := by
  cases fr with
  | none => exact absurd h hc
  | some v => simpa [resolveOr] using congrArg some h

theorem runNexts_rej_mem (args : List NextArg) :
    ∀ (st : DState) (fr : Option PResp) (er : ErrVal),
      (runNexts st fr args).2 = some (.rejected er) →
      fr = some (.rejected er) ∨ ∃ v, NextArg.err v ∈ args := by
  induction args with
  | nil => intro st fr er h; exact Or.inl h
  | cons a rest ih =>
    intro st fr er h
    simp only [runNexts] at h
    rcases ih _ _ _ h with h' | h'
    · cases a with
      | err v => exact Or.inr ⟨v, List.mem_cons_self _ _⟩
      | nil =>
        cases fr with
        | some x => exact Or.inl h'
        | none => simp [stepNext, keepFirst] at h'
      | nextStr =>
        cases fr with
        | some x => exact Or.inl h'
        | none => simp [stepNext, keepFirst] at h'
      | skip =>
        cases fr with
        | some x => exact Or.inl h'
        | none => simp [stepNext, keepFirst] at h'
    · obtain ⟨v, hv⟩ := h'
      exact Or.inr ⟨v, List.mem_cons_of_mem _ hv⟩

theorem execCb_rej_mem (st : DState) (cb : CbBeh) (er : ErrVal)
    (h : (execCb st cb).firstRes = some (.rejected er)) :
    ∃ v, NextArg.err v ∈ cb.nextCalls := by
  have hfr : (runNexts (if cb.sendsHeaders then { st with headersSent := true } else st)
      none cb.nextCalls).2 = some (.rejected er) := by
    cases hthr : cb.throws <;> simpa [execCb, hthr] using h
  rcases runNexts_rej_mem cb.nextCalls _ none er hfr with h' | h'
  · cases h'
  · exact h'

theorem siteNoRouteMw_rej_mem (st : DState) (cb : CbBeh) (er : ErrVal)
    (h : (siteNoRouteMw st cb).2 = .rejected er) :
    ∃ v, NextArg.err v ∈ cb.nextCalls := by
  apply execCb_rej_mem st cb er
  simp only [siteNoRouteMw] at h
  split at h
  · exact resolveOr_eq_rejected _ _ _ (by simp) h
  · split at h
    · dsimp only at h
      exact resolveOr_eq_rejected _ _ _ (by simp) h
    · dsimp only at h
      exact resolveOr_eq_rejected _ _ _ (by simp) h

theorem aCbLoop_errorThrown_inv (tier : Tier) (ri : Nat) (r : Route) (req : Req) :
    ∀ (ks : List Nat) (st : DState),
      (∀ x ∈ (aCbLoop tier ri r req st ks).2.1, errFreeCb x.cb) →
      (aCbLoop tier ri r req st ks).1.errorThrown = st.errorThrown := by
  intro ks
  induction ks with
  | nil => intro st _; rfl
  | cons k ks ih =>
    intro st h
    cases hcb : r.callbacks[k]? with
    | none =>
      rw [aCbLoop_cons_none tier ri r req st k ks hcb] at h ⊢
      exact ih st h
    | some cb =>
      by_cases hend : (siteNoRouteMw st cb).2 = .endRouting
      · rw [aCbLoop_cons_endRouting tier ri r req st k ks cb hcb hend] at h ⊢
        exact siteNoRouteMw_errorThrown st cb (h _ (List.mem_singleton.mpr rfl))
      by_cases hskip : (siteNoRouteMw st cb).2 = .skipMiddlewares
      · rw [aCbLoop_cons_skip tier ri r req st k ks cb hcb hskip] at h ⊢
        exact siteNoRouteMw_errorThrown st cb (h _ (List.mem_singleton.mpr rfl))
      by_cases hrej : ∃ er, (siteNoRouteMw st cb).2 = .rejected er
      · obtain ⟨er, hrej⟩ := hrej
        rw [aCbLoop_cons_rej tier ri r req st k ks cb er hcb hrej] at h ⊢
        have hfree := h _ (List.mem_singleton.mpr rfl)
        obtain ⟨v, hv⟩ := siteNoRouteMw_rej_mem st cb er hrej
        exact absurd hv (hfree.2 v)
      · push_neg at hrej
        rw [aCbLoop_cons_other tier ri r req st k ks cb hcb hend hskip hrej] at h ⊢
        have hfree : errFreeCb cb := h _ (List.mem_cons_self _ _)
        have h2 : ∀ x ∈ (aCbLoop tier ri r req (siteNoRouteMw st cb).1 ks).2.1,
            errFreeCb x.cb := fun x hx => h x (List.mem_cons_of_mem _ hx)
        rw [ih _ h2]
        exact siteNoRouteMw_errorThrown st cb hfree

theorem aCbLoop_headersSent_inv (tier : Tier) (ri : Nat) (r : Route) (req : Req) :
    ∀ (ks : List Nat) (st : DState),
      (∀ x ∈ (aCbLoop tier ri r req st ks).2.1,
        x.cb.sendsHeaders = false ∧ x.cb.retTruthy = false) →
      (aCbLoop tier ri r req st ks).1.headersSent = st.headersSent := by
  intro ks
  induction ks with
  | nil => intro st _; rfl
  | cons k ks ih =>
    intro st h
    cases hcb : r.callbacks[k]? with
    | none =>
      rw [aCbLoop_cons_none tier ri r req st k ks hcb] at h ⊢
      exact ih st h
    | some cb =>
      by_cases hend : (siteNoRouteMw st cb).2 = .endRouting
      · rw [aCbLoop_cons_endRouting tier ri r req st k ks cb hcb hend] at h ⊢
        have hq := h _ (List.mem_singleton.mpr rfl)
        exact siteNoRouteMw_headersSent st cb hq.1 hq.2
      by_cases hskip : (siteNoRouteMw st cb).2 = .skipMiddlewares
      · rw [aCbLoop_cons_skip tier ri r req st k ks cb hcb hskip] at h ⊢
        have hq := h _ (List.mem_singleton.mpr rfl)
        exact siteNoRouteMw_headersSent st cb hq.1 hq.2
      by_cases hrej : ∃ er, (siteNoRouteMw st cb).2 = .rejected er
      · obtain ⟨er, hrej⟩ := hrej
        rw [aCbLoop_cons_rej tier ri r req st k ks cb er hcb hrej] at h ⊢
        have hq := h _ (List.mem_singleton.mpr rfl)
        exact siteNoRouteMw_headersSent st cb hq.1 hq.2
      · push_neg at hrej
        rw [aCbLoop_cons_other tier ri r req st k ks cb hcb hend hskip hrej] at h ⊢
        have hq := h _ (List.mem_cons_self _ _)
        have h2 : ∀ x ∈ (aCbLoop tier ri r req (siteNoRouteMw st cb).1 ks).2.1,
            x.cb.sendsHeaders = false ∧ x.cb.retTruthy = false :=
          fun x hx => h x (List.mem_cons_of_mem _ hx)
        rw [ih _ h2]
        exact siteNoRouteMw_headersSent st cb hq.1 hq.2

theorem aCbLoop_split_halt (tier : Tier) (ri : Nat) (r : Route) (req : Req) :
    ∀ (ks : List Nat) (st : DState) (pre post : List Ev) (e : Ev),
      (aCbLoop tier ri r req st ks).2.1 = pre ++ e :: post → haltACb e.cb →
      post = [] ∧ (aCbLoop tier ri r req st ks).2.2 = .brk ∧
        (aCbLoop tier ri r req st ks).1.headersSent = true ∧
        (aCbLoop tier ri r req st ks).1.contMw = false ∧
        (aCbLoop tier ri r req st ks).1.contRh = false ∧
        (aCbLoop tier ri r req st ks).1.matched = matchRoute r req ∧
        ((∀ x ∈ pre, errFreeCb x.cb) →
          (aCbLoop tier ri r req st ks).1.errorThrown = st.errorThrown) := by
  intro ks
  induction ks with
  | nil =>
    intro st pre post e hsplit _
    simp [aCbLoop] at hsplit
  | cons k ks ih =>
    intro st pre post e hsplit hhalt
    cases hcb : r.callbacks[k]? with
    | none =>
      rw [aCbLoop_cons_none tier ri r req st k ks hcb] at hsplit ⊢
      exact ih st pre post e hsplit hhalt
    | some cb =>
      by_cases hend : (siteNoRouteMw st cb).2 = .endRouting
      · rw [aCbLoop_cons_endRouting tier ri r req st k ks cb hcb hend] at hsplit ⊢
        obtain ⟨hpre, he, hpost⟩ := append_cons_eq_singleton _ _ _ _ hsplit.symm
        subst he
        have hsite := siteNoRouteMw_halt st cb hhalt.1 hhalt.2.1 hhalt.2.2
        have h1 : (siteNoRouteMw st cb).1 = { st with headersSent := true } :=
          congrArg Prod.fst hsite
        refine ⟨hpost, rfl, ?_, rfl, rfl, rfl, ?_⟩
        · simp [h1]
        · intro _
          simp [h1]
      by_cases hskip : (siteNoRouteMw st cb).2 = .skipMiddlewares
      · rw [aCbLoop_cons_skip tier ri r req st k ks cb hcb hskip] at hsplit ⊢
        obtain ⟨hpre, he, hpost⟩ := append_cons_eq_singleton _ _ _ _ hsplit.symm
        subst he
        have hsite := congrArg Prod.snd
          (siteNoRouteMw_halt st cb hhalt.1 hhalt.2.1 hhalt.2.2)
        rw [hskip] at hsite
        cases hsite
      by_cases hrej : ∃ er, (siteNoRouteMw st cb).2 = .rejected er
      · obtain ⟨er, hrej⟩ := hrej
        rw [aCbLoop_cons_rej tier ri r req st k ks cb er hcb hrej] at hsplit ⊢
        obtain ⟨hpre, he, hpost⟩ := append_cons_eq_singleton _ _ _ _ hsplit.symm
        subst he
        have hsite := congrArg Prod.snd
          (siteNoRouteMw_halt st cb hhalt.1 hhalt.2.1 hhalt.2.2)
        rw [hrej] at hsite
        cases hsite
      · push_neg at hrej
        rw [aCbLoop_cons_other tier ri r req st k ks cb hcb hend hskip hrej]
          at hsplit ⊢
        rcases append_cons_eq_cons _ _ _ _ _ hsplit.symm with ⟨hpre, he, hpost⟩ | ⟨pre', hpre, hrest⟩
        · subst he
          have hs2 : (siteNoRouteMw st cb).2 = .endRouting := by
            rw [siteNoRouteMw_halt st cb hhalt.1 hhalt.2.1 hhalt.2.2]
          exact absurd hs2 hend
        · subst hpre
          obtain ⟨hp1, hp2, hp3, hp4, hp5, hp6, hp7⟩ :=
            ih ((siteNoRouteMw st cb).1) pre' post e hrest.symm hhalt
          refine ⟨hp1, hp2, hp3, hp4, hp5, hp6, ?_⟩
          intro hfree
          have hcbfree : errFreeCb cb :=
            hfree _ (List.mem_cons_self _ _)
          rw [hp7 (fun x hx => hfree x (List.mem_cons_of_mem _ hx))]
          exact siteNoRouteMw_errorThrown st cb hcbfree

end BunNode

namespace BunNode

theorem aCbLoop_split_rej (tier : Tier) (ri : Nat) (r : Route) (req : Req) :
    ∀ (ks : List Nat) (st : DState) (pre post : List Ev) (e : Ev) (er : ErrVal),
      (aCbLoop tier ri r req st ks).2.1 = pre ++ e :: post →
      firstNextErr e.cb = some er →
      post = [] ∧ (aCbLoop tier ri r req st ks).2.2 = .rej er := by
  intro ks
  induction ks with
  | nil =>
    intro st pre post e er hsplit _
    simp [aCbLoop] at hsplit
  | cons k ks ih =>
    intro st pre post e er hsplit hfe
    cases hcb : r.callbacks[k]? with
    | none =>
      rw [aCbLoop_cons_none tier ri r req st k ks hcb] at hsplit ⊢
      exact ih st pre post e er hsplit hfe
    | some cb =>
      by_cases hend : (siteNoRouteMw st cb).2 = .endRouting
      · rw [aCbLoop_cons_endRouting tier ri r req st k ks cb hcb hend] at hsplit ⊢
        obtain ⟨hpre, he, hpost⟩ := append_cons_eq_singleton _ _ _ _ hsplit.symm
        subst he
        have hs2 := siteNoRouteMw_rej st cb er hfe
        rw [hend] at hs2
        cases hs2
      by_cases hskip : (siteNoRouteMw st cb).2 = .skipMiddlewares
      · rw [aCbLoop_cons_skip tier ri r req st k ks cb hcb hskip] at hsplit ⊢
        obtain ⟨hpre, he, hpost⟩ := append_cons_eq_singleton _ _ _ _ hsplit.symm
        subst he
        have hs2 := siteNoRouteMw_rej st cb er hfe
        rw [hskip] at hs2
        cases hs2
      by_cases hrej : ∃ er', (siteNoRouteMw st cb).2 = .rejected er'
      · obtain ⟨er', hrej⟩ := hrej
        rw [aCbLoop_cons_rej tier ri r req st k ks cb er' hcb hrej] at hsplit ⊢
        obtain ⟨hpre, he, hpost⟩ := append_cons_eq_singleton _ _ _ _ hsplit.symm
        subst he
        have hs2 := siteNoRouteMw_rej st cb er hfe
        rw [hrej] at hs2
        injection hs2 with hs2
        subst hs2
        exact ⟨hpost, rfl⟩
      · push_neg at hrej
        rw [aCbLoop_cons_other tier ri r req st k ks cb hcb hend hskip hrej]
          at hsplit ⊢
        rcases append_cons_eq_cons _ _ _ _ _ hsplit.symm with
          ⟨hpre, he, hpost⟩ | ⟨pre', hpre, hrest⟩
        · subst he
          exact absurd (siteNoRouteMw_rej st cb er hfe) (hrej er)
        · subst hpre
          exact ih ((siteNoRouteMw st cb).1) pre' post e er hrest.symm hfe

end BunNode

namespace BunNode

/-! ### Middleware tier loop lemmas (no-terminal-route branch) -/

theorem aTier_stop (tier : Tier) (src : List Route) (req : Req) (st : DState)
    (ent : MwEntry) (rest : List MwEntry) (h : st.contMw = false) :
    aTier tier src req st (ent :: rest) = (st, [], .done) := by
  simp [aTier, h]

theorem aTier_cons_none (tier : Tier) (src : List Route) (req : Req) (st : DState)
    (ent : MwEntry) (rest : List MwEntry) (h : st.contMw = true)
    (hsrc : src[ent.routeIndex]? = none) :
    aTier tier src req st (ent :: rest) = aTier tier src req st rest := by
  simp [aTier, h, hsrc]

theorem aTier_cons_cont (tier : Tier) (src : List Route) (req : Req) (st : DState)
    (ent : MwEntry) (rest : List MwEntry) (r : Route) (h : st.contMw = true)
    (hsrc : src[ent.routeIndex]? = some r)
    (hloop : (aCbLoop tier ent.routeIndex r req st ent.callbackIndexes).2.2 = .cont) :
    aTier tier src req st (ent :: rest) =
      ((aTier tier src req
          (aCbLoop tier ent.routeIndex r req st ent.callbackIndexes).1 rest).1,
        (aCbLoop tier ent.routeIndex r req st ent.callbackIndexes).2.1 ++
          (aTier tier src req
            (aCbLoop tier ent.routeIndex r req st ent.callbackIndexes).1 rest).2.1,
        (aTier tier src req
          (aCbLoop tier ent.routeIndex r req st ent.callbackIndexes).1 rest).2.2) := by
  simp [aTier, h, hsrc, hloop]

theorem aTier_cons_brk (tier : Tier) (src : List Route) (req : Req) (st : DState)
    (ent : MwEntry) (rest : List MwEntry) (r : Route) (h : st.contMw = true)
    (hsrc : src[ent.routeIndex]? = some r)
    (hloop : (aCbLoop tier ent.routeIndex r req st ent.callbackIndexes).2.2 = .brk) :
    aTier tier src req st (ent :: rest) =
      ((aCbLoop tier ent.routeIndex r req st ent.callbackIndexes).1,
        (aCbLoop tier ent.routeIndex r req st ent.callbackIndexes).2.1, .done) := by
  simp [aTier, h, hsrc, hloop]

theorem aTier_cons_rej (tier : Tier) (src : List Route) (req : Req) (st : DState)
    (ent : MwEntry) (rest : List MwEntry) (r : Route) (er : ErrVal)
    (h : st.contMw = true) (hsrc : src[ent.routeIndex]? = some r)
    (hloop : (aCbLoop tier ent.routeIndex r req st ent.callbackIndexes).2.2 = .rej er) :
    aTier tier src req st (ent :: rest) =
      ((aCbLoop tier ent.routeIndex r req st ent.callbackIndexes).1,
        (aCbLoop tier ent.routeIndex r req st ent.callbackIndexes).2.1, .rej er) := by
  simp [aTier, h, hsrc, hloop]

theorem append_cons_decomp {α : Type} (a b pre post : List α) (e : α)
    (h : a ++ b = pre ++ e :: post) :
    (∃ post₁, a = pre ++ e :: post₁ ∧ post = post₁ ++ b) ∨
      (∃ pre₂, pre = a ++ pre₂ ∧ b = pre₂ ++ e :: post) := by
  rcases List.append_eq_append_iff.mp h with ⟨a', ha1, ha2⟩ | ⟨c', hc1, hc2⟩
  · exact Or.inr ⟨a', ha1, ha2⟩
  · cases c' with
    | nil =>
      simp only [List.append_nil] at hc1
      exact Or.inr ⟨[], by simp [hc1], hc2.symm⟩
    | cons e' c'' =>
      injection hc2 with h1 h2
      subst h1
      exact Or.inl ⟨c'', hc1, h2⟩

theorem aTier_tags (tier : Tier) (src : List Route) (req : Req) :
    ∀ (entries : List MwEntry) (st : DState) (x : Ev),
      x ∈ (aTier tier src req st entries).2.1 →
      x.tier = tier ∧ ∃ ent ∈ entries, x.routeIdx = ent.routeIndex := by
  intro entries
  induction entries with
  | nil => intro st x hx; simp [aTier] at hx
  | cons ent rest ih =>
    intro st x hx
    cases hmw : st.contMw with
    | false =>
      rw [aTier_stop tier src req st ent rest hmw] at hx
      simp at hx
    | true =>
      cases hsrc : src[ent.routeIndex]? with
      | none =>
        rw [aTier_cons_none tier src req st ent rest hmw hsrc] at hx
        obtain ⟨h1, ent', hent', h2⟩ := ih st x hx
        exact ⟨h1, ent', List.mem_cons_of_mem _ hent', h2⟩
      | some r =>
        cases hloop : (aCbLoop tier ent.routeIndex r req st ent.callbackIndexes).2.2 with
        | cont =>
          rw [aTier_cons_cont tier src req st ent rest r hmw hsrc hloop] at hx
          rcases List.mem_append.mp hx with hx | hx
          · obtain ⟨h1, h2⟩ := aCbLoop_tags tier ent.routeIndex r req _ _ x hx
            exact ⟨h1, ent, List.mem_cons_self _ _, h2⟩
          · obtain ⟨h1, ent', hent', h2⟩ := ih _ x hx
            exact ⟨h1, ent', List.mem_cons_of_mem _ hent', h2⟩
        | brk =>
          rw [aTier_cons_brk tier src req st ent rest r hmw hsrc hloop] at hx
          obtain ⟨h1, h2⟩ := aCbLoop_tags tier ent.routeIndex r req _ _ x hx
          exact ⟨h1, ent, List.mem_cons_self _ _, h2⟩
        | rej er =>
          rw [aTier_cons_rej tier src req st ent rest r er hmw hsrc hloop] at hx
          obtain ⟨h1, h2⟩ := aCbLoop_tags tier ent.routeIndex r req _ _ x hx
          exact ⟨h1, ent, List.mem_cons_self _ _, h2⟩

theorem aTier_errorThrown_inv (tier : Tier) (src : List Route) (req : Req) :
    ∀ (entries : List MwEntry) (st : DState),
      (∀ x ∈ (aTier tier src req st entries).2.1, errFreeCb x.cb) →
      (aTier tier src req st entries).1.errorThrown = st.errorThrown := by
  intro entries
  induction entries with
  | nil => intro st _; rfl
  | cons ent rest ih =>
    intro st h
    cases hmw : st.contMw with
    | false => rw [aTier_stop tier src req st ent rest hmw]
    | true =>
      cases hsrc : src[ent.routeIndex]? with
      | none =>
        rw [aTier_cons_none tier src req st ent rest hmw hsrc] at h ⊢
        exact ih st h
      | some r =>
        cases hloop : (aCbLoop tier ent.routeIndex r req st ent.callbackIndexes).2.2 with
        | cont =>
          rw [aTier_cons_cont tier src req st ent rest r hmw hsrc hloop] at h ⊢
          rw [ih _ fun x hx => h x (List.mem_append.mpr (Or.inr hx))]
          exact aCbLoop_errorThrown_inv tier ent.routeIndex r req _ st
            fun x hx => h x (List.mem_append.mpr (Or.inl hx))
        | brk =>
          rw [aTier_cons_brk tier src req st ent rest r hmw hsrc hloop] at h ⊢
          exact aCbLoop_errorThrown_inv tier ent.routeIndex r req _ st h
        | rej er =>
          rw [aTier_cons_rej tier src req st ent rest r er hmw hsrc hloop] at h ⊢
          exact aCbLoop_errorThrown_inv tier ent.routeIndex r req _ st h

theorem aTier_headersSent_inv (tier : Tier) (src : List Route) (req : Req) :
    ∀ (entries : List MwEntry) (st : DState),
      (∀ x ∈ (aTier tier src req st entries).2.1,
        x.cb.sendsHeaders = false ∧ x.cb.retTruthy = false) →
      (aTier tier src req st entries).1.headersSent = st.headersSent := by
  intro entries
  induction entries with
  | nil => intro st _; rfl
  | cons ent rest ih =>
    intro st h
    cases hmw : st.contMw with
    | false => rw [aTier_stop tier src req st ent rest hmw]
    | true =>
      cases hsrc : src[ent.routeIndex]? with
      | none =>
        rw [aTier_cons_none tier src req st ent rest hmw hsrc] at h ⊢
        exact ih st h
      | some r =>
        cases hloop : (aCbLoop tier ent.routeIndex r req st ent.callbackIndexes).2.2 with
        | cont =>
          rw [aTier_cons_cont tier src req st ent rest r hmw hsrc hloop] at h ⊢
          rw [ih _ fun x hx => h x (List.mem_append.mpr (Or.inr hx))]
          exact aCbLoop_headersSent_inv tier ent.routeIndex r req _ st
            fun x hx => h x (List.mem_append.mpr (Or.inl hx))
        | brk =>
          rw [aTier_cons_brk tier src req st ent rest r hmw hsrc hloop] at h ⊢
          exact aCbLoop_headersSent_inv tier ent.routeIndex r req _ st h
        | rej er =>
          rw [aTier_cons_rej tier src req st ent rest r er hmw hsrc hloop] at h ⊢
          exact aCbLoop_headersSent_inv tier ent.routeIndex r req _ st h

end BunNode

namespace BunNode

theorem aTier_split_halt (tier : Tier) (src : List Route) (req : Req) :
    ∀ (entries : List MwEntry) (st : DState) (pre post : List Ev) (e : Ev),
      (aTier tier src req st entries).2.1 = pre ++ e :: post → haltACb e.cb →
      post = [] ∧ (aTier tier src req st entries).2.2 = .done ∧
        (aTier tier src req st entries).1.headersSent = true ∧
        (aTier tier src req st entries).1.contMw = false ∧
        (aTier tier src req st entries).1.contRh = false ∧
        (∃ r, src[e.routeIdx]? = some r ∧
          (aTier tier src req st entries).1.matched = matchRoute r req) ∧
        (∃ ent ∈ entries, ent.routeIndex = e.routeIdx) ∧
        ((∀ x ∈ pre, errFreeCb x.cb) →
          (aTier tier src req st entries).1.errorThrown = st.errorThrown) := by
  intro entries
  induction entries with
  | nil =>
    intro st pre post e hsplit _
    simp [aTier] at hsplit
  | cons ent rest ih =>
    intro st pre post e hsplit hhalt
    cases hmw : st.contMw with
    | false =>
      rw [aTier_stop tier src req st ent rest hmw] at hsplit
      simp at hsplit
    | true =>
      cases hsrc : src[ent.routeIndex]? with
      | none =>
        rw [aTier_cons_none tier src req st ent rest hmw hsrc] at hsplit ⊢
        obtain ⟨h1, h2, h3, h4, h5, h6, ⟨ent', hent', h7⟩, h8⟩ :=
          ih st pre post e hsplit hhalt
        exact ⟨h1, h2, h3, h4, h5, h6, ⟨ent', List.mem_cons_of_mem _ hent', h7⟩, h8⟩
      | some r =>
        cases hloop : (aCbLoop tier ent.routeIndex r req st ent.callbackIndexes).2.2 with
        | cont =>
          rw [aTier_cons_cont tier src req st ent rest r hmw hsrc hloop] at hsplit ⊢
          rcases append_cons_decomp _ _ _ _ _ hsplit with
            ⟨post₁, hin, hpost⟩ | ⟨pre₂, hpre, hin⟩
          · obtain ⟨-, hbrk, -⟩ :=
              aCbLoop_split_halt tier ent.routeIndex r req _ st pre post₁ e hin hhalt
            rw [hloop] at hbrk
            cases hbrk
          · subst hpre
            obtain ⟨h1, h2, h3, h4, h5, h6, ⟨ent', hent', h7⟩, h8⟩ :=
              ih _ pre₂ post e hin hhalt
            refine ⟨h1, h2, h3, h4, h5, h6,
              ⟨ent', List.mem_cons_of_mem _ hent', h7⟩, ?_⟩
            intro hfree
            rw [h8 fun x hx => hfree x (List.mem_append.mpr (Or.inr hx))]
            exact aCbLoop_errorThrown_inv tier ent.routeIndex r req _ st
              fun x hx => hfree x (List.mem_append.mpr (Or.inl hx))
        | brk =>
          rw [aTier_cons_brk tier src req st ent rest r hmw hsrc hloop] at hsplit ⊢
          obtain ⟨h1, h2, h3, h4, h5, h6, h8⟩ :=
            aCbLoop_split_halt tier ent.routeIndex r req _ st pre post e hsplit hhalt
          have hmem : e ∈ (aCbLoop tier ent.routeIndex r req st ent.callbackIndexes).2.1 := by
            rw [hsplit]
            exact List.mem_append.mpr (Or.inr (List.mem_cons_self _ _))
          have hidx : e.routeIdx = ent.routeIndex :=
            (aCbLoop_tags tier ent.routeIndex r req _ st e hmem).2
          refine ⟨h1, rfl, h3, h4, h5, ⟨r, by rw [hidx]; exact hsrc, h6⟩,
            ⟨ent, List.mem_cons_self _ _, hidx.symm⟩, h8⟩
        | rej er =>
          rw [aTier_cons_rej tier src req st ent rest r er hmw hsrc hloop] at hsplit ⊢
          obtain ⟨-, hbrk, -⟩ :=
            aCbLoop_split_halt tier ent.routeIndex r req _ st pre post e hsplit hhalt
          rw [hloop] at hbrk
          cases hbrk

theorem aTier_split_rej (tier : Tier) (src : List Route) (req : Req) :
    ∀ (entries : List MwEntry) (st : DState) (pre post : List Ev) (e : Ev) (er : ErrVal),
      (aTier tier src req st entries).2.1 = pre ++ e :: post →
      firstNextErr e.cb = some er →
      post = [] ∧ (aTier tier src req st entries).2.2 = .rej er := by
  intro entries
  induction entries with
  | nil =>
    intro st pre post e er hsplit _
    simp [aTier] at hsplit
  | cons ent rest ih =>
    intro st pre post e er hsplit hfe
    cases hmw : st.contMw with
    | false =>
      rw [aTier_stop tier src req st ent rest hmw] at hsplit
      simp at hsplit
    | true =>
      cases hsrc : src[ent.routeIndex]? with
      | none =>
        rw [aTier_cons_none tier src req st ent rest hmw hsrc] at hsplit ⊢
        exact ih st pre post e er hsplit hfe
      | some r =>
        cases hloop : (aCbLoop tier ent.routeIndex r req st ent.callbackIndexes).2.2 with
        | cont =>
          rw [aTier_cons_cont tier src req st ent rest r hmw hsrc hloop] at hsplit ⊢
          rcases append_cons_decomp _ _ _ _ _ hsplit with
            ⟨post₁, hin, hpost⟩ | ⟨pre₂, hpre, hin⟩
          · obtain ⟨-, hbrk⟩ :=
              aCbLoop_split_rej tier ent.routeIndex r req _ st pre post₁ e er hin hfe
            rw [hloop] at hbrk
            cases hbrk
          · exact ih _ pre₂ post e er hin hfe
        | brk =>
          rw [aTier_cons_brk tier src req st ent rest r hmw hsrc hloop] at hsplit ⊢
          obtain ⟨-, hbrk⟩ :=
            aCbLoop_split_rej tier ent.routeIndex r req _ st pre post e er hsplit hfe
          rw [hloop] at hbrk
          cases hbrk
        | rej er' =>
          rw [aTier_cons_rej tier src req st ent rest r er' hmw hsrc hloop] at hsplit ⊢
          obtain ⟨h1, hbrk⟩ :=
            aCbLoop_split_rej tier ent.routeIndex r req _ st pre post e er hsplit hfe
          rw [hloop] at hbrk
          injection hbrk with hbrk
          subst hbrk
          exact ⟨h1, rfl⟩

end BunNode

namespace BunNode

/-! ### Resolved form of a fresh `handle()` call -/

/-- One `handle()` call on a freshly constructed router. -/
def handleRun (routes : List Route) (req : Req) : HandleResult :=
  (handle routes initRouterState req).1

/-- The global middleware list built on first use. -/
def globalMwsOf (routes : List Route) : List Route :=
  routes.filter (fun r => r.method.isNone && r.path.isNone)

theorem handleRun_eq (routes : List Route) (req : Req) :
    handleRun routes req =
      handleCore routes (globalMwsOf routes)
        (computeGlobalMws (globalMwsOf routes) req)
        (computeRouteMws routes req) (computeHandlers routes req) req := by
  simp [handleRun, handle, initRouterState, lookupA, globalMwsOf]

theorem collectGlobalMws_lookup (req : Req) :
    ∀ (rs pfx : List Route) (ent : MwEntry),
      ent ∈ collectGlobalMws req pfx.length rs →
      ∃ r m, (pfx ++ rs)[ent.routeIndex]? = some r ∧ matchRoute r req = some m := by
  intro rs
  induction rs with
  | nil => intro pfx ent h; simp [collectGlobalMws] at h
  | cons r rest ih =>
    intro pfx ent h
    simp only [collectGlobalMws] at h
    cases hm : matchRoute r req with
    | some m =>
      rw [hm] at h
      rcases List.mem_cons.mp h with h | h
      · subst h
        refine ⟨r, m, ?_, hm⟩
        rw [List.getElem?_append_right (Nat.le_refl _)]
        simp
      · have h' : ent ∈ collectGlobalMws req (pfx ++ [r]).length rest := by
          simpa [List.length_append] using h
        have := ih (pfx ++ [r]) ent h'
        simpa [List.append_assoc] using this
    | none =>
      rw [hm] at h
      have h' : ent ∈ collectGlobalMws req (pfx ++ [r]).length rest := by
        simpa [List.length_append] using h
      have := ih (pfx ++ [r]) ent h'
      simpa [List.append_assoc] using this

theorem computeGlobalMws_consistent (gmws : List Route) (req : Req)
    (ent : MwEntry) (h : ent ∈ computeGlobalMws gmws req) :
    ∃ r m, gmws[ent.routeIndex]? = some r ∧ matchRoute r req = some m := by
  have := collectGlobalMws_lookup req gmws [] ent (by simpa [computeGlobalMws] using h)
  simpa using this

theorem collectRouteMws_lookup (req : Req) :
    ∀ (rs pfx : List Route) (ent : MwEntry),
      ent ∈ collectRouteMws req pfx.length rs →
      ∃ r m, (pfx ++ rs)[ent.routeIndex]? = some r ∧ matchRoute r req = some m := by
  intro rs
  induction rs with
  | nil => intro pfx ent h; simp [collectRouteMws] at h
  | cons r rest ih =>
    intro pfx ent h
    simp only [collectRouteMws] at h
    by_cases hg : (r.path.isSome && r.method.isNone) = true
    · rw [if_pos hg] at h
      cases hm : matchRoute r req with
      | some m =>
        rw [hm] at h
        rcases List.mem_cons.mp h with h | h
        · subst h
          refine ⟨r, m, ?_, hm⟩
          rw [List.getElem?_append_right (Nat.le_refl _)]
          simp
        · have h' : ent ∈ collectRouteMws req (pfx ++ [r]).length rest := by
            simpa [List.length_append] using h
          have := ih (pfx ++ [r]) ent h'
          simpa [List.append_assoc] using this
      | none =>
        rw [hm] at h
        have h' : ent ∈ collectRouteMws req (pfx ++ [r]).length rest := by
          simpa [List.length_append] using h
        have := ih (pfx ++ [r]) ent h'
        simpa [List.append_assoc] using this
    · rw [if_neg hg] at h
      have h' : ent ∈ collectRouteMws req (pfx ++ [r]).length rest := by
        simpa [List.length_append] using h
      have := ih (pfx ++ [r]) ent h'
      simpa [List.append_assoc] using this

theorem computeRouteMws_consistent (routes : List Route) (req : Req)
    (ent : MwEntry) (h : ent ∈ computeRouteMws routes req) :
    ∃ r m, routes[ent.routeIndex]? = some r ∧ matchRoute r req = some m := by
  have := collectRouteMws_lookup req routes [] ent (by simpa [computeRouteMws] using h)
  simpa using this

/-! ### Equations for the no-terminal-route section -/

theorem sectionA_rej (gmws routes : List Route) (req : Req) (st : DState)
    (gE rmE : List MwEntry) (er : ErrVal)
    (h : (aTier .globalMw gmws req st gE).2.2 = .rej er) :
    sectionA gmws routes req st gE rmE =
      ((aTier .globalMw gmws req st gE).1, (aTier .globalMw gmws req st gE).2.1,
        .thrownOut (.raw er)) := by
  simp [sectionA, h]

theorem sectionA_err (gmws routes : List Route) (req : Req) (st : DState)
    (gE rmE : List MwEntry) (t : ErrVal)
    (h : (aTier .globalMw gmws req st gE).2.2 = .done)
    (he : (aTier .globalMw gmws req st gE).1.errorThrown = some t) :
    sectionA gmws routes req st gE rmE =
      ((aTier .globalMw gmws req st gE).1, (aTier .globalMw gmws req st gE).2.1,
        .thrownOut (throwError' t)) := by
  simp [sectionA, h, he]

theorem sectionA_headers (gmws routes : List Route) (req : Req) (st : DState)
    (gE rmE : List MwEntry)
    (h : (aTier .globalMw gmws req st gE).2.2 = .done)
    (he : (aTier .globalMw gmws req st gE).1.errorThrown = none)
    (hh : (aTier .globalMw gmws req st gE).1.headersSent = true) :
    sectionA gmws routes req st gE rmE =
      ((aTier .globalMw gmws req st gE).1, (aTier .globalMw gmws req st gE).2.1,
        .retOut (retOrTrue (aTier .globalMw gmws req st gE).1.matched)) := by
  simp [sectionA, h, he, hh]

theorem sectionA_path_rej (gmws routes : List Route) (req : Req) (st : DState)
    (gE rmE : List MwEntry) (er : ErrVal)
    (h : (aTier .globalMw gmws req st gE).2.2 = .done)
    (he : (aTier .globalMw gmws req st gE).1.errorThrown = none)
    (hh : (aTier .globalMw gmws req st gE).1.headersSent = false)
    (hq : (aTier .pathMw routes req (aTier .globalMw gmws req st gE).1 rmE).2.2 = .rej er) :
    sectionA gmws routes req st gE rmE =
      ((aTier .pathMw routes req (aTier .globalMw gmws req st gE).1 rmE).1,
        (aTier .globalMw gmws req st gE).2.1 ++
          (aTier .pathMw routes req (aTier .globalMw gmws req st gE).1 rmE).2.1,
        .thrownOut (.raw er)) := by
  simp [sectionA, h, he, hh, hq]

theorem sectionA_path_err (gmws routes : List Route) (req : Req) (st : DState)
    (gE rmE : List MwEntry) (t : ErrVal)
    (h : (aTier .globalMw gmws req st gE).2.2 = .done)
    (he : (aTier .globalMw gmws req st gE).1.errorThrown = none)
    (hh : (aTier .globalMw gmws req st gE).1.headersSent = false)
    (hq : (aTier .pathMw routes req (aTier .globalMw gmws req st gE).1 rmE).2.2 = .done)
    (hqe : (aTier .pathMw routes req (aTier .globalMw gmws req st gE).1 rmE).1.errorThrown
      = some t) :
    sectionA gmws routes req st gE rmE =
      ((aTier .pathMw routes req (aTier .globalMw gmws req st gE).1 rmE).1,
        (aTier .globalMw gmws req st gE).2.1 ++
          (aTier .pathMw routes req (aTier .globalMw gmws req st gE).1 rmE).2.1,
        .thrownOut (throwError' t)) := by
  simp [sectionA, h, he, hh, hq, hqe]

theorem sectionA_path_headers (gmws routes : List Route) (req : Req) (st : DState)
    (gE rmE : List MwEntry)
    (h : (aTier .globalMw gmws req st gE).2.2 = .done)
    (he : (aTier .globalMw gmws req st gE).1.errorThrown = none)
    (hh : (aTier .globalMw gmws req st gE).1.headersSent = false)
    (hq : (aTier .pathMw routes req (aTier .globalMw gmws req st gE).1 rmE).2.2 = .done)
    (hqe : (aTier .pathMw routes req (aTier .globalMw gmws req st gE).1 rmE).1.errorThrown
      = none)
    (hqh : (aTier .pathMw routes req (aTier .globalMw gmws req st gE).1 rmE).1.headersSent
      = true) :
    sectionA gmws routes req st gE rmE =
      ((aTier .pathMw routes req (aTier .globalMw gmws req st gE).1 rmE).1,
        (aTier .globalMw gmws req st gE).2.1 ++
          (aTier .pathMw routes req (aTier .globalMw gmws req st gE).1 rmE).2.1,
        .retOut (retOrTrue
          (aTier .pathMw routes req (aTier .globalMw gmws req st gE).1 rmE).1.matched)) := by
  simp [sectionA, h, he, hh, hq, hqe, hqh]

theorem sectionA_fall (gmws routes : List Route) (req : Req) (st : DState)
    (gE rmE : List MwEntry)
    (h : (aTier .globalMw gmws req st gE).2.2 = .done)
    (he : (aTier .globalMw gmws req st gE).1.errorThrown = none)
    (hh : (aTier .globalMw gmws req st gE).1.headersSent = false)
    (hq : (aTier .pathMw routes req (aTier .globalMw gmws req st gE).1 rmE).2.2 = .done)
    (hqe : (aTier .pathMw routes req (aTier .globalMw gmws req st gE).1 rmE).1.errorThrown
      = none)
    (hqh : (aTier .pathMw routes req (aTier .globalMw gmws req st gE).1 rmE).1.headersSent
      = false) :
    sectionA gmws routes req st gE rmE =
      ((aTier .pathMw routes req (aTier .globalMw gmws req st gE).1 rmE).1,
        (aTier .globalMw gmws req st gE).2.1 ++
          (aTier .pathMw routes req (aTier .globalMw gmws req st gE).1 rmE).2.1,
        .fallThrough) := by
  simp [sectionA, h, he, hh, hq, hqe, hqh]

end BunNode

namespace BunNode

theorem handleCore_noCands_thrown (routes gmws : List Route) (gE rmE : List MwEntry)
    (req : Req) (t : ThrownOut)
    (h : (sectionA gmws routes req initDState gE rmE).2.2 = .thrownOut t) :
    handleCore routes gmws gE rmE [] req =
      ⟨(sectionA gmws routes req initDState gE rmE).2.1, .thrown t,
        (sectionA gmws routes req initDState gE rmE).1⟩ := by
  simp [handleCore, h]

theorem handleCore_noCands_ret (routes gmws : List Route) (gE rmE : List MwEntry)
    (req : Req) (rr : HandleRet)
    (h : (sectionA gmws routes req initDState gE rmE).2.2 = .retOut rr) :
    handleCore routes gmws gE rmE [] req =
      ⟨(sectionA gmws routes req initDState gE rmE).2.1, .ok rr,
        (sectionA gmws routes req initDState gE rmE).1⟩ := by
  simp [handleCore, h]

theorem handleCore_noCands_fall (routes gmws : List Route) (gE rmE : List MwEntry)
    (req : Req)
    (h : (sectionA gmws routes req initDState gE rmE).2.2 = .fallThrough) :
    handleCore routes gmws gE rmE [] req =
      ⟨(sectionA gmws routes req initDState gE rmE).2.1,
        .ok (finalRet (sectionA gmws routes req initDState gE rmE).1),
        (sectionA gmws routes req initDState gE rmE).1⟩ := by
  simp [handleCore, h]

theorem handleCore_noCands_events (routes gmws : List Route) (gE rmE : List MwEntry)
    (req : Req) :
    (handleCore routes gmws gE rmE [] req).events =
      (sectionA gmws routes req initDState gE rmE).2.1 := by
  cases h : (sectionA gmws routes req initDState gE rmE).2.2 with
  | thrownOut t => rw [handleCore_noCands_thrown routes gmws gE rmE req t h]
  | retOut rr => rw [handleCore_noCands_ret routes gmws gE rmE req rr h]
  | fallThrough => rw [handleCore_noCands_fall routes gmws gE rmE req h]

end BunNode

namespace BunNode

/-- Request used by the concrete examples below. -/
def reqA : Req := ⟨"", "GET", "/a"⟩

end BunNode

namespace BunNode

theorem sectionA_split_halt (gmws routes : List Route) (req : Req) (st : DState)
    (gE rmE : List MwEntry) (pre post : List Ev) (e : Ev)
    (hsplit : (sectionA gmws routes req st gE rmE).2.1 = pre ++ e :: post)
    (hhalt : haltACb e.cb) (hst : st.errorThrown = none)
    (hpre : ∀ x ∈ pre, errFreeCb x.cb)
    (hgE : ∀ ent ∈ gE, ∃ r m, gmws[ent.routeIndex]? = some r ∧
      matchRoute r req = some m)
    (hrmE : ∀ ent ∈ rmE, ∃ r m, routes[ent.routeIndex]? = some r ∧
      matchRoute r req = some m) :
    post = [] ∧ ∃ m, (sectionA gmws routes req st gE rmE).2.2 = .retOut (.matched m) ∧
      (sectionA gmws routes req st gE rmE).1.headersSent = true := by
  cases hP : (aTier .globalMw gmws req st gE).2.2 with
  | rej er =>
    rw [sectionA_rej gmws routes req st gE rmE er hP] at hsplit
    obtain ⟨-, hdone, -⟩ :=
      aTier_split_halt .globalMw gmws req gE st pre post e hsplit hhalt
    rw [hP] at hdone
    cases hdone
  | done =>
    cases hE : (aTier .globalMw gmws req st gE).1.errorThrown with
    | some t' =>
      rw [sectionA_err gmws routes req st gE rmE t' hP hE] at hsplit
      obtain ⟨-, -, -, -, -, -, -, h8⟩ :=
        aTier_split_halt .globalMw gmws req gE st pre post e hsplit hhalt
      rw [h8 hpre, hst] at hE
      cases hE
    | none =>
      cases hH : (aTier .globalMw gmws req st gE).1.headersSent with
      | true =>
        rw [sectionA_headers gmws routes req st gE rmE hP hE hH] at hsplit ⊢
        obtain ⟨h1, -, -, -, -, ⟨r, hr, hmt⟩, ⟨ent, hent, hidx⟩, -⟩ :=
          aTier_split_halt .globalMw gmws req gE st pre post e hsplit hhalt
        obtain ⟨r', m, hr', hm⟩ := hgE ent hent
        rw [hidx] at hr'
        rw [hr'] at hr
        injection hr with hr
        subst hr
        refine ⟨h1, m, ?_, hH⟩
        rw [hmt, hm]
        rfl
      | false =>
        cases hQ : (aTier .pathMw routes req
            (aTier .globalMw gmws req st gE).1 rmE).2.2 with
        | rej er =>
          rw [sectionA_path_rej gmws routes req st gE rmE er hP hE hH hQ] at hsplit
          rcases append_cons_decomp _ _ _ _ _ hsplit with
            ⟨post₁, hin, hpost⟩ | ⟨pre₂, hpre₂, hin⟩
          · obtain ⟨-, -, hhd, -⟩ :=
              aTier_split_halt .globalMw gmws req gE st pre post₁ e hin hhalt
            rw [hH] at hhd
            cases hhd
          · obtain ⟨-, hdone, -⟩ :=
              aTier_split_halt .pathMw routes req rmE _ pre₂ post e hin hhalt
            rw [hQ] at hdone
            cases hdone
        | done =>
          cases hQE : (aTier .pathMw routes req
              (aTier .globalMw gmws req st gE).1 rmE).1.errorThrown with
          | some t' =>
            rw [sectionA_path_err gmws routes req st gE rmE t' hP hE hH hQ hQE]
              at hsplit
            rcases append_cons_decomp _ _ _ _ _ hsplit with
              ⟨post₁, hin, hpost⟩ | ⟨pre₂, hpre₂, hin⟩
            · obtain ⟨-, -, hhd, -⟩ :=
                aTier_split_halt .globalMw gmws req gE st pre post₁ e hin hhalt
              rw [hH] at hhd
              cases hhd
            · obtain ⟨-, -, -, -, -, -, -, h8⟩ :=
                aTier_split_halt .pathMw routes req rmE _ pre₂ post e hin hhalt
              subst hpre₂
              have hfree₂ : ∀ x ∈ pre₂, errFreeCb x.cb :=
                fun x hx => hpre x (List.mem_append.mpr (Or.inr hx))
              rw [h8 hfree₂, hE] at hQE
              cases hQE
          | none =>
            cases hQH : (aTier .pathMw routes req
                (aTier .globalMw gmws req st gE).1 rmE).1.headersSent with
            | true =>
              rw [sectionA_path_headers gmws routes req st gE rmE hP hE hH hQ hQE hQH]
                at hsplit ⊢
              rcases append_cons_decomp _ _ _ _ _ hsplit with
                ⟨post₁, hin, hpost⟩ | ⟨pre₂, hpre₂, hin⟩
              · obtain ⟨-, -, hhd, -⟩ :=
                  aTier_split_halt .globalMw gmws req gE st pre post₁ e hin hhalt
                rw [hH] at hhd
                cases hhd
              · obtain ⟨h1, -, -, -, -, ⟨r, hr, hmt⟩, ⟨ent, hent, hidx⟩, -⟩ :=
                  aTier_split_halt .pathMw routes req rmE _ pre₂ post e hin hhalt
                obtain ⟨r', m, hr', hm⟩ := hrmE ent hent
                rw [hidx] at hr'
                rw [hr'] at hr
                injection hr with hr
                subst hr
                refine ⟨h1, m, ?_, hQH⟩
                rw [hmt, hm]
                rfl
            | false =>
              rw [sectionA_fall gmws routes req st gE rmE hP hE hH hQ hQE hQH]
                at hsplit
              rcases append_cons_decomp _ _ _ _ _ hsplit with
                ⟨post₁, hin, hpost⟩ | ⟨pre₂, hpre₂, hin⟩
              · obtain ⟨-, -, hhd, -⟩ :=
                  aTier_split_halt .globalMw gmws req gE st pre post₁ e hin hhalt
                rw [hH] at hhd
                cases hhd
              · obtain ⟨-, -, hhd, -⟩ :=
                  aTier_split_halt .pathMw routes req rmE _ pre₂ post e hin hhalt
                rw [hQH] at hhd
                cases hhd

/-- C10 (amended): in the branch where no terminal route matched the
request, whenever a global or path middleware callback returns a truthy
value without sending headers itself, without invoking `next` and without
throwing — all earlier callbacks having been quiet (no error signalled, no
headers, falsy returns, so `headersSent` is still false) — the engine
itself ends the response (`response.end`, making `headersSent` true), stops
all further middleware and route processing, and `handle()` returns the
middleware route's own (re-)match result.  (If the callback ALSO invoked
`next`, the engine still ends the response but does NOT stop: see the
counterexample.) -/
theorem c10_truthy_middleware_return (routes : List Route) (req : Req)
    (pre post : List Ev) (e : Ev)
    (hnoterm : computeHandlers routes req = [])
    (hsplit : (handleRun routes req).events = pre ++ e :: post)
    (hret : e.cb.retTruthy = true) (hnohdr : e.cb.sendsHeaders = false)
    (hnonext : e.cb.nextCalls = []) (hnothrow : e.cb.throws = none)
    (hpre : ∀ x ∈ pre, errFreeCb x.cb ∧ x.cb.sendsHeaders = false ∧
      x.cb.retTruthy = false) :
    post = [] ∧ (handleRun routes req).finalSt.headersSent = true ∧
      ∃ m, (handleRun routes req).out = .ok (.matched m) := by
  rw [handleRun_eq, hnoterm] at hsplit ⊢
  rw [handleCore_noCands_events] at hsplit
  obtain ⟨h1, m, h2, h3⟩ := sectionA_split_halt (globalMwsOf routes) routes req
    initDState (computeGlobalMws (globalMwsOf routes) req)
    (computeRouteMws routes req) pre post e hsplit
    ⟨hnonext, hnothrow, Or.inr hret⟩ rfl (fun x hx => (hpre x hx).1)
    (fun ent hent => computeGlobalMws_consistent _ req ent hent)
    (fun ent hent => computeRouteMws_consistent _ req ent hent)
  rw [handleCore_noCands_ret _ _ _ _ _ _ h2]
  exact ⟨h1, h3, m, rfl⟩

def c10exM : MatchResult := ⟨none, "GET", "/a", [], [], []⟩

def c10exRoute : Route :=
  ⟨none, none, none, none, [],
    [⟨[.nil], false, true, none⟩, ⟨[], false, false, none⟩],
    fun _ _ _ => some c10exM⟩

/-- C10 counterexample: a global middleware callback that calls `next()`
and returns a truthy value while `headersSent` is false.  The engine ends
the response (final `headersSent` is true) but does NOT stop: the next
callback of the middleware still executes (two trace events), because the
promise was already resolved by `next()` when the executor tried to
resolve `"end-routing"`. -/
theorem c10_counterexample :
    (handleRun [c10exRoute] reqA).events =
        [⟨.globalMw, 0, 0, ⟨[.nil], false, true, none⟩⟩,
          ⟨.globalMw, 0, 1, ⟨[], false, false, none⟩⟩] ∧
      (handleRun [c10exRoute] reqA).finalSt.headersSent = true ∧
      (handleRun [c10exRoute] reqA).out = .ok (.matched c10exM) := ⟨rfl, rfl, rfl⟩

def c10wCb : CbBeh := ⟨[], false, true, none⟩

def c10wM : MatchResult := ⟨none, "GET", "/w", [], [], [⟨[], false, true, none⟩]⟩

def c10wRoute : Route :=
  ⟨none, none, none, none, [], [c10wCb], fun _ _ _ => some c10wM⟩

theorem c10_witness :
    ([] : List Ev) = [] ∧
      (handleRun [c10wRoute] reqA).finalSt.headersSent = true ∧
      ∃ m, (handleRun [c10wRoute] reqA).out = .ok (.matched m) :=
  c10_truthy_middleware_return [c10wRoute] reqA [] []
    ⟨.globalMw, 0, 0, c10wCb⟩ rfl rfl rfl rfl rfl rfl
    (fun x hx => absurd hx (List.not_mem_nil x))

end BunNode

namespace BunNode

/-- A middleware callback that neither throws, nor sends headers, nor
returns a truthy value, and only ever calls `next` with no argument or with
the `"next"` sentinel. -/
def benignCb (cb : CbBeh) : Prop :=
  cb.throws = none ∧ cb.sendsHeaders = false ∧ cb.retTruthy = false ∧
    ∀ a ∈ cb.nextCalls, a = NextArg.nil ∨ a = NextArg.nextStr

/-- The trace the callback loop of one middleware route produces when every
callback passes through: one event per position that resolves to a
callback. -/
def routeCbTrace (tier : Tier) (ri : Nat) (r : Route) : List Nat → List Ev
  | [] => []
  | k :: ks =>
    match r.callbacks[k]? with
    | none => routeCbTrace tier ri r ks
    | some cb => ⟨tier, ri, k, cb⟩ :: routeCbTrace tier ri r ks

/-- The trace a tier loop produces when every callback passes through. -/
def tierTrace (tier : Tier) (src : List Route) : List MwEntry → List Ev
  | [] => []
  | ent :: rest =>
    (match src[ent.routeIndex]? with
      | none => []
      | some r => routeCbTrace tier ent.routeIndex r ent.callbackIndexes) ++
      tierTrace tier src rest

theorem benign_stepNext (st : DState) (fr : Option PResp) (a : NextArg)
    (hmw : st.contMw = true) (ha : a = NextArg.nil ∨ a = NextArg.nextStr) :
    stepNext st fr a = (st, keepFirst fr (.boolR true)) := by
  cases st with
  | mk hs et cm cr mt =>
    have hcm : cm = true := hmw
    subst hcm
    rcases ha with rfl | rfl <;> rfl

theorem benign_runNexts (as : List NextArg) : ∀ (st : DState) (fr : Option PResp),
    st.contMw = true → (∀ a ∈ as, a = NextArg.nil ∨ a = NextArg.nextStr) →
    (runNexts st fr as).1 = st ∧
      ((runNexts st fr as).2 = fr ∨ (runNexts st fr as).2 = some (.boolR true)) := by
  induction as with
  | nil => intro st fr _ _; exact ⟨rfl, Or.inl rfl⟩
  | cons a rest ih =>
    intro st fr hmw hall
    have ha := hall a (List.mem_cons_self a rest)
    simp only [runNexts, benign_stepNext st fr a hmw ha]
    have hr := ih st (keepFirst fr (.boolR true)) hmw
      (fun x hx => hall x (List.mem_cons_of_mem a hx))
    refine ⟨hr.1, ?_⟩
    rcases hr.2 with h | h
    · cases fr with
      | none => exact Or.inr (h.trans rfl)
      | some x => exact Or.inl (h.trans rfl)
    · exact Or.inr h

theorem benign_siteNoRouteMw (st : DState) (cb : CbBeh) (hmw : st.contMw = true)
    (hhs : st.headersSent = false) (hb : benignCb cb) :
    siteNoRouteMw st cb = (st, .normal) ∨ siteNoRouteMw st cb = (st, .boolR true) := by
  obtain ⟨ht, hsend, hret, hnx⟩ := hb
  obtain ⟨h1, h2⟩ := benign_runNexts cb.nextCalls st none hmw hnx
  rcases h2 with h2 | h2
  · exact Or.inl (by simp [siteNoRouteMw, execCb, hsend, ht, h1, h2, hhs, hret, resolveOr])
  · exact Or.inr (by simp [siteNoRouteMw, execCb, hsend, ht, h1, h2, hhs, hret, resolveOr])

theorem benign_aCbLoop (tier : Tier) (ri : Nat) (r : Route) (req : Req) :
    ∀ (ks : List Nat) (st : DState), st.contMw = true → st.headersSent = false →
    (∀ cb ∈ r.callbacks, benignCb cb) →
    aCbLoop tier ri r req st ks = (st, routeCbTrace tier ri r ks, .cont) := by
  intro ks
  induction ks with
  | nil => intro st _ _ _; rfl
  | cons k rest ih =>
    intro st hmw hhs hb
    cases hcb : r.callbacks[k]? with
    | none =>
      simp only [aCbLoop, routeCbTrace, hcb]
      exact ih st hmw hhs hb
    | some cb =>
      have hbcb := hb cb (List.getElem?_mem hcb)
      rcases benign_siteNoRouteMw st cb hmw hhs hbcb with hp | hp
      · simp only [aCbLoop, routeCbTrace, hcb, hp, ih st hmw hhs hb]
      · simp only [aCbLoop, routeCbTrace, hcb, hp, ih st hmw hhs hb]

theorem benign_aTier (tier : Tier) (src : List Route) (req : Req)
    (hb : ∀ r ∈ src, ∀ cb ∈ r.callbacks, benignCb cb) :
    ∀ (entries : List MwEntry) (st : DState), st.contMw = true →
    st.headersSent = false →
    aTier tier src req st entries = (st, tierTrace tier src entries, .done) := by
  intro entries
  induction entries with
  | nil => intro st _ _; rfl
  | cons ent rest ih =>
    intro st hmw hhs
    cases hr : src[ent.routeIndex]? with
    | none =>
      simp only [aTier, hmw, if_true, hr, tierTrace, List.nil_append]
      exact ih st hmw hhs
    | some r =>
      have hcb := benign_aCbLoop tier ent.routeIndex r req ent.callbackIndexes st
        hmw hhs (hb r (List.getElem?_mem hr))
      simp only [aTier, hmw, if_true, hr, hcb, tierTrace, ih st hmw hhs]

/-- C6 (amended): for a request with no matching terminal route, and
middleware callbacks that complete without throwing, without signalling an
error or `"skip"` through `next`, without sending headers and with falsy
returns, `handle()` runs every matching global middleware callback and then
every matching path middleware callback, and resolves to `undefined`; with
no routes registered at all it resolves to `undefined` for every input.
(Without the quiet-completion proviso the claim fails: a middleware that
throws makes `handle()` reject even though no response was produced — see
the counterexample.) -/
theorem c6_unmatched_resolves_undefined (routes : List Route) (req : Req)
    (hnoterm : computeHandlers routes req = [])
    (hbenign : ∀ r ∈ routes, ∀ cb ∈ r.callbacks, benignCb cb) :
    (handleRun routes req).out = .ok .undefRes ∧
      (handleRun routes req).events =
        tierTrace .globalMw (globalMwsOf routes)
            (computeGlobalMws (globalMwsOf routes) req) ++
          tierTrace .pathMw routes (computeRouteMws routes req) ∧
      (handleRun [] req).out = .ok .undefRes := by
  have hbg : ∀ r ∈ globalMwsOf routes, ∀ cb ∈ r.callbacks, benignCb cb :=
    fun r hr => hbenign r (List.mem_of_mem_filter hr)
  have hg := benign_aTier .globalMw (globalMwsOf routes) req hbg
    (computeGlobalMws (globalMwsOf routes) req) initDState rfl rfl
  have hp := benign_aTier .pathMw routes req hbenign
    (computeRouteMws routes req) initDState rfl rfl
  have h1 : (aTier .globalMw (globalMwsOf routes) req initDState
      (computeGlobalMws (globalMwsOf routes) req)).2.2 = .done := by rw [hg]
  have h2 : (aTier .globalMw (globalMwsOf routes) req initDState
      (computeGlobalMws (globalMwsOf routes) req)).1.errorThrown = none := by
    rw [hg]
    rfl
  have h3 : (aTier .globalMw (globalMwsOf routes) req initDState
      (computeGlobalMws (globalMwsOf routes) req)).1.headersSent = false := by
    rw [hg]
    rfl
  have hpath : aTier .pathMw routes req
      (aTier .globalMw (globalMwsOf routes) req initDState
        (computeGlobalMws (globalMwsOf routes) req)).1 (computeRouteMws routes req) =
      (initDState, tierTrace .pathMw routes (computeRouteMws routes req), .done) := by
    rw [hg]
    exact hp
  have h4 : (aTier .pathMw routes req
      (aTier .globalMw (globalMwsOf routes) req initDState
        (computeGlobalMws (globalMwsOf routes) req)).1
      (computeRouteMws routes req)).2.2 = .done := by rw [hpath]
  have h5 : (aTier .pathMw routes req
      (aTier .globalMw (globalMwsOf routes) req initDState
        (computeGlobalMws (globalMwsOf routes) req)).1
      (computeRouteMws routes req)).1.errorThrown = none := by
    rw [hpath]
    rfl
  have h6 : (aTier .pathMw routes req
      (aTier .globalMw (globalMwsOf routes) req initDState
        (computeGlobalMws (globalMwsOf routes) req)).1
      (computeRouteMws routes req)).1.headersSent = false := by
    rw [hpath]
    rfl
  have hsec := sectionA_fall (globalMwsOf routes) routes req initDState
    (computeGlobalMws (globalMwsOf routes) req) (computeRouteMws routes req)
    h1 h2 h3 h4 h5 h6
  rw [hpath, hg] at hsec
  rw [handleRun_eq, hnoterm]
  rw [handleCore_noCands_fall _ _ _ _ _ (by rw [hsec])]
  refine ⟨?_, ?_, rfl⟩
  · show HandleOut.ok (finalRet _) = _
    rw [hsec]
    rfl
  · show (sectionA _ _ _ _ _ _).2.1 = _
    rw [hsec]

def c6exM : MatchResult := ⟨none, "GET", "/a", [], [], []⟩

def c6exRoute : Route :=
  ⟨none, none, none, none, [], [⟨[], false, false, some (.strVal "boom")⟩],
    fun _ _ _ => some c6exM⟩

/-- C6 counterexample: a global middleware that throws a string.  No
terminal route matches and the middleware produced no response
(`headersSent` stays false), yet `handle()` rejects with the wrapped error
instead of resolving `undefined`. -/
theorem c6_counterexample :
    computeHandlers [c6exRoute] reqA = [] ∧
      (handleRun [c6exRoute] reqA).finalSt.headersSent = false ∧
      (handleRun [c6exRoute] reqA).out = .thrown (.wrapped "boom") :=
  ⟨rfl, rfl, rfl⟩

def c6wM : MatchResult := ⟨none, "GET", "/w", [], [], []⟩

def c6wRoute : Route :=
  ⟨none, none, none, none, [], [⟨[NextArg.nil], false, false, none⟩],
    fun _ _ _ => some c6wM⟩

theorem c6_witness :
    (handleRun [c6wRoute] reqA).out = .ok .undefRes ∧
      (handleRun [c6wRoute] reqA).events =
        tierTrace .globalMw (globalMwsOf [c6wRoute])
            (computeGlobalMws (globalMwsOf [c6wRoute]) reqA) ++
          tierTrace .pathMw [c6wRoute] (computeRouteMws [c6wRoute] reqA) ∧
      (handleRun [] reqA).out = .ok .undefRes :=
  c6_unmatched_resolves_undefined [c6wRoute] reqA rfl (by
    intro r hr cb hcb
    rw [List.mem_singleton] at hr
    subst hr
    simp only [c6wRoute, List.mem_singleton] at hcb
    subst hcb
    exact ⟨rfl, rfl, rfl, fun a ha => Or.inl (List.mem_singleton.mp ha)⟩)

end BunNode

namespace BunNode

/-! ### Executor-site lemmas for the terminal-route branch -/

/-- The halting shape of the terminal-branch executors: no `next` call, no
throw, and the callback sent headers. -/
def haltHdrCb (cb : CbBeh) : Prop :=
  cb.nextCalls = [] ∧ cb.throws = none ∧ cb.sendsHeaders = true

theorem siteRouteMw_errorThrown (st : DState) (cb : CbBeh) (h : errFreeCb cb) :
    (siteRouteMw st cb).1.errorThrown = st.errorThrown := by
  have h1 := execCb_errorThrown st cb h
  have h2 : (execCb st cb).threw = false := by
    rw [execCb_threw, h.1]
    rfl
  simp only [siteRouteMw, h2, if_false, Bool.false_eq_true, ite_false]
  split
  · exact h1
  · split
    · exact h1
    · exact h1

theorem siteRouteMw_headersSent (st : DState) (cb : CbBeh)
    (h2 : cb.sendsHeaders = false) :
    (siteRouteMw st cb).1.headersSent = st.headersSent := by
  have hst : (execCb st cb).st.headersSent = st.headersSent := by
    simp only [execCb]
    cases hthr : cb.throws <;> simp [h2, runNexts_headersSent]
  simp only [siteRouteMw]
  split
  · exact hst
  · split
    · exact hst
    · split
      · exact hst
      · exact hst

theorem siteTerminal_errorThrown (st : DState) (cb : CbBeh) (isLast : Bool)
    (h : errFreeCb cb) :
    (siteTerminal st cb isLast).1.errorThrown = st.errorThrown := by
  have h1 := execCb_errorThrown st cb h
  have h2 : (execCb st cb).threw = false := by
    rw [execCb_threw, h.1]
    rfl
  simp only [siteTerminal, h2, if_false, Bool.false_eq_true, ite_false]
  split
  · exact h1
  · exact h1

theorem siteTerminal_headersSent (st : DState) (cb : CbBeh) (isLast : Bool)
    (h2 : cb.sendsHeaders = false) :
    (siteTerminal st cb isLast).1.headersSent = st.headersSent := by
  have hst : (execCb st cb).st.headersSent = st.headersSent := by
    simp only [execCb]
    cases hthr : cb.throws <;> simp [h2, runNexts_headersSent]
  simp only [siteTerminal]
  split
  · exact hst
  · split
    · exact hst
    · exact hst

theorem siteRouteMw_rej_mem (st : DState) (cb : CbBeh) (er : ErrVal)
    (h : (siteRouteMw st cb).2 = .rejected er) :
    ∃ v, NextArg.err v ∈ cb.nextCalls := by
  apply execCb_rej_mem st cb er
  simp only [siteRouteMw] at h
  split at h
  · exact resolveOr_eq_rejected _ _ _ (by simp) h
  · split at h
    · dsimp only at h
      exact resolveOr_eq_rejected _ _ _ (by simp) h
    · split at h
      · dsimp only at h
        exact resolveOr_eq_rejected _ _ _ (by simp) h
      · dsimp only at h
        exact resolveOr_eq_rejected _ _ _ (by simp) h

theorem siteTerminal_rej_mem (st : DState) (cb : CbBeh) (er : ErrVal)
    (isLast : Bool) (h : (siteTerminal st cb isLast).2 = .rejected er) :
    ∃ v, NextArg.err v ∈ cb.nextCalls := by
  apply execCb_rej_mem st cb er
  simp only [siteTerminal] at h
  split at h
  · exact resolveOr_eq_rejected _ _ _ (by simp) h
  · split at h
    · dsimp only at h
      exact resolveOr_eq_rejected _ _ _ (by simp) h
    · dsimp only at h
      refine resolveOr_eq_rejected _ _ _ ?_ h
      cases isLast <;> simp

end BunNode

namespace BunNode

/-! ### Per-case equations for the terminal-branch middleware callback loop -/

theorem bCbLoop_cons_none (tier : Tier) (ri : Nat) (r : Route) (req : Req)
    (st : DState) (k : Nat) (ks : List Nat) (hcb : r.callbacks[k]? = none) :
    bCbLoop tier ri r req st (k :: ks) = bCbLoop tier ri r req st ks := by
  simp [bCbLoop, hcb]

theorem bCbLoop_cons_endRouting (tier : Tier) (ri : Nat) (r : Route) (req : Req)
    (st : DState) (k : Nat) (ks : List Nat) (cb : CbBeh)
    (hcb : r.callbacks[k]? = some cb)
    (hp : (siteRouteMw st cb).2 = .endRouting) :
    bCbLoop tier ri r req st (k :: ks) =
      ({ (siteRouteMw st cb).1 with
          contMw := false, contRh := false, matched := matchRoute r req },
        [⟨tier, ri, k, cb⟩], .brkHandle) := by
  simp [bCbLoop, hcb, hp]

theorem bCbLoop_cons_skip (tier : Tier) (ri : Nat) (r : Route) (req : Req)
    (st : DState) (k : Nat) (ks : List Nat) (cb : CbBeh)
    (hcb : r.callbacks[k]? = some cb)
    (hp : (siteRouteMw st cb).2 = .skipMiddlewares) :
    bCbLoop tier ri r req st (k :: ks) =
      ({ (siteRouteMw st cb).1 with contMw := false },
        [⟨tier, ri, k, cb⟩], .brkTier) := by
  simp [bCbLoop, hcb, hp]

theorem bCbLoop_cons_contH (tier : Tier) (ri : Nat) (r : Route) (req : Req)
    (st : DState) (k : Nat) (ks : List Nat) (cb : CbBeh)
    (hcb : r.callbacks[k]? = some cb)
    (hp : (siteRouteMw st cb).2 = .continueHandlers) :
    bCbLoop tier ri r req st (k :: ks) =
      ((siteRouteMw st cb).1, [⟨tier, ri, k, cb⟩], .contHandle) := by
  simp [bCbLoop, hcb, hp]

theorem bCbLoop_cons_rej (tier : Tier) (ri : Nat) (r : Route) (req : Req)
    (st : DState) (k : Nat) (ks : List Nat) (cb : CbBeh) (er : ErrVal)
    (hcb : r.callbacks[k]? = some cb)
    (hp : (siteRouteMw st cb).2 = .rejected er) :
    bCbLoop tier ri r req st (k :: ks) =
      ((siteRouteMw st cb).1, [⟨tier, ri, k, cb⟩], .rej er) := by
  simp [bCbLoop, hcb, hp]

theorem bCbLoop_cons_other (tier : Tier) (ri : Nat) (r : Route) (req : Req)
    (st : DState) (k : Nat) (ks : List Nat) (cb : CbBeh)
    (hcb : r.callbacks[k]? = some cb)
    (hp1 : (siteRouteMw st cb).2 ≠ .endRouting)
    (hp2 : (siteRouteMw st cb).2 ≠ .skipMiddlewares)
    (hp3 : (siteRouteMw st cb).2 ≠ .continueHandlers)
    (hp4 : ∀ er, (siteRouteMw st cb).2 ≠ .rejected er) :
    bCbLoop tier ri r req st (k :: ks) =
      ((bCbLoop tier ri r req (siteRouteMw st cb).1 ks).1,
        ⟨tier, ri, k, cb⟩ :: (bCbLoop tier ri r req (siteRouteMw st cb).1 ks).2.1,
        (bCbLoop tier ri r req (siteRouteMw st cb).1 ks).2.2) := by
  simp only [bCbLoop, hcb]

theorem bCbLoop_tags (tier : Tier) (ri : Nat) (r : Route) (req : Req) :
    ∀ (ks : List Nat) (st : DState) (x : Ev),
      x ∈ (bCbLoop tier ri r req st ks).2.1 → x.tier = tier ∧ x.routeIdx = ri := by
  intro ks
  induction ks with
  | nil => intro st x hx; simp [bCbLoop] at hx
  | cons k ks ih =>
    intro st x hx
    cases hcb : r.callbacks[k]? with
    | none =>
      rw [bCbLoop_cons_none tier ri r req st k ks hcb] at hx
      exact ih st x hx
    | some cb =>
      by_cases hend : (siteRouteMw st cb).2 = .endRouting
      · rw [bCbLoop_cons_endRouting tier ri r req st k ks cb hcb hend] at hx
        simp only [List.mem_singleton] at hx
        subst hx; exact ⟨rfl, rfl⟩
      by_cases hskip : (siteRouteMw st cb).2 = .skipMiddlewares
      · rw [bCbLoop_cons_skip tier ri r req st k ks cb hcb hskip] at hx
        simp only [List.mem_singleton] at hx
        subst hx; exact ⟨rfl, rfl⟩
      by_cases hch : (siteRouteMw st cb).2 = .continueHandlers
      · rw [bCbLoop_cons_contH tier ri r req st k ks cb hcb hch] at hx
        simp only [List.mem_singleton] at hx
        subst hx; exact ⟨rfl, rfl⟩
      by_cases hrej : ∃ er, (siteRouteMw st cb).2 = .rejected er
      · obtain ⟨er, hrej⟩ := hrej
        rw [bCbLoop_cons_rej tier ri r req st k ks cb er hcb hrej] at hx
        simp only [List.mem_singleton] at hx
        subst hx; exact ⟨rfl, rfl⟩
      · push_neg at hrej
        rw [bCbLoop_cons_other tier ri r req st k ks cb hcb hend hskip hch hrej] at hx
        rcases List.mem_cons.mp hx with hx | hx
        · subst hx; exact ⟨rfl, rfl⟩
        · exact ih _ x hx

theorem bCbLoop_errorThrown_inv (tier : Tier) (ri : Nat) (r : Route) (req : Req) :
    ∀ (ks : List Nat) (st : DState),
      (∀ x ∈ (bCbLoop tier ri r req st ks).2.1, errFreeCb x.cb) →
      (bCbLoop tier ri r req st ks).1.errorThrown = st.errorThrown := by
  intro ks
  induction ks with
  | nil => intro st _; rfl
  | cons k ks ih =>
    intro st h
    cases hcb : r.callbacks[k]? with
    | none =>
      rw [bCbLoop_cons_none tier ri r req st k ks hcb] at h ⊢
      exact ih st h
    | some cb =>
      by_cases hend : (siteRouteMw st cb).2 = .endRouting
      · rw [bCbLoop_cons_endRouting tier ri r req st k ks cb hcb hend] at h ⊢
        exact siteRouteMw_errorThrown st cb (h _ (List.mem_singleton.mpr rfl))
      by_cases hskip : (siteRouteMw st cb).2 = .skipMiddlewares
      · rw [bCbLoop_cons_skip tier ri r req st k ks cb hcb hskip] at h ⊢
        exact siteRouteMw_errorThrown st cb (h _ (List.mem_singleton.mpr rfl))
      by_cases hch : (siteRouteMw st cb).2 = .continueHandlers
      · rw [bCbLoop_cons_contH tier ri r req st k ks cb hcb hch] at h ⊢
        exact siteRouteMw_errorThrown st cb (h _ (List.mem_singleton.mpr rfl))
      by_cases hrej : ∃ er, (siteRouteMw st cb).2 = .rejected er
      · obtain ⟨er, hrej⟩ := hrej
        rw [bCbLoop_cons_rej tier ri r req st k ks cb er hcb hrej] at h ⊢
        have hfree := h _ (List.mem_singleton.mpr rfl)
        obtain ⟨v, hv⟩ := siteRouteMw_rej_mem st cb er hrej
        exact absurd hv (hfree.2 v)
      · push_neg at hrej
        rw [bCbLoop_cons_other tier ri r req st k ks cb hcb hend hskip hch hrej] at h ⊢
        have hfree : errFreeCb cb := h _ (List.mem_cons_self _ _)
        have h2 : ∀ x ∈ (bCbLoop tier ri r req (siteRouteMw st cb).1 ks).2.1,
            errFreeCb x.cb := fun x hx => h x (List.mem_cons_of_mem _ hx)
        rw [ih _ h2]
        exact siteRouteMw_errorThrown st cb hfree

theorem bCbLoop_headersSent_inv (tier : Tier) (ri : Nat) (r : Route) (req : Req) :
    ∀ (ks : List Nat) (st : DState),
      (∀ x ∈ (bCbLoop tier ri r req st ks).2.1, x.cb.sendsHeaders = false) →
      (bCbLoop tier ri r req st ks).1.headersSent = st.headersSent := by
  intro ks
  induction ks with
  | nil => intro st _; rfl
  | cons k ks ih =>
    intro st h
    cases hcb : r.callbacks[k]? with
    | none =>
      rw [bCbLoop_cons_none tier ri r req st k ks hcb] at h ⊢
      exact ih st h
    | some cb =>
      by_cases hend : (siteRouteMw st cb).2 = .endRouting
      · rw [bCbLoop_cons_endRouting tier ri r req st k ks cb hcb hend] at h ⊢
        exact siteRouteMw_headersSent st cb (h _ (List.mem_singleton.mpr rfl))
      by_cases hskip : (siteRouteMw st cb).2 = .skipMiddlewares
      · rw [bCbLoop_cons_skip tier ri r req st k ks cb hcb hskip] at h ⊢
        exact siteRouteMw_headersSent st cb (h _ (List.mem_singleton.mpr rfl))
      by_cases hch : (siteRouteMw st cb).2 = .continueHandlers
      · rw [bCbLoop_cons_contH tier ri r req st k ks cb hcb hch] at h ⊢
        exact siteRouteMw_headersSent st cb (h _ (List.mem_singleton.mpr rfl))
      by_cases hrej : ∃ er, (siteRouteMw st cb).2 = .rejected er
      · obtain ⟨er, hrej⟩ := hrej
        rw [bCbLoop_cons_rej tier ri r req st k ks cb er hcb hrej] at h ⊢
        exact siteRouteMw_headersSent st cb (h _ (List.mem_singleton.mpr rfl))
      · push_neg at hrej
        rw [bCbLoop_cons_other tier ri r req st k ks cb hcb hend hskip hch hrej] at h ⊢
        have h2 : ∀ x ∈ (bCbLoop tier ri r req (siteRouteMw st cb).1 ks).2.1,
            x.cb.sendsHeaders = false := fun x hx => h x (List.mem_cons_of_mem _ hx)
        rw [ih _ h2]
        exact siteRouteMw_headersSent st cb (h _ (List.mem_cons_self _ _))

theorem bCbLoop_split_halt (tier : Tier) (ri : Nat) (r : Route) (req : Req) :
    ∀ (ks : List Nat) (st : DState) (pre post : List Ev) (e : Ev),
      (bCbLoop tier ri r req st ks).2.1 = pre ++ e :: post → haltHdrCb e.cb →
      post = [] ∧ (bCbLoop tier ri r req st ks).2.2 = .brkHandle ∧
        (bCbLoop tier ri r req st ks).1.headersSent = true ∧
        (bCbLoop tier ri r req st ks).1.matched = matchRoute r req ∧
        ((∀ x ∈ pre, errFreeCb x.cb) →
          (bCbLoop tier ri r req st ks).1.errorThrown = st.errorThrown) := by
  intro ks
  induction ks with
  | nil =>
    intro st pre post e hsplit _
    simp [bCbLoop] at hsplit
  | cons k ks ih =>
    intro st pre post e hsplit hhalt
    cases hcb : r.callbacks[k]? with
    | none =>
      rw [bCbLoop_cons_none tier ri r req st k ks hcb] at hsplit ⊢
      exact ih st pre post e hsplit hhalt
    | some cb =>
      by_cases hend : (siteRouteMw st cb).2 = .endRouting
      · rw [bCbLoop_cons_endRouting tier ri r req st k ks cb hcb hend] at hsplit ⊢
        obtain ⟨hpre, he, hpost⟩ := append_cons_eq_singleton _ _ _ _ hsplit.symm
        subst he
        have h1 : (siteRouteMw st cb).1 = { st with headersSent := true } :=
          congrArg Prod.fst (siteRouteMw_halt st cb hhalt.1 hhalt.2.1 hhalt.2.2)
        refine ⟨hpost, rfl, ?_, rfl, ?_⟩
        · simp [h1]
        · intro _
          simp [h1]
      by_cases hskip : (siteRouteMw st cb).2 = .skipMiddlewares
      · rw [bCbLoop_cons_skip tier ri r req st k ks cb hcb hskip] at hsplit ⊢
        obtain ⟨hpre, he, hpost⟩ := append_cons_eq_singleton _ _ _ _ hsplit.symm
        subst he
        have hsite := congrArg Prod.snd
          (siteRouteMw_halt st cb hhalt.1 hhalt.2.1 hhalt.2.2)
        rw [hskip] at hsite
        cases hsite
      by_cases hch : (siteRouteMw st cb).2 = .continueHandlers
      · rw [bCbLoop_cons_contH tier ri r req st k ks cb hcb hch] at hsplit ⊢
        obtain ⟨hpre, he, hpost⟩ := append_cons_eq_singleton _ _ _ _ hsplit.symm
        subst he
        have hsite := congrArg Prod.snd
          (siteRouteMw_halt st cb hhalt.1 hhalt.2.1 hhalt.2.2)
        rw [hch] at hsite
        cases hsite
      by_cases hrej : ∃ er, (siteRouteMw st cb).2 = .rejected er
      · obtain ⟨er, hrej⟩ := hrej
        rw [bCbLoop_cons_rej tier ri r req st k ks cb er hcb hrej] at hsplit ⊢
        obtain ⟨hpre, he, hpost⟩ := append_cons_eq_singleton _ _ _ _ hsplit.symm
        subst he
        have hsite := congrArg Prod.snd
          (siteRouteMw_halt st cb hhalt.1 hhalt.2.1 hhalt.2.2)
        rw [hrej] at hsite
        cases hsite
      · push_neg at hrej
        rw [bCbLoop_cons_other tier ri r req st k ks cb hcb hend hskip hch hrej]
          at hsplit ⊢
        rcases append_cons_eq_cons _ _ _ _ _ hsplit.symm with
          ⟨hpre, he, hpost⟩ | ⟨pre', hpre, hrest⟩
        · subst he
          have hs2 : (siteRouteMw st cb).2 = .endRouting := by
            rw [siteRouteMw_halt st cb hhalt.1 hhalt.2.1 hhalt.2.2]
          exact absurd hs2 hend
        · subst hpre
          obtain ⟨hp1, hp2, hp3, hp4, hp5⟩ :=
            ih ((siteRouteMw st cb).1) pre' post e hrest.symm hhalt
          refine ⟨hp1, hp2, hp3, hp4, ?_⟩
          intro hfree
          rw [hp5 (fun x hx => hfree x (List.mem_cons_of_mem _ hx))]
          exact siteRouteMw_errorThrown st cb (hfree _ (List.mem_cons_self _ _))

theorem bCbLoop_split_rej (tier : Tier) (ri : Nat) (r : Route) (req : Req) :
    ∀ (ks : List Nat) (st : DState) (pre post : List Ev) (e : Ev) (er : ErrVal),
      (bCbLoop tier ri r req st ks).2.1 = pre ++ e :: post →
      firstNextErr e.cb = some er →
      post = [] ∧ (bCbLoop tier ri r req st ks).2.2 = .rej er := by
  intro ks
  induction ks with
  | nil =>
    intro st pre post e er hsplit _
    simp [bCbLoop] at hsplit
  | cons k ks ih =>
    intro st pre post e er hsplit hfe
    cases hcb : r.callbacks[k]? with
    | none =>
      rw [bCbLoop_cons_none tier ri r req st k ks hcb] at hsplit ⊢
      exact ih st pre post e er hsplit hfe
    | some cb =>
      by_cases hend : (siteRouteMw st cb).2 = .endRouting
      · rw [bCbLoop_cons_endRouting tier ri r req st k ks cb hcb hend] at hsplit ⊢
        obtain ⟨hpre, he, hpost⟩ := append_cons_eq_singleton _ _ _ _ hsplit.symm
        subst he
        have hs2 := siteRouteMw_rej st cb er hfe
        rw [hend] at hs2
        cases hs2
      by_cases hskip : (siteRouteMw st cb).2 = .skipMiddlewares
      · rw [bCbLoop_cons_skip tier ri r req st k ks cb hcb hskip] at hsplit ⊢
        obtain ⟨hpre, he, hpost⟩ := append_cons_eq_singleton _ _ _ _ hsplit.symm
        subst he
        have hs2 := siteRouteMw_rej st cb er hfe
        rw [hskip] at hs2
        cases hs2
      by_cases hch : (siteRouteMw st cb).2 = .continueHandlers
      · rw [bCbLoop_cons_contH tier ri r req st k ks cb hcb hch] at hsplit ⊢
        obtain ⟨hpre, he, hpost⟩ := append_cons_eq_singleton _ _ _ _ hsplit.symm
        subst he
        have hs2 := siteRouteMw_rej st cb er hfe
        rw [hch] at hs2
        cases hs2
      by_cases hrej : ∃ er', (siteRouteMw st cb).2 = .rejected er'
      · obtain ⟨er', hrej⟩ := hrej
        rw [bCbLoop_cons_rej tier ri r req st k ks cb er' hcb hrej] at hsplit ⊢
        obtain ⟨hpre, he, hpost⟩ := append_cons_eq_singleton _ _ _ _ hsplit.symm
        subst he
        have hs2 := siteRouteMw_rej st cb er hfe
        rw [hrej] at hs2
        injection hs2 with hs2
        subst hs2
        exact ⟨hpost, rfl⟩
      · push_neg at hrej
        rw [bCbLoop_cons_other tier ri r req st k ks cb hcb hend hskip hch hrej]
          at hsplit ⊢
        rcases append_cons_eq_cons _ _ _ _ _ hsplit.symm with
          ⟨hpre, he, hpost⟩ | ⟨pre', hpre, hrest⟩
        · subst he
          exact absurd (siteRouteMw_rej st cb er hfe) (hrej er)
        · subst hpre
          exact ih ((siteRouteMw st cb).1) pre' post e er hrest.symm hfe

end BunNode

namespace BunNode

/-! ### Middleware tier loop lemmas (terminal-route branch) -/

theorem bTier_noMw (tier : Tier) (src : List Route) (req : Req) (st : DState)
    (entries : List MwEntry) (h : st.contMw = false) :
    bTier tier src req st entries = (st, [], .done) := by
  cases entries with
  | nil => rfl
  | cons ent rest => simp [bTier, h]

theorem bTier_cons_none (tier : Tier) (src : List Route) (req : Req) (st : DState)
    (ent : MwEntry) (rest : List MwEntry) (h : st.contMw = true)
    (hsrc : src[ent.routeIndex]? = none) :
    bTier tier src req st (ent :: rest) = bTier tier src req st rest := by
  simp [bTier, h, hsrc]

theorem bTier_cons_cont (tier : Tier) (src : List Route) (req : Req) (st : DState)
    (ent : MwEntry) (rest : List MwEntry) (r : Route) (h : st.contMw = true)
    (hsrc : src[ent.routeIndex]? = some r)
    (hloop : (bCbLoop tier ent.routeIndex r req st ent.callbackIndexes).2.2 = .cont) :
    bTier tier src req st (ent :: rest) =
      ((bTier tier src req
          (bCbLoop tier ent.routeIndex r req st ent.callbackIndexes).1 rest).1,
        (bCbLoop tier ent.routeIndex r req st ent.callbackIndexes).2.1 ++
          (bTier tier src req
            (bCbLoop tier ent.routeIndex r req st ent.callbackIndexes).1 rest).2.1,
        (bTier tier src req
          (bCbLoop tier ent.routeIndex r req st ent.callbackIndexes).1 rest).2.2) := by
  simp [bTier, h, hsrc, hloop]

theorem bTier_cons_brkTier (tier : Tier) (src : List Route) (req : Req) (st : DState)
    (ent : MwEntry) (rest : List MwEntry) (r : Route) (h : st.contMw = true)
    (hsrc : src[ent.routeIndex]? = some r)
    (hloop : (bCbLoop tier ent.routeIndex r req st ent.callbackIndexes).2.2 = .brkTier) :
    bTier tier src req st (ent :: rest) =
      ((bCbLoop tier ent.routeIndex r req st ent.callbackIndexes).1,
        (bCbLoop tier ent.routeIndex r req st ent.callbackIndexes).2.1, .done) := by
  simp [bTier, h, hsrc, hloop]

theorem bTier_cons_brkHandle (tier : Tier) (src : List Route) (req : Req)
    (st : DState) (ent : MwEntry) (rest : List MwEntry) (r : Route)
    (h : st.contMw = true) (hsrc : src[ent.routeIndex]? = some r)
    (hloop : (bCbLoop tier ent.routeIndex r req st ent.callbackIndexes).2.2 =
      .brkHandle) :
    bTier tier src req st (ent :: rest) =
      ((bCbLoop tier ent.routeIndex r req st ent.callbackIndexes).1,
        (bCbLoop tier ent.routeIndex r req st ent.callbackIndexes).2.1,
        .brkHandle) := by
  simp [bTier, h, hsrc, hloop]

theorem bTier_cons_contHandle (tier : Tier) (src : List Route) (req : Req)
    (st : DState) (ent : MwEntry) (rest : List MwEntry) (r : Route)
    (h : st.contMw = true) (hsrc : src[ent.routeIndex]? = some r)
    (hloop : (bCbLoop tier ent.routeIndex r req st ent.callbackIndexes).2.2 =
      .contHandle) :
    bTier tier src req st (ent :: rest) =
      ((bCbLoop tier ent.routeIndex r req st ent.callbackIndexes).1,
        (bCbLoop tier ent.routeIndex r req st ent.callbackIndexes).2.1,
        .contHandle) := by
  simp [bTier, h, hsrc, hloop]

theorem bTier_cons_rej (tier : Tier) (src : List Route) (req : Req) (st : DState)
    (ent : MwEntry) (rest : List MwEntry) (r : Route) (er : ErrVal)
    (h : st.contMw = true) (hsrc : src[ent.routeIndex]? = some r)
    (hloop : (bCbLoop tier ent.routeIndex r req st ent.callbackIndexes).2.2 =
      .rej er) :
    bTier tier src req st (ent :: rest) =
      ((bCbLoop tier ent.routeIndex r req st ent.callbackIndexes).1,
        (bCbLoop tier ent.routeIndex r req st ent.callbackIndexes).2.1, .rej er) := by
  simp [bTier, h, hsrc, hloop]

theorem bTier_tags (tier : Tier) (src : List Route) (req : Req) :
    ∀ (entries : List MwEntry) (st : DState) (x : Ev),
      x ∈ (bTier tier src req st entries).2.1 →
      x.tier = tier ∧ ∃ ent ∈ entries, x.routeIdx = ent.routeIndex := by
  intro entries
  induction entries with
  | nil => intro st x hx; simp [bTier] at hx
  | cons ent rest ih =>
    intro st x hx
    cases hmw : st.contMw with
    | false =>
      rw [bTier_noMw tier src req st _ hmw] at hx
      simp at hx
    | true =>
      cases hsrc : src[ent.routeIndex]? with
      | none =>
        rw [bTier_cons_none tier src req st ent rest hmw hsrc] at hx
        obtain ⟨h1, ent', hent', h2⟩ := ih st x hx
        exact ⟨h1, ent', List.mem_cons_of_mem _ hent', h2⟩
      | some r =>
        cases hloop : (bCbLoop tier ent.routeIndex r req st ent.callbackIndexes).2.2 with
        | cont =>
          rw [bTier_cons_cont tier src req st ent rest r hmw hsrc hloop] at hx
          rcases List.mem_append.mp hx with hx | hx
          · obtain ⟨h1, h2⟩ := bCbLoop_tags tier ent.routeIndex r req _ _ x hx
            exact ⟨h1, ent, List.mem_cons_self _ _, h2⟩
          · obtain ⟨h1, ent', hent', h2⟩ := ih _ x hx
            exact ⟨h1, ent', List.mem_cons_of_mem _ hent', h2⟩
        | brkTier =>
          rw [bTier_cons_brkTier tier src req st ent rest r hmw hsrc hloop] at hx
          obtain ⟨h1, h2⟩ := bCbLoop_tags tier ent.routeIndex r req _ _ x hx
          exact ⟨h1, ent, List.mem_cons_self _ _, h2⟩
        | brkHandle =>
          rw [bTier_cons_brkHandle tier src req st ent rest r hmw hsrc hloop] at hx
          obtain ⟨h1, h2⟩ := bCbLoop_tags tier ent.routeIndex r req _ _ x hx
          exact ⟨h1, ent, List.mem_cons_self _ _, h2⟩
        | contHandle =>
          rw [bTier_cons_contHandle tier src req st ent rest r hmw hsrc hloop] at hx
          obtain ⟨h1, h2⟩ := bCbLoop_tags tier ent.routeIndex r req _ _ x hx
          exact ⟨h1, ent, List.mem_cons_self _ _, h2⟩
        | rej er =>
          rw [bTier_cons_rej tier src req st ent rest r er hmw hsrc hloop] at hx
          obtain ⟨h1, h2⟩ := bCbLoop_tags tier ent.routeIndex r req _ _ x hx
          exact ⟨h1, ent, List.mem_cons_self _ _, h2⟩

theorem bTier_errorThrown_inv (tier : Tier) (src : List Route) (req : Req) :
    ∀ (entries : List MwEntry) (st : DState),
      (∀ x ∈ (bTier tier src req st entries).2.1, errFreeCb x.cb) →
      (bTier tier src req st entries).1.errorThrown = st.errorThrown := by
  intro entries
  induction entries with
  | nil => intro st _; rfl
  | cons ent rest ih =>
    intro st h
    cases hmw : st.contMw with
    | false => rw [bTier_noMw tier src req st _ hmw]
    | true =>
      cases hsrc : src[ent.routeIndex]? with
      | none =>
        rw [bTier_cons_none tier src req st ent rest hmw hsrc] at h ⊢
        exact ih st h
      | some r =>
        cases hloop : (bCbLoop tier ent.routeIndex r req st ent.callbackIndexes).2.2 with
        | cont =>
          rw [bTier_cons_cont tier src req st ent rest r hmw hsrc hloop] at h ⊢
          rw [ih _ fun x hx => h x (List.mem_append.mpr (Or.inr hx))]
          exact bCbLoop_errorThrown_inv tier ent.routeIndex r req _ st
            fun x hx => h x (List.mem_append.mpr (Or.inl hx))
        | brkTier =>
          rw [bTier_cons_brkTier tier src req st ent rest r hmw hsrc hloop] at h ⊢
          exact bCbLoop_errorThrown_inv tier ent.routeIndex r req _ st h
        | brkHandle =>
          rw [bTier_cons_brkHandle tier src req st ent rest r hmw hsrc hloop] at h ⊢
          exact bCbLoop_errorThrown_inv tier ent.routeIndex r req _ st h
        | contHandle =>
          rw [bTier_cons_contHandle tier src req st ent rest r hmw hsrc hloop] at h ⊢
          exact bCbLoop_errorThrown_inv tier ent.routeIndex r req _ st h
        | rej er =>
          rw [bTier_cons_rej tier src req st ent rest r er hmw hsrc hloop] at h ⊢
          exact bCbLoop_errorThrown_inv tier ent.routeIndex r req _ st h

theorem bTier_headersSent_inv (tier : Tier) (src : List Route) (req : Req) :
    ∀ (entries : List MwEntry) (st : DState),
      (∀ x ∈ (bTier tier src req st entries).2.1, x.cb.sendsHeaders = false) →
      (bTier tier src req st entries).1.headersSent = st.headersSent := by
  intro entries
  induction entries with
  | nil => intro st _; rfl
  | cons ent rest ih =>
    intro st h
    cases hmw : st.contMw with
    | false => rw [bTier_noMw tier src req st _ hmw]
    | true =>
      cases hsrc : src[ent.routeIndex]? with
      | none =>
        rw [bTier_cons_none tier src req st ent rest hmw hsrc] at h ⊢
        exact ih st h
      | some r =>
        cases hloop : (bCbLoop tier ent.routeIndex r req st ent.callbackIndexes).2.2 with
        | cont =>
          rw [bTier_cons_cont tier src req st ent rest r hmw hsrc hloop] at h ⊢
          rw [ih _ fun x hx => h x (List.mem_append.mpr (Or.inr hx))]
          exact bCbLoop_headersSent_inv tier ent.routeIndex r req _ st
            fun x hx => h x (List.mem_append.mpr (Or.inl hx))
        | brkTier =>
          rw [bTier_cons_brkTier tier src req st ent rest r hmw hsrc hloop] at h ⊢
          exact bCbLoop_headersSent_inv tier ent.routeIndex r req _ st h
        | brkHandle =>
          rw [bTier_cons_brkHandle tier src req st ent rest r hmw hsrc hloop] at h ⊢
          exact bCbLoop_headersSent_inv tier ent.routeIndex r req _ st h
        | contHandle =>
          rw [bTier_cons_contHandle tier src req st ent rest r hmw hsrc hloop] at h ⊢
          exact bCbLoop_headersSent_inv tier ent.routeIndex r req _ st h
        | rej er =>
          rw [bTier_cons_rej tier src req st ent rest r er hmw hsrc hloop] at h ⊢
          exact bCbLoop_headersSent_inv tier ent.routeIndex r req _ st h

theorem bTier_split_halt (tier : Tier) (src : List Route) (req : Req) :
    ∀ (entries : List MwEntry) (st : DState) (pre post : List Ev) (e : Ev),
      (bTier tier src req st entries).2.1 = pre ++ e :: post → haltHdrCb e.cb →
      post = [] ∧ (bTier tier src req st entries).2.2 = .brkHandle ∧
        (bTier tier src req st entries).1.headersSent = true ∧
        (∃ r, src[e.routeIdx]? = some r ∧
          (bTier tier src req st entries).1.matched = matchRoute r req) ∧
        (∃ ent ∈ entries, ent.routeIndex = e.routeIdx) ∧
        ((∀ x ∈ pre, errFreeCb x.cb) →
          (bTier tier src req st entries).1.errorThrown = st.errorThrown) := by
  intro entries
  induction entries with
  | nil =>
    intro st pre post e hsplit _
    simp [bTier] at hsplit
  | cons ent rest ih =>
    intro st pre post e hsplit hhalt
    cases hmw : st.contMw with
    | false =>
      rw [bTier_noMw tier src req st _ hmw] at hsplit
      simp at hsplit
    | true =>
      cases hsrc : src[ent.routeIndex]? with
      | none =>
        rw [bTier_cons_none tier src req st ent rest hmw hsrc] at hsplit ⊢
        obtain ⟨h1, h2, h3, h4, ⟨ent', hent', h5⟩, h6⟩ :=
          ih st pre post e hsplit hhalt
        exact ⟨h1, h2, h3, h4, ⟨ent', List.mem_cons_of_mem _ hent', h5⟩, h6⟩
      | some r =>
        cases hloop : (bCbLoop tier ent.routeIndex r req st ent.callbackIndexes).2.2 with
        | cont =>
          rw [bTier_cons_cont tier src req st ent rest r hmw hsrc hloop] at hsplit ⊢
          rcases append_cons_decomp _ _ _ _ _ hsplit with
            ⟨post₁, hin, hpost⟩ | ⟨pre₂, hpre, hin⟩
          · obtain ⟨-, hbrk, -⟩ :=
              bCbLoop_split_halt tier ent.routeIndex r req _ st pre post₁ e hin hhalt
            rw [hloop] at hbrk
            cases hbrk
          · subst hpre
            obtain ⟨h1, h2, h3, h4, ⟨ent', hent', h5⟩, h6⟩ :=
              ih _ pre₂ post e hin hhalt
            refine ⟨h1, h2, h3, h4,
              ⟨ent', List.mem_cons_of_mem _ hent', h5⟩, ?_⟩
            intro hfree
            rw [h6 fun x hx => hfree x (List.mem_append.mpr (Or.inr hx))]
            exact bCbLoop_errorThrown_inv tier ent.routeIndex r req _ st
              fun x hx => hfree x (List.mem_append.mpr (Or.inl hx))
        | brkTier =>
          rw [bTier_cons_brkTier tier src req st ent rest r hmw hsrc hloop] at hsplit
          obtain ⟨-, hbrk, -⟩ :=
            bCbLoop_split_halt tier ent.routeIndex r req _ st pre post e hsplit hhalt
          rw [hloop] at hbrk
          cases hbrk
        | brkHandle =>
          rw [bTier_cons_brkHandle tier src req st ent rest r hmw hsrc hloop]
            at hsplit ⊢
          obtain ⟨h1, h2, h3, h4, h5⟩ :=
            bCbLoop_split_halt tier ent.routeIndex r req _ st pre post e hsplit hhalt
          have hmem : e ∈ (bCbLoop tier ent.routeIndex r req st
              ent.callbackIndexes).2.1 := by
            rw [hsplit]
            exact List.mem_append.mpr (Or.inr (List.mem_cons_self _ _))
          have hidx : e.routeIdx = ent.routeIndex :=
            (bCbLoop_tags tier ent.routeIndex r req _ st e hmem).2
          refine ⟨h1, rfl, h3, ⟨r, by rw [hidx]; exact hsrc, h4⟩,
            ⟨ent, List.mem_cons_self _ _, hidx.symm⟩, h5⟩
        | contHandle =>
          rw [bTier_cons_contHandle tier src req st ent rest r hmw hsrc hloop]
            at hsplit
          obtain ⟨-, hbrk, -⟩ :=
            bCbLoop_split_halt tier ent.routeIndex r req _ st pre post e hsplit hhalt
          rw [hloop] at hbrk
          cases hbrk
        | rej er =>
          rw [bTier_cons_rej tier src req st ent rest r er hmw hsrc hloop] at hsplit
          obtain ⟨-, hbrk, -⟩ :=
            bCbLoop_split_halt tier ent.routeIndex r req _ st pre post e hsplit hhalt
          rw [hloop] at hbrk
          cases hbrk

theorem bTier_split_rej (tier : Tier) (src : List Route) (req : Req) :
    ∀ (entries : List MwEntry) (st : DState) (pre post : List Ev) (e : Ev)
      (er : ErrVal),
      (bTier tier src req st entries).2.1 = pre ++ e :: post →
      firstNextErr e.cb = some er →
      post = [] ∧ (bTier tier src req st entries).2.2 = .rej er := by
  intro entries
  induction entries with
  | nil =>
    intro st pre post e er hsplit _
    simp [bTier] at hsplit
  | cons ent rest ih =>
    intro st pre post e er hsplit hfe
    cases hmw : st.contMw with
    | false =>
      rw [bTier_noMw tier src req st _ hmw] at hsplit
      simp at hsplit
    | true =>
      cases hsrc : src[ent.routeIndex]? with
      | none =>
        rw [bTier_cons_none tier src req st ent rest hmw hsrc] at hsplit ⊢
        exact ih st pre post e er hsplit hfe
      | some r =>
        cases hloop : (bCbLoop tier ent.routeIndex r req st ent.callbackIndexes).2.2 with
        | cont =>
          rw [bTier_cons_cont tier src req st ent rest r hmw hsrc hloop] at hsplit ⊢
          rcases append_cons_decomp _ _ _ _ _ hsplit with
            ⟨post₁, hin, hpost⟩ | ⟨pre₂, hpre, hin⟩
          · obtain ⟨-, hbrk⟩ :=
              bCbLoop_split_rej tier ent.routeIndex r req _ st pre post₁ e er hin hfe
            rw [hloop] at hbrk
            cases hbrk
          · exact ih _ pre₂ post e er hin hfe
        | brkTier =>
          rw [bTier_cons_brkTier tier src req st ent rest r hmw hsrc hloop] at hsplit
          obtain ⟨-, hbrk⟩ :=
            bCbLoop_split_rej tier ent.routeIndex r req _ st pre post e er hsplit hfe
          rw [hloop] at hbrk
          cases hbrk
        | brkHandle =>
          rw [bTier_cons_brkHandle tier src req st ent rest r hmw hsrc hloop]
            at hsplit
          obtain ⟨-, hbrk⟩ :=
            bCbLoop_split_rej tier ent.routeIndex r req _ st pre post e er hsplit hfe
          rw [hloop] at hbrk
          cases hbrk
        | contHandle =>
          rw [bTier_cons_contHandle tier src req st ent rest r hmw hsrc hloop]
            at hsplit
          obtain ⟨-, hbrk⟩ :=
            bCbLoop_split_rej tier ent.routeIndex r req _ st pre post e er hsplit hfe
          rw [hloop] at hbrk
          cases hbrk
        | rej er' =>
          rw [bTier_cons_rej tier src req st ent rest r er' hmw hsrc hloop]
            at hsplit ⊢
          obtain ⟨h1, hbrk⟩ :=
            bCbLoop_split_rej tier ent.routeIndex r req _ st pre post e er hsplit hfe
          rw [hloop] at hbrk
          injection hbrk with hbrk
          subst hbrk
          exact ⟨h1, rfl⟩

end BunNode

namespace BunNode

/-! ### Terminal callback loop (`handleCallbackIterator`) lemmas -/

theorem tCbLoop_stop (ri : Nat) (r : Route) (cbs : List CbBeh) (isLastH : Bool)
    (req : Req) (st : DState) (k : Nat) (ks : List Nat) (h : st.contRh = false) :
    tCbLoop ri r cbs isLastH req st (k :: ks) = (st, [], .retM) := by
  simp [tCbLoop, h]

theorem tCbLoop_cons_none_ret (ri : Nat) (r : Route) (cbs : List CbBeh)
    (isLastH : Bool) (req : Req) (st : DState) (k : Nat) (ks : List Nat)
    (h : st.contRh = true) (hcb : cbs[k]? = none)
    (hl : (isLastH && decide (k = cbs.length - 1)) = true) :
    tCbLoop ri r cbs isLastH req st (k :: ks) = (st, [], .retM) := by
  simp [tCbLoop, h, hcb, hl]

theorem tCbLoop_cons_none_cont (ri : Nat) (r : Route) (cbs : List CbBeh)
    (isLastH : Bool) (req : Req) (st : DState) (k : Nat) (ks : List Nat)
    (h : st.contRh = true) (hcb : cbs[k]? = none)
    (hl : (isLastH && decide (k = cbs.length - 1)) = false) :
    tCbLoop ri r cbs isLastH req st (k :: ks) =
      tCbLoop ri r cbs isLastH req st ks := by
  simp [tCbLoop, h, hcb, hl]

theorem tCbLoop_cons_end (ri : Nat) (r : Route) (cbs : List CbBeh)
    (isLastH : Bool) (req : Req) (st : DState) (k : Nat) (ks : List Nat)
    (cb : CbBeh) (h : st.contRh = true) (hcb : cbs[k]? = some cb)
    (hp : (siteTerminal st cb (decide (k = cbs.length - 1))).2 = .endRouting) :
    tCbLoop ri r cbs isLastH req st (k :: ks) =
      ({ (siteTerminal st cb (decide (k = cbs.length - 1))).1 with
          contMw := false, contRh := false, matched := matchRoute r req },
        [⟨.terminal, ri, k, cb⟩], .brkHandle) := by
  simp [tCbLoop, h, hcb, hp]

theorem tCbLoop_cons_contH (ri : Nat) (r : Route) (cbs : List CbBeh)
    (isLastH : Bool) (req : Req) (st : DState) (k : Nat) (ks : List Nat)
    (cb : CbBeh) (h : st.contRh = true) (hcb : cbs[k]? = some cb)
    (hp : (siteTerminal st cb (decide (k = cbs.length - 1))).2 =
      .continueHandlers) :
    tCbLoop ri r cbs isLastH req st (k :: ks) =
      ((siteTerminal st cb (decide (k = cbs.length - 1))).1,
        [⟨.terminal, ri, k, cb⟩], .contHandle) := by
  simp [tCbLoop, h, hcb, hp]

theorem tCbLoop_cons_rej (ri : Nat) (r : Route) (cbs : List CbBeh)
    (isLastH : Bool) (req : Req) (st : DState) (k : Nat) (ks : List Nat)
    (cb : CbBeh) (er : ErrVal) (h : st.contRh = true) (hcb : cbs[k]? = some cb)
    (hp : (siteTerminal st cb (decide (k = cbs.length - 1))).2 = .rejected er) :
    tCbLoop ri r cbs isLastH req st (k :: ks) =
      ((siteTerminal st cb (decide (k = cbs.length - 1))).1,
        [⟨.terminal, ri, k, cb⟩], .rej er) := by
  simp [tCbLoop, h, hcb, hp]

theorem tCbLoop_cons_other (ri : Nat) (r : Route) (cbs : List CbBeh)
    (isLastH : Bool) (req : Req) (st : DState) (k : Nat) (ks : List Nat)
    (cb : CbBeh) (h : st.contRh = true) (hcb : cbs[k]? = some cb)
    (hp1 : (siteTerminal st cb (decide (k = cbs.length - 1))).2 ≠ .endRouting)
    (hp2 : (siteTerminal st cb (decide (k = cbs.length - 1))).2 ≠
      .continueHandlers)
    (hp3 : ∀ er, (siteTerminal st cb (decide (k = cbs.length - 1))).2 ≠
      .rejected er) :
    tCbLoop ri r cbs isLastH req st (k :: ks) =
      ((tCbLoop ri r cbs isLastH req
          (siteTerminal st cb (decide (k = cbs.length - 1))).1 ks).1,
        ⟨.terminal, ri, k, cb⟩ ::
          (tCbLoop ri r cbs isLastH req
            (siteTerminal st cb (decide (k = cbs.length - 1))).1 ks).2.1,
        (tCbLoop ri r cbs isLastH req
          (siteTerminal st cb (decide (k = cbs.length - 1))).1 ks).2.2) := by
  simp only [tCbLoop, h, if_true, hcb]

theorem tCbLoop_tags (ri : Nat) (r : Route) (cbs : List CbBeh) (isLastH : Bool)
    (req : Req) :
    ∀ (ks : List Nat) (st : DState) (x : Ev),
      x ∈ (tCbLoop ri r cbs isLastH req st ks).2.1 →
      x.tier = .terminal ∧ x.routeIdx = ri := by
  intro ks
  induction ks with
  | nil => intro st x hx; simp [tCbLoop] at hx
  | cons k ks ih =>
    intro st x hx
    cases hrh : st.contRh with
    | false =>
      rw [tCbLoop_stop ri r cbs isLastH req st k ks hrh] at hx
      simp at hx
    | true =>
      cases hcb : cbs[k]? with
      | none =>
        cases hl : (isLastH && decide (k = cbs.length - 1)) with
        | true =>
          rw [tCbLoop_cons_none_ret ri r cbs isLastH req st k ks hrh hcb hl] at hx
          simp at hx
        | false =>
          rw [tCbLoop_cons_none_cont ri r cbs isLastH req st k ks hrh hcb hl] at hx
          exact ih st x hx
      | some cb =>
        by_cases hend : (siteTerminal st cb (decide (k = cbs.length - 1))).2 =
          .endRouting
        · rw [tCbLoop_cons_end ri r cbs isLastH req st k ks cb hrh hcb hend] at hx
          simp only [List.mem_singleton] at hx
          subst hx; exact ⟨rfl, rfl⟩
        by_cases hch : (siteTerminal st cb (decide (k = cbs.length - 1))).2 =
          .continueHandlers
        · rw [tCbLoop_cons_contH ri r cbs isLastH req st k ks cb hrh hcb hch] at hx
          simp only [List.mem_singleton] at hx
          subst hx; exact ⟨rfl, rfl⟩
        by_cases hrej : ∃ er, (siteTerminal st cb (decide (k = cbs.length - 1))).2 =
          .rejected er
        · obtain ⟨er, hrej⟩ := hrej
          rw [tCbLoop_cons_rej ri r cbs isLastH req st k ks cb er hrh hcb hrej] at hx
          simp only [List.mem_singleton] at hx
          subst hx; exact ⟨rfl, rfl⟩
        · push_neg at hrej
          rw [tCbLoop_cons_other ri r cbs isLastH req st k ks cb hrh hcb
            hend hch hrej] at hx
          rcases List.mem_cons.mp hx with hx | hx
          · subst hx; exact ⟨rfl, rfl⟩
          · exact ih _ x hx

theorem tCbLoop_errorThrown_inv (ri : Nat) (r : Route) (cbs : List CbBeh)
    (isLastH : Bool) (req : Req) :
    ∀ (ks : List Nat) (st : DState),
      (∀ x ∈ (tCbLoop ri r cbs isLastH req st ks).2.1, errFreeCb x.cb) →
      (tCbLoop ri r cbs isLastH req st ks).1.errorThrown = st.errorThrown := by
  intro ks
  induction ks with
  | nil => intro st _; rfl
  | cons k ks ih =>
    intro st h
    cases hrh : st.contRh with
    | false => rw [tCbLoop_stop ri r cbs isLastH req st k ks hrh]
    | true =>
      cases hcb : cbs[k]? with
      | none =>
        cases hl : (isLastH && decide (k = cbs.length - 1)) with
        | true => rw [tCbLoop_cons_none_ret ri r cbs isLastH req st k ks hrh hcb hl]
        | false =>
          rw [tCbLoop_cons_none_cont ri r cbs isLastH req st k ks hrh hcb hl] at h ⊢
          exact ih st h
      | some cb =>
        by_cases hend : (siteTerminal st cb (decide (k = cbs.length - 1))).2 =
          .endRouting
        · rw [tCbLoop_cons_end ri r cbs isLastH req st k ks cb hrh hcb hend] at h ⊢
          exact siteTerminal_errorThrown st cb _ (h _ (List.mem_singleton.mpr rfl))
        by_cases hch : (siteTerminal st cb (decide (k = cbs.length - 1))).2 =
          .continueHandlers
        · rw [tCbLoop_cons_contH ri r cbs isLastH req st k ks cb hrh hcb hch] at h ⊢
          exact siteTerminal_errorThrown st cb _ (h _ (List.mem_singleton.mpr rfl))
        by_cases hrej : ∃ er, (siteTerminal st cb (decide (k = cbs.length - 1))).2 =
          .rejected er
        · obtain ⟨er, hrej⟩ := hrej
          rw [tCbLoop_cons_rej ri r cbs isLastH req st k ks cb er hrh hcb hrej]
            at h ⊢
          have hfree := h _ (List.mem_singleton.mpr rfl)
          obtain ⟨v, hv⟩ := siteTerminal_rej_mem st cb er _ hrej
          exact absurd hv (hfree.2 v)
        · push_neg at hrej
          rw [tCbLoop_cons_other ri r cbs isLastH req st k ks cb hrh hcb
            hend hch hrej] at h ⊢
          have hfree : errFreeCb cb := h _ (List.mem_cons_self _ _)
          rw [ih _ fun x hx => h x (List.mem_cons_of_mem _ hx)]
          exact siteTerminal_errorThrown st cb _ hfree

theorem tCbLoop_headersSent_inv (ri : Nat) (r : Route) (cbs : List CbBeh)
    (isLastH : Bool) (req : Req) :
    ∀ (ks : List Nat) (st : DState),
      (∀ x ∈ (tCbLoop ri r cbs isLastH req st ks).2.1,
        x.cb.sendsHeaders = false) →
      (tCbLoop ri r cbs isLastH req st ks).1.headersSent = st.headersSent := by
  intro ks
  induction ks with
  | nil => intro st _; rfl
  | cons k ks ih =>
    intro st h
    cases hrh : st.contRh with
    | false => rw [tCbLoop_stop ri r cbs isLastH req st k ks hrh]
    | true =>
      cases hcb : cbs[k]? with
      | none =>
        cases hl : (isLastH && decide (k = cbs.length - 1)) with
        | true => rw [tCbLoop_cons_none_ret ri r cbs isLastH req st k ks hrh hcb hl]
        | false =>
          rw [tCbLoop_cons_none_cont ri r cbs isLastH req st k ks hrh hcb hl] at h ⊢
          exact ih st h
      | some cb =>
        by_cases hend : (siteTerminal st cb (decide (k = cbs.length - 1))).2 =
          .endRouting
        · rw [tCbLoop_cons_end ri r cbs isLastH req st k ks cb hrh hcb hend] at h ⊢
          exact siteTerminal_headersSent st cb _ (h _ (List.mem_singleton.mpr rfl))
        by_cases hch : (siteTerminal st cb (decide (k = cbs.length - 1))).2 =
          .continueHandlers
        · rw [tCbLoop_cons_contH ri r cbs isLastH req st k ks cb hrh hcb hch] at h ⊢
          exact siteTerminal_headersSent st cb _ (h _ (List.mem_singleton.mpr rfl))
        by_cases hrej : ∃ er, (siteTerminal st cb (decide (k = cbs.length - 1))).2 =
          .rejected er
        · obtain ⟨er, hrej⟩ := hrej
          rw [tCbLoop_cons_rej ri r cbs isLastH req st k ks cb er hrh hcb hrej]
            at h ⊢
          exact siteTerminal_headersSent st cb _ (h _ (List.mem_singleton.mpr rfl))
        · push_neg at hrej
          rw [tCbLoop_cons_other ri r cbs isLastH req st k ks cb hrh hcb
            hend hch hrej] at h ⊢
          rw [ih _ fun x hx => h x (List.mem_cons_of_mem _ hx)]
          exact siteTerminal_headersSent st cb _ (h _ (List.mem_cons_self _ _))

theorem tCbLoop_split_halt (ri : Nat) (r : Route) (cbs : List CbBeh)
    (isLastH : Bool) (req : Req) :
    ∀ (ks : List Nat) (st : DState) (pre post : List Ev) (e : Ev),
      (tCbLoop ri r cbs isLastH req st ks).2.1 = pre ++ e :: post →
      haltHdrCb e.cb →
      post = [] ∧ (tCbLoop ri r cbs isLastH req st ks).2.2 = .brkHandle ∧
        (tCbLoop ri r cbs isLastH req st ks).1.headersSent = true ∧
        (tCbLoop ri r cbs isLastH req st ks).1.matched = matchRoute r req ∧
        ((∀ x ∈ pre, errFreeCb x.cb) →
          (tCbLoop ri r cbs isLastH req st ks).1.errorThrown = st.errorThrown) := by
  intro ks
  induction ks with
  | nil =>
    intro st pre post e hsplit _
    simp [tCbLoop] at hsplit
  | cons k ks ih =>
    intro st pre post e hsplit hhalt
    cases hrh : st.contRh with
    | false =>
      rw [tCbLoop_stop ri r cbs isLastH req st k ks hrh] at hsplit
      simp at hsplit
    | true =>
      cases hcb : cbs[k]? with
      | none =>
        cases hl : (isLastH && decide (k = cbs.length - 1)) with
        | true =>
          rw [tCbLoop_cons_none_ret ri r cbs isLastH req st k ks hrh hcb hl]
            at hsplit
          simp at hsplit
        | false =>
          rw [tCbLoop_cons_none_cont ri r cbs isLastH req st k ks hrh hcb hl]
            at hsplit ⊢
          exact ih st pre post e hsplit hhalt
      | some cb =>
        by_cases hend : (siteTerminal st cb (decide (k = cbs.length - 1))).2 =
          .endRouting
        · rw [tCbLoop_cons_end ri r cbs isLastH req st k ks cb hrh hcb hend]
            at hsplit ⊢
          obtain ⟨hpre, he, hpost⟩ := append_cons_eq_singleton _ _ _ _ hsplit.symm
          subst he
          have h1 : (siteTerminal st cb (decide (k = cbs.length - 1))).1 =
              { st with headersSent := true } :=
            congrArg Prod.fst (siteTerminal_halt st cb _ hhalt.1 hhalt.2.1 hhalt.2.2)
          refine ⟨hpost, rfl, ?_, rfl, ?_⟩
          · simp [h1]
          · intro _
            simp [h1]
        by_cases hch : (siteTerminal st cb (decide (k = cbs.length - 1))).2 =
          .continueHandlers
        · rw [tCbLoop_cons_contH ri r cbs isLastH req st k ks cb hrh hcb hch]
            at hsplit
          obtain ⟨hpre, he, hpost⟩ := append_cons_eq_singleton _ _ _ _ hsplit.symm
          subst he
          have hsite := congrArg Prod.snd
            (siteTerminal_halt st cb (decide (k = cbs.length - 1))
              hhalt.1 hhalt.2.1 hhalt.2.2)
          rw [hch] at hsite
          cases hsite
        by_cases hrej : ∃ er, (siteTerminal st cb (decide (k = cbs.length - 1))).2 =
          .rejected er
        · obtain ⟨er, hrej⟩ := hrej
          rw [tCbLoop_cons_rej ri r cbs isLastH req st k ks cb er hrh hcb hrej]
            at hsplit
          obtain ⟨hpre, he, hpost⟩ := append_cons_eq_singleton _ _ _ _ hsplit.symm
          subst he
          have hsite := congrArg Prod.snd
            (siteTerminal_halt st cb (decide (k = cbs.length - 1))
              hhalt.1 hhalt.2.1 hhalt.2.2)
          rw [hrej] at hsite
          cases hsite
        · push_neg at hrej
          rw [tCbLoop_cons_other ri r cbs isLastH req st k ks cb hrh hcb
            hend hch hrej] at hsplit ⊢
          rcases append_cons_eq_cons _ _ _ _ _ hsplit.symm with
            ⟨hpre, he, hpost⟩ | ⟨pre', hpre, hrest⟩
          · subst he
            have hs2 : (siteTerminal st cb (decide (k = cbs.length - 1))).2 =
                .endRouting := by
              rw [siteTerminal_halt st cb _ hhalt.1 hhalt.2.1 hhalt.2.2]
            exact absurd hs2 hend
          · subst hpre
            obtain ⟨hp1, hp2, hp3, hp4, hp5⟩ :=
              ih ((siteTerminal st cb (decide (k = cbs.length - 1))).1)
                pre' post e hrest.symm hhalt
            refine ⟨hp1, hp2, hp3, hp4, ?_⟩
            intro hfree
            rw [hp5 (fun x hx => hfree x (List.mem_cons_of_mem _ hx))]
            exact siteTerminal_errorThrown st cb _ (hfree _ (List.mem_cons_self _ _))

theorem tCbLoop_split_rej (ri : Nat) (r : Route) (cbs : List CbBeh)
    (isLastH : Bool) (req : Req) :
    ∀ (ks : List Nat) (st : DState) (pre post : List Ev) (e : Ev) (er : ErrVal),
      (tCbLoop ri r cbs isLastH req st ks).2.1 = pre ++ e :: post →
      firstNextErr e.cb = some er →
      post = [] ∧ (tCbLoop ri r cbs isLastH req st ks).2.2 = .rej er := by
  intro ks
  induction ks with
  | nil =>
    intro st pre post e er hsplit _
    simp [tCbLoop] at hsplit
  | cons k ks ih =>
    intro st pre post e er hsplit hfe
    cases hrh : st.contRh with
    | false =>
      rw [tCbLoop_stop ri r cbs isLastH req st k ks hrh] at hsplit
      simp at hsplit
    | true =>
      cases hcb : cbs[k]? with
      | none =>
        cases hl : (isLastH && decide (k = cbs.length - 1)) with
        | true =>
          rw [tCbLoop_cons_none_ret ri r cbs isLastH req st k ks hrh hcb hl]
            at hsplit
          simp at hsplit
        | false =>
          rw [tCbLoop_cons_none_cont ri r cbs isLastH req st k ks hrh hcb hl]
            at hsplit ⊢
          exact ih st pre post e er hsplit hfe
      | some cb =>
        by_cases hend : (siteTerminal st cb (decide (k = cbs.length - 1))).2 =
          .endRouting
        · rw [tCbLoop_cons_end ri r cbs isLastH req st k ks cb hrh hcb hend]
            at hsplit
          obtain ⟨hpre, he, hpost⟩ := append_cons_eq_singleton _ _ _ _ hsplit.symm
          subst he
          have hs2 := siteTerminal_rej st cb er (decide (k = cbs.length - 1)) hfe
          rw [hend] at hs2
          cases hs2
        by_cases hch : (siteTerminal st cb (decide (k = cbs.length - 1))).2 =
          .continueHandlers
        · rw [tCbLoop_cons_contH ri r cbs isLastH req st k ks cb hrh hcb hch]
            at hsplit
          obtain ⟨hpre, he, hpost⟩ := append_cons_eq_singleton _ _ _ _ hsplit.symm
          subst he
          have hs2 := siteTerminal_rej st cb er (decide (k = cbs.length - 1)) hfe
          rw [hch] at hs2
          cases hs2
        by_cases hrej : ∃ er', (siteTerminal st cb (decide (k = cbs.length - 1))).2 =
          .rejected er'
        · obtain ⟨er', hrej⟩ := hrej
          rw [tCbLoop_cons_rej ri r cbs isLastH req st k ks cb er' hrh hcb hrej]
            at hsplit ⊢
          obtain ⟨hpre, he, hpost⟩ := append_cons_eq_singleton _ _ _ _ hsplit.symm
          subst he
          have hs2 := siteTerminal_rej st cb er (decide (k = cbs.length - 1)) hfe
          rw [hrej] at hs2
          injection hs2 with hs2
          subst hs2
          exact ⟨hpost, rfl⟩
        · push_neg at hrej
          rw [tCbLoop_cons_other ri r cbs isLastH req st k ks cb hrh hcb
            hend hch hrej] at hsplit ⊢
          rcases append_cons_eq_cons _ _ _ _ _ hsplit.symm with
            ⟨hpre, he, hpost⟩ | ⟨pre', hpre, hrest⟩
          · subst he
            exact absurd (siteTerminal_rej st cb er (decide (k = cbs.length - 1)) hfe)
              (hrej er)
          · subst hpre
            exact ih ((siteTerminal st cb (decide (k = cbs.length - 1))).1)
              pre' post e er hrest.symm hfe

end BunNode

namespace BunNode

/-! ### Per-case equations for `handleIterator` -/

theorem handleIter_cons_thrown (routes gmws : List Route) (gE rmE : List MwEntry)
    (candCount : Nat) (req : Req) (st : DState) (j ci : Nat)
    (rest : List (Nat × Nat)) (e : ErrVal)
    (h1 : st.errorThrown = some e) :
    handleIter routes gmws gE rmE candCount req st ((j, ci) :: rest) =
      (st, [], .thrown (throwError' e)) := by
  simp [handleIter, h1]

theorem handleIter_cons_ret (routes gmws : List Route) (gE rmE : List MwEntry)
    (candCount : Nat) (req : Req) (st : DState) (j ci : Nat)
    (rest : List (Nat × Nat))
    (h1 : st.errorThrown = none) (h2 : st.contRh = false) :
    handleIter routes gmws gE rmE candCount req st ((j, ci) :: rest) =
      (st, [], .ret (retOrUndefRes st.matched)) := by
  simp [handleIter, h1, h2]

theorem handleIter_cons_noRoute (routes gmws : List Route) (gE rmE : List MwEntry)
    (candCount : Nat) (req : Req) (st : DState) (j ci : Nat)
    (rest : List (Nat × Nat))
    (h1 : st.errorThrown = none) (h2 : st.contRh = true) (h3 : routes[ci]? = none) :
    handleIter routes gmws gE rmE candCount req st ((j, ci) :: rest) =
      handleIter routes gmws gE rmE candCount req st rest := by
  simp [handleIter, h1, h2, h3]

theorem handleIter_cons_noMatch (routes gmws : List Route) (gE rmE : List MwEntry)
    (candCount : Nat) (req : Req) (st : DState) (j ci : Nat)
    (rest : List (Nat × Nat)) (r : Route)
    (h1 : st.errorThrown = none) (h2 : st.contRh = true)
    (h3 : routes[ci]? = some r) (h4 : matchRoute r req = none) :
    handleIter routes gmws gE rmE candCount req st ((j, ci) :: rest) =
      handleIter routes gmws gE rmE candCount req st rest := by
  simp [handleIter, h1, h2, h3, h4]

theorem handleIter_cons_gBrk (routes gmws : List Route) (gE rmE : List MwEntry)
    (candCount : Nat) (req : Req) (st : DState) (j ci : Nat)
    (rest : List (Nat × Nat)) (r : Route) (m : MatchResult)
    (h1 : st.errorThrown = none) (h2 : st.contRh = true)
    (h3 : routes[ci]? = some r) (h4 : matchRoute r req = some m)
    (h5 : (bTier .globalMw gmws req { st with matched := some m } gE).2.2 = .brkHandle) :
    handleIter routes gmws gE rmE candCount req st ((j, ci) :: rest) =
      ((bTier .globalMw gmws req { st with matched := some m } gE).1, (bTier .globalMw gmws req { st with matched := some m } gE).2.1, .finished) := by
  simp only [h1, h2] at h5 ⊢
  simp [handleIter, h1, h2, h3, h4, h5]

theorem handleIter_cons_gCont (routes gmws : List Route) (gE rmE : List MwEntry)
    (candCount : Nat) (req : Req) (st : DState) (j ci : Nat)
    (rest : List (Nat × Nat)) (r : Route) (m : MatchResult)
    (h1 : st.errorThrown = none) (h2 : st.contRh = true)
    (h3 : routes[ci]? = some r) (h4 : matchRoute r req = some m)
    (h5 : (bTier .globalMw gmws req { st with matched := some m } gE).2.2 = .contHandle) :
    handleIter routes gmws gE rmE candCount req st ((j, ci) :: rest) =
      ((handleIter routes gmws gE rmE candCount req (bTier .globalMw gmws req { st with matched := some m } gE).1 rest).1, (bTier .globalMw gmws req { st with matched := some m } gE).2.1 ++ (handleIter routes gmws gE rmE candCount req (bTier .globalMw gmws req { st with matched := some m } gE).1 rest).2.1, (handleIter routes gmws gE rmE candCount req (bTier .globalMw gmws req { st with matched := some m } gE).1 rest).2.2) := by
  simp only [h1, h2] at h5 ⊢
  simp [handleIter, h1, h2, h3, h4, h5]

theorem handleIter_cons_gRej (routes gmws : List Route) (gE rmE : List MwEntry)
    (candCount : Nat) (req : Req) (st : DState) (j ci : Nat)
    (rest : List (Nat × Nat)) (r : Route) (m : MatchResult) (er : ErrVal)
    (h1 : st.errorThrown = none) (h2 : st.contRh = true)
    (h3 : routes[ci]? = some r) (h4 : matchRoute r req = some m)
    (h5 : (bTier .globalMw gmws req { st with matched := some m } gE).2.2 = .rej er) :
    handleIter routes gmws gE rmE candCount req st ((j, ci) :: rest) =
      ((bTier .globalMw gmws req { st with matched := some m } gE).1, (bTier .globalMw gmws req { st with matched := some m } gE).2.1, .thrown (.raw er)) := by
  simp only [h1, h2] at h5 ⊢
  simp [handleIter, h1, h2, h3, h4, h5]

theorem handleIter_cons_rBrk (routes gmws : List Route) (gE rmE : List MwEntry)
    (candCount : Nat) (req : Req) (st : DState) (j ci : Nat)
    (rest : List (Nat × Nat)) (r : Route) (m : MatchResult)
    (h1 : st.errorThrown = none) (h2 : st.contRh = true)
    (h3 : routes[ci]? = some r) (h4 : matchRoute r req = some m)
    (h5 : (bTier .globalMw gmws req { st with matched := some m } gE).2.2 = .done)
    (h6 : (bTier .pathMw routes req (bTier .globalMw gmws req { st with matched := some m } gE).1 rmE).2.2 = .brkHandle) :
    handleIter routes gmws gE rmE candCount req st ((j, ci) :: rest) =
      ((bTier .pathMw routes req (bTier .globalMw gmws req { st with matched := some m } gE).1 rmE).1, (bTier .globalMw gmws req { st with matched := some m } gE).2.1 ++ (bTier .pathMw routes req (bTier .globalMw gmws req { st with matched := some m } gE).1 rmE).2.1, .finished) := by
  simp only [h1, h2] at h5 h6 ⊢
  simp [handleIter, h1, h2, h3, h4, h5, h6]

theorem handleIter_cons_rCont (routes gmws : List Route) (gE rmE : List MwEntry)
    (candCount : Nat) (req : Req) (st : DState) (j ci : Nat)
    (rest : List (Nat × Nat)) (r : Route) (m : MatchResult)
    (h1 : st.errorThrown = none) (h2 : st.contRh = true)
    (h3 : routes[ci]? = some r) (h4 : matchRoute r req = some m)
    (h5 : (bTier .globalMw gmws req { st with matched := some m } gE).2.2 = .done)
    (h6 : (bTier .pathMw routes req (bTier .globalMw gmws req { st with matched := some m } gE).1 rmE).2.2 = .contHandle) :
    handleIter routes gmws gE rmE candCount req st ((j, ci) :: rest) =
      ((handleIter routes gmws gE rmE candCount req (bTier .pathMw routes req (bTier .globalMw gmws req { st with matched := some m } gE).1 rmE).1 rest).1, (bTier .globalMw gmws req { st with matched := some m } gE).2.1 ++ ((bTier .pathMw routes req (bTier .globalMw gmws req { st with matched := some m } gE).1 rmE).2.1 ++ (handleIter routes gmws gE rmE candCount req (bTier .pathMw routes req (bTier .globalMw gmws req { st with matched := some m } gE).1 rmE).1 rest).2.1), (handleIter routes gmws gE rmE candCount req (bTier .pathMw routes req (bTier .globalMw gmws req { st with matched := some m } gE).1 rmE).1 rest).2.2) := by
  simp only [h1, h2] at h5 h6 ⊢
  simp [handleIter, h1, h2, h3, h4, h5, h6]

theorem handleIter_cons_rRej (routes gmws : List Route) (gE rmE : List MwEntry)
    (candCount : Nat) (req : Req) (st : DState) (j ci : Nat)
    (rest : List (Nat × Nat)) (r : Route) (m : MatchResult) (er : ErrVal)
    (h1 : st.errorThrown = none) (h2 : st.contRh = true)
    (h3 : routes[ci]? = some r) (h4 : matchRoute r req = some m)
    (h5 : (bTier .globalMw gmws req { st with matched := some m } gE).2.2 = .done)
    (h6 : (bTier .pathMw routes req (bTier .globalMw gmws req { st with matched := some m } gE).1 rmE).2.2 = .rej er) :
    handleIter routes gmws gE rmE candCount req st ((j, ci) :: rest) =
      ((bTier .pathMw routes req (bTier .globalMw gmws req { st with matched := some m } gE).1 rmE).1, (bTier .globalMw gmws req { st with matched := some m } gE).2.1 ++ (bTier .pathMw routes req (bTier .globalMw gmws req { st with matched := some m } gE).1 rmE).2.1, .thrown (.raw er)) := by
  simp only [h1, h2] at h5 h6 ⊢
  simp [handleIter, h1, h2, h3, h4, h5, h6]

theorem handleIter_cons_hdr (routes gmws : List Route) (gE rmE : List MwEntry)
    (candCount : Nat) (req : Req) (st : DState) (j ci : Nat)
    (rest : List (Nat × Nat)) (r : Route) (m : MatchResult)
    (h1 : st.errorThrown = none) (h2 : st.contRh = true)
    (h3 : routes[ci]? = some r) (h4 : matchRoute r req = some m)
    (h5 : (bTier .globalMw gmws req { st with matched := some m } gE).2.2 = .done)
    (h6 : (bTier .pathMw routes req (bTier .globalMw gmws req { st with matched := some m } gE).1 rmE).2.2 = .done)
    (h7 : (bTier .pathMw routes req (bTier .globalMw gmws req { st with matched := some m } gE).1 rmE).1.headersSent = true) :
    handleIter routes gmws gE rmE candCount req st ((j, ci) :: rest) =
      ((bTier .pathMw routes req (bTier .globalMw gmws req { st with matched := some m } gE).1 rmE).1, (bTier .globalMw gmws req { st with matched := some m } gE).2.1 ++ (bTier .pathMw routes req (bTier .globalMw gmws req { st with matched := some m } gE).1 rmE).2.1, .ret (retOrTrue (bTier .pathMw routes req (bTier .globalMw gmws req { st with matched := some m } gE).1 rmE).1.matched)) := by
  simp only [h1, h2] at h5 h6 h7 ⊢
  simp [handleIter, h1, h2, h3, h4, h5, h6, h7]

theorem handleIter_cons_tFin (routes gmws : List Route) (gE rmE : List MwEntry)
    (candCount : Nat) (req : Req) (st : DState) (j ci : Nat)
    (rest : List (Nat × Nat)) (r : Route) (m : MatchResult)
    (h1 : st.errorThrown = none) (h2 : st.contRh = true)
    (h3 : routes[ci]? = some r) (h4 : matchRoute r req = some m)
    (h5 : (bTier .globalMw gmws req { st with matched := some m } gE).2.2 = .done)
    (h6 : (bTier .pathMw routes req (bTier .globalMw gmws req { st with matched := some m } gE).1 rmE).2.2 = .done)
    (h7 : (bTier .pathMw routes req (bTier .globalMw gmws req { st with matched := some m } gE).1 rmE).1.headersSent = false)
    (h8 : (tCbLoop ci r m.callbacks (decide (j = candCount - 1)) req (bTier .pathMw routes req (bTier .globalMw gmws req { st with matched := some m } gE).1 rmE).1 (List.range m.callbacks.length)).2.2 = .finished) :
    handleIter routes gmws gE rmE candCount req st ((j, ci) :: rest) =
      ((handleIter routes gmws gE rmE candCount req (tCbLoop ci r m.callbacks (decide (j = candCount - 1)) req (bTier .pathMw routes req (bTier .globalMw gmws req { st with matched := some m } gE).1 rmE).1 (List.range m.callbacks.length)).1 rest).1, (bTier .globalMw gmws req { st with matched := some m } gE).2.1 ++ ((bTier .pathMw routes req (bTier .globalMw gmws req { st with matched := some m } gE).1 rmE).2.1 ++ ((tCbLoop ci r m.callbacks (decide (j = candCount - 1)) req (bTier .pathMw routes req (bTier .globalMw gmws req { st with matched := some m } gE).1 rmE).1 (List.range m.callbacks.length)).2.1 ++ (handleIter routes gmws gE rmE candCount req (tCbLoop ci r m.callbacks (decide (j = candCount - 1)) req (bTier .pathMw routes req (bTier .globalMw gmws req { st with matched := some m } gE).1 rmE).1 (List.range m.callbacks.length)).1 rest).2.1)), (handleIter routes gmws gE rmE candCount req (tCbLoop ci r m.callbacks (decide (j = candCount - 1)) req (bTier .pathMw routes req (bTier .globalMw gmws req { st with matched := some m } gE).1 rmE).1 (List.range m.callbacks.length)).1 rest).2.2) := by
  simp only [h1, h2] at h5 h6 h7 h8 ⊢
  simp [handleIter, h1, h2, h3, h4, h5, h6, h7, h8]

theorem handleIter_cons_tRet (routes gmws : List Route) (gE rmE : List MwEntry)
    (candCount : Nat) (req : Req) (st : DState) (j ci : Nat)
    (rest : List (Nat × Nat)) (r : Route) (m : MatchResult)
    (h1 : st.errorThrown = none) (h2 : st.contRh = true)
    (h3 : routes[ci]? = some r) (h4 : matchRoute r req = some m)
    (h5 : (bTier .globalMw gmws req { st with matched := some m } gE).2.2 = .done)
    (h6 : (bTier .pathMw routes req (bTier .globalMw gmws req { st with matched := some m } gE).1 rmE).2.2 = .done)
    (h7 : (bTier .pathMw routes req (bTier .globalMw gmws req { st with matched := some m } gE).1 rmE).1.headersSent = false)
    (h8 : (tCbLoop ci r m.callbacks (decide (j = candCount - 1)) req (bTier .pathMw routes req (bTier .globalMw gmws req { st with matched := some m } gE).1 rmE).1 (List.range m.callbacks.length)).2.2 = .retM) :
    handleIter routes gmws gE rmE candCount req st ((j, ci) :: rest) =
      ((tCbLoop ci r m.callbacks (decide (j = candCount - 1)) req (bTier .pathMw routes req (bTier .globalMw gmws req { st with matched := some m } gE).1 rmE).1 (List.range m.callbacks.length)).1, (bTier .globalMw gmws req { st with matched := some m } gE).2.1 ++ ((bTier .pathMw routes req (bTier .globalMw gmws req { st with matched := some m } gE).1 rmE).2.1 ++ (tCbLoop ci r m.callbacks (decide (j = candCount - 1)) req (bTier .pathMw routes req (bTier .globalMw gmws req { st with matched := some m } gE).1 rmE).1 (List.range m.callbacks.length)).2.1), .ret (retOrUndefRes (tCbLoop ci r m.callbacks (decide (j = candCount - 1)) req (bTier .pathMw routes req (bTier .globalMw gmws req { st with matched := some m } gE).1 rmE).1 (List.range m.callbacks.length)).1.matched)) := by
  simp only [h1, h2] at h5 h6 h7 h8 ⊢
  simp [handleIter, h1, h2, h3, h4, h5, h6, h7, h8]

theorem handleIter_cons_tBrk (routes gmws : List Route) (gE rmE : List MwEntry)
    (candCount : Nat) (req : Req) (st : DState) (j ci : Nat)
    (rest : List (Nat × Nat)) (r : Route) (m : MatchResult)
    (h1 : st.errorThrown = none) (h2 : st.contRh = true)
    (h3 : routes[ci]? = some r) (h4 : matchRoute r req = some m)
    (h5 : (bTier .globalMw gmws req { st with matched := some m } gE).2.2 = .done)
    (h6 : (bTier .pathMw routes req (bTier .globalMw gmws req { st with matched := some m } gE).1 rmE).2.2 = .done)
    (h7 : (bTier .pathMw routes req (bTier .globalMw gmws req { st with matched := some m } gE).1 rmE).1.headersSent = false)
    (h8 : (tCbLoop ci r m.callbacks (decide (j = candCount - 1)) req (bTier .pathMw routes req (bTier .globalMw gmws req { st with matched := some m } gE).1 rmE).1 (List.range m.callbacks.length)).2.2 = .brkHandle) :
    handleIter routes gmws gE rmE candCount req st ((j, ci) :: rest) =
      ((tCbLoop ci r m.callbacks (decide (j = candCount - 1)) req (bTier .pathMw routes req (bTier .globalMw gmws req { st with matched := some m } gE).1 rmE).1 (List.range m.callbacks.length)).1, (bTier .globalMw gmws req { st with matched := some m } gE).2.1 ++ ((bTier .pathMw routes req (bTier .globalMw gmws req { st with matched := some m } gE).1 rmE).2.1 ++ (tCbLoop ci r m.callbacks (decide (j = candCount - 1)) req (bTier .pathMw routes req (bTier .globalMw gmws req { st with matched := some m } gE).1 rmE).1 (List.range m.callbacks.length)).2.1), .finished) := by
  simp only [h1, h2] at h5 h6 h7 h8 ⊢
  simp [handleIter, h1, h2, h3, h4, h5, h6, h7, h8]

theorem handleIter_cons_tCont (routes gmws : List Route) (gE rmE : List MwEntry)
    (candCount : Nat) (req : Req) (st : DState) (j ci : Nat)
    (rest : List (Nat × Nat)) (r : Route) (m : MatchResult)
    (h1 : st.errorThrown = none) (h2 : st.contRh = true)
    (h3 : routes[ci]? = some r) (h4 : matchRoute r req = some m)
    (h5 : (bTier .globalMw gmws req { st with matched := some m } gE).2.2 = .done)
    (h6 : (bTier .pathMw routes req (bTier .globalMw gmws req { st with matched := some m } gE).1 rmE).2.2 = .done)
    (h7 : (bTier .pathMw routes req (bTier .globalMw gmws req { st with matched := some m } gE).1 rmE).1.headersSent = false)
    (h8 : (tCbLoop ci r m.callbacks (decide (j = candCount - 1)) req (bTier .pathMw routes req (bTier .globalMw gmws req { st with matched := some m } gE).1 rmE).1 (List.range m.callbacks.length)).2.2 = .contHandle) :
    handleIter routes gmws gE rmE candCount req st ((j, ci) :: rest) =
      ((handleIter routes gmws gE rmE candCount req (tCbLoop ci r m.callbacks (decide (j = candCount - 1)) req (bTier .pathMw routes req (bTier .globalMw gmws req { st with matched := some m } gE).1 rmE).1 (List.range m.callbacks.length)).1 rest).1, (bTier .globalMw gmws req { st with matched := some m } gE).2.1 ++ ((bTier .pathMw routes req (bTier .globalMw gmws req { st with matched := some m } gE).1 rmE).2.1 ++ ((tCbLoop ci r m.callbacks (decide (j = candCount - 1)) req (bTier .pathMw routes req (bTier .globalMw gmws req { st with matched := some m } gE).1 rmE).1 (List.range m.callbacks.length)).2.1 ++ (handleIter routes gmws gE rmE candCount req (tCbLoop ci r m.callbacks (decide (j = candCount - 1)) req (bTier .pathMw routes req (bTier .globalMw gmws req { st with matched := some m } gE).1 rmE).1 (List.range m.callbacks.length)).1 rest).2.1)), (handleIter routes gmws gE rmE candCount req (tCbLoop ci r m.callbacks (decide (j = candCount - 1)) req (bTier .pathMw routes req (bTier .globalMw gmws req { st with matched := some m } gE).1 rmE).1 (List.range m.callbacks.length)).1 rest).2.2) := by
  simp only [h1, h2] at h5 h6 h7 h8 ⊢
  simp [handleIter, h1, h2, h3, h4, h5, h6, h7, h8]

theorem handleIter_cons_tRej (routes gmws : List Route) (gE rmE : List MwEntry)
    (candCount : Nat) (req : Req) (st : DState) (j ci : Nat)
    (rest : List (Nat × Nat)) (r : Route) (m : MatchResult) (er : ErrVal)
    (h1 : st.errorThrown = none) (h2 : st.contRh = true)
    (h3 : routes[ci]? = some r) (h4 : matchRoute r req = some m)
    (h5 : (bTier .globalMw gmws req { st with matched := some m } gE).2.2 = .done)
    (h6 : (bTier .pathMw routes req (bTier .globalMw gmws req { st with matched := some m } gE).1 rmE).2.2 = .done)
    (h7 : (bTier .pathMw routes req (bTier .globalMw gmws req { st with matched := some m } gE).1 rmE).1.headersSent = false)
    (h8 : (tCbLoop ci r m.callbacks (decide (j = candCount - 1)) req (bTier .pathMw routes req (bTier .globalMw gmws req { st with matched := some m } gE).1 rmE).1 (List.range m.callbacks.length)).2.2 = .rej er) :
    handleIter routes gmws gE rmE candCount req st ((j, ci) :: rest) =
      ((tCbLoop ci r m.callbacks (decide (j = candCount - 1)) req (bTier .pathMw routes req (bTier .globalMw gmws req { st with matched := some m } gE).1 rmE).1 (List.range m.callbacks.length)).1, (bTier .globalMw gmws req { st with matched := some m } gE).2.1 ++ ((bTier .pathMw routes req (bTier .globalMw gmws req { st with matched := some m } gE).1 rmE).2.1 ++ (tCbLoop ci r m.callbacks (decide (j = candCount - 1)) req (bTier .pathMw routes req (bTier .globalMw gmws req { st with matched := some m } gE).1 rmE).1 (List.range m.callbacks.length)).2.1), .thrown (.raw er)) := by
  simp only [h1, h2] at h5 h6 h7 h8 ⊢
  simp [handleIter, h1, h2, h3, h4, h5, h6, h7, h8]

end BunNode

namespace BunNode

/-! ### Positional lemmas for `handleIterator` -/

theorem handleIter_split_rej (routes gmws : List Route) (gE rmE : List MwEntry)
    (candCount : Nat) (req : Req) :
    ∀ (l : List (Nat × Nat)) (st : DState) (pre post : List Ev) (e : Ev)
      (er : ErrVal),
      (handleIter routes gmws gE rmE candCount req st l).2.1 = pre ++ e :: post →
      firstNextErr e.cb = some er →
      post = [] ∧ (handleIter routes gmws gE rmE candCount req st l).2.2 =
        .thrown (.raw er) := by
  intro l
  induction l with
  | nil =>
    intro st pre post e er hsplit _
    simp [handleIter] at hsplit
  | cons p rest ih =>
    obtain ⟨j, ci⟩ := p
    intro st pre post e er hsplit hfe
    cases hE : st.errorThrown with
    | some t =>
      rw [handleIter_cons_thrown routes gmws gE rmE candCount req st j ci rest t hE]
        at hsplit
      simp at hsplit
    | none =>
      cases hRh : st.contRh with
      | false =>
        rw [handleIter_cons_ret routes gmws gE rmE candCount req st j ci rest hE hRh]
          at hsplit
        simp at hsplit
      | true =>
        cases hr : routes[ci]? with
        | none =>
          rw [handleIter_cons_noRoute routes gmws gE rmE candCount req st j ci rest
            hE hRh hr] at hsplit ⊢
          exact ih st pre post e er hsplit hfe
        | some r =>
          cases hm : matchRoute r req with
          | none =>
            rw [handleIter_cons_noMatch routes gmws gE rmE candCount req st j ci rest
              r hE hRh hr hm] at hsplit ⊢
            exact ih st pre post e er hsplit hfe
          | some m =>
            cases hG : (bTier .globalMw gmws req { st with matched := some m }
                gE).2.2 with
            | brkHandle =>
              rw [handleIter_cons_gBrk routes gmws gE rmE candCount req st j ci rest
                r m hE hRh hr hm hG] at hsplit
              obtain ⟨-, hout⟩ :=
                bTier_split_rej .globalMw gmws req gE _ pre post e er hsplit hfe
              rw [hG] at hout
              cases hout
            | contHandle =>
              rw [handleIter_cons_gCont routes gmws gE rmE candCount req st j ci rest
                r m hE hRh hr hm hG] at hsplit ⊢
              rcases append_cons_decomp _ _ _ _ _ hsplit with
                ⟨post₁, hin, -⟩ | ⟨pre₂, -, hin⟩
              · obtain ⟨-, hout⟩ :=
                  bTier_split_rej .globalMw gmws req gE _ pre post₁ e er hin hfe
                rw [hG] at hout
                cases hout
              · exact ih _ pre₂ post e er hin hfe
            | rej er' =>
              rw [handleIter_cons_gRej routes gmws gE rmE candCount req st j ci rest
                r m er' hE hRh hr hm hG] at hsplit ⊢
              obtain ⟨h1, hout⟩ :=
                bTier_split_rej .globalMw gmws req gE _ pre post e er hsplit hfe
              rw [hG] at hout
              injection hout with hout
              subst hout
              exact ⟨h1, rfl⟩
            | done =>
              cases hR2 : (bTier .pathMw routes req
                  (bTier .globalMw gmws req { st with matched := some m } gE).1
                  rmE).2.2 with
              | brkHandle =>
                rw [handleIter_cons_rBrk routes gmws gE rmE candCount req st j ci
                  rest r m hE hRh hr hm hG hR2] at hsplit
                rcases append_cons_decomp _ _ _ _ _ hsplit with
                  ⟨post₁, hin, -⟩ | ⟨pre₂, -, hin⟩
                · obtain ⟨-, hout⟩ :=
                    bTier_split_rej .globalMw gmws req gE _ pre post₁ e er hin hfe
                  rw [hG] at hout
                  cases hout
                · obtain ⟨-, hout⟩ :=
                    bTier_split_rej .pathMw routes req rmE _ pre₂ post e er hin hfe
                  rw [hR2] at hout
                  cases hout
              | contHandle =>
                rw [handleIter_cons_rCont routes gmws gE rmE candCount req st j ci
                  rest r m hE hRh hr hm hG hR2] at hsplit ⊢
                rcases append_cons_decomp _ _ _ _ _ hsplit with
                  ⟨post₁, hin, -⟩ | ⟨pre₂, -, hin⟩
                · obtain ⟨-, hout⟩ :=
                    bTier_split_rej .globalMw gmws req gE _ pre post₁ e er hin hfe
                  rw [hG] at hout
                  cases hout
                · rcases append_cons_decomp _ _ _ _ _ hin with
                    ⟨post₂, hin2, -⟩ | ⟨pre₃, -, hin2⟩
                  · obtain ⟨-, hout⟩ :=
                      bTier_split_rej .pathMw routes req rmE _ pre₂ post₂ e er
                        hin2 hfe
                    rw [hR2] at hout
                    cases hout
                  · exact ih _ pre₃ post e er hin2 hfe
              | rej er' =>
                rw [handleIter_cons_rRej routes gmws gE rmE candCount req st j ci
                  rest r m er' hE hRh hr hm hG hR2] at hsplit ⊢
                rcases append_cons_decomp _ _ _ _ _ hsplit with
                  ⟨post₁, hin, -⟩ | ⟨pre₂, -, hin⟩
                · obtain ⟨-, hout⟩ :=
                    bTier_split_rej .globalMw gmws req gE _ pre post₁ e er hin hfe
                  rw [hG] at hout
                  cases hout
                · obtain ⟨h1, hout⟩ :=
                    bTier_split_rej .pathMw routes req rmE _ pre₂ post e er hin hfe
                  rw [hR2] at hout
                  injection hout with hout
                  subst hout
                  exact ⟨h1, rfl⟩
              | done =>
                cases hH : (bTier .pathMw routes req
                    (bTier .globalMw gmws req { st with matched := some m } gE).1
                    rmE).1.headersSent with
                | true =>
                  rw [handleIter_cons_hdr routes gmws gE rmE candCount req st j ci
                    rest r m hE hRh hr hm hG hR2 hH] at hsplit
                  rcases append_cons_decomp _ _ _ _ _ hsplit with
                    ⟨post₁, hin, -⟩ | ⟨pre₂, -, hin⟩
                  · obtain ⟨-, hout⟩ :=
                      bTier_split_rej .globalMw gmws req gE _ pre post₁ e er hin hfe
                    rw [hG] at hout
                    cases hout
                  · obtain ⟨-, hout⟩ :=
                      bTier_split_rej .pathMw routes req rmE _ pre₂ post e er hin hfe
                    rw [hR2] at hout
                    cases hout
                | false =>
                  cases hT : (tCbLoop ci r m.callbacks (decide (j = candCount - 1))
                      req (bTier .pathMw routes req
                        (bTier .globalMw gmws req { st with matched := some m }
                          gE).1 rmE).1
                      (List.range m.callbacks.length)).2.2 with
                  | finished =>
                    rw [handleIter_cons_tFin routes gmws gE rmE candCount req st j ci
                      rest r m hE hRh hr hm hG hR2 hH hT] at hsplit ⊢
                    rcases append_cons_decomp _ _ _ _ _ hsplit with
                      ⟨post₁, hin, -⟩ | ⟨pre₂, -, hin⟩
                    · obtain ⟨-, hout⟩ :=
                        bTier_split_rej .globalMw gmws req gE _ pre post₁ e er
                          hin hfe
                      rw [hG] at hout
                      cases hout
                    · rcases append_cons_decomp _ _ _ _ _ hin with
                        ⟨post₂, hin2, -⟩ | ⟨pre₃, -, hin2⟩
                      · obtain ⟨-, hout⟩ :=
                          bTier_split_rej .pathMw routes req rmE _ pre₂ post₂ e er
                            hin2 hfe
                        rw [hR2] at hout
                        cases hout
                      · rcases append_cons_decomp _ _ _ _ _ hin2 with
                          ⟨post₃, hin3, -⟩ | ⟨pre₄, -, hin3⟩
                        · obtain ⟨-, hout⟩ :=
                            tCbLoop_split_rej ci r m.callbacks _ req _ _ pre₃ post₃
                              e er hin3 hfe
                          rw [hT] at hout
                          cases hout
                        · exact ih _ pre₄ post e er hin3 hfe
                  | retM =>
                    rw [handleIter_cons_tRet routes gmws gE rmE candCount req st j ci
                      rest r m hE hRh hr hm hG hR2 hH hT] at hsplit
                    rcases append_cons_decomp _ _ _ _ _ hsplit with
                      ⟨post₁, hin, -⟩ | ⟨pre₂, -, hin⟩
                    · obtain ⟨-, hout⟩ :=
                        bTier_split_rej .globalMw gmws req gE _ pre post₁ e er
                          hin hfe
                      rw [hG] at hout
                      cases hout
                    · rcases append_cons_decomp _ _ _ _ _ hin with
                        ⟨post₂, hin2, -⟩ | ⟨pre₃, -, hin2⟩
                      · obtain ⟨-, hout⟩ :=
                          bTier_split_rej .pathMw routes req rmE _ pre₂ post₂ e er
                            hin2 hfe
                        rw [hR2] at hout
                        cases hout
                      · obtain ⟨-, hout⟩ :=
                          tCbLoop_split_rej ci r m.callbacks _ req _ _ pre₃ post
                            e er hin2 hfe
                        rw [hT] at hout
                        cases hout
                  | brkHandle =>
                    rw [handleIter_cons_tBrk routes gmws gE rmE candCount req st j ci
                      rest r m hE hRh hr hm hG hR2 hH hT] at hsplit
                    rcases append_cons_decomp _ _ _ _ _ hsplit with
                      ⟨post₁, hin, -⟩ | ⟨pre₂, -, hin⟩
                    · obtain ⟨-, hout⟩ :=
                        bTier_split_rej .globalMw gmws req gE _ pre post₁ e er
                          hin hfe
                      rw [hG] at hout
                      cases hout
                    · rcases append_cons_decomp _ _ _ _ _ hin with
                        ⟨post₂, hin2, -⟩ | ⟨pre₃, -, hin2⟩
                      · obtain ⟨-, hout⟩ :=
                          bTier_split_rej .pathMw routes req rmE _ pre₂ post₂ e er
                            hin2 hfe
                        rw [hR2] at hout
                        cases hout
                      · obtain ⟨-, hout⟩ :=
                          tCbLoop_split_rej ci r m.callbacks _ req _ _ pre₃ post
                            e er hin2 hfe
                        rw [hT] at hout
                        cases hout
                  | contHandle =>
                    rw [handleIter_cons_tCont routes gmws gE rmE candCount req st j
                      ci rest r m hE hRh hr hm hG hR2 hH hT] at hsplit ⊢
                    rcases append_cons_decomp _ _ _ _ _ hsplit with
                      ⟨post₁, hin, -⟩ | ⟨pre₂, -, hin⟩
                    · obtain ⟨-, hout⟩ :=
                        bTier_split_rej .globalMw gmws req gE _ pre post₁ e er
                          hin hfe
                      rw [hG] at hout
                      cases hout
                    · rcases append_cons_decomp _ _ _ _ _ hin with
                        ⟨post₂, hin2, -⟩ | ⟨pre₃, -, hin2⟩
                      · obtain ⟨-, hout⟩ :=
                          bTier_split_rej .pathMw routes req rmE _ pre₂ post₂ e er
                            hin2 hfe
                        rw [hR2] at hout
                        cases hout
                      · rcases append_cons_decomp _ _ _ _ _ hin2 with
                          ⟨post₃, hin3, -⟩ | ⟨pre₄, -, hin3⟩
                        · obtain ⟨-, hout⟩ :=
                            tCbLoop_split_rej ci r m.callbacks _ req _ _ pre₃ post₃
                              e er hin3 hfe
                          rw [hT] at hout
                          cases hout
                        · exact ih _ pre₄ post e er hin3 hfe
                  | rej er' =>
                    rw [handleIter_cons_tRej routes gmws gE rmE candCount req st j ci
                      rest r m er' hE hRh hr hm hG hR2 hH hT] at hsplit ⊢
                    rcases append_cons_decomp _ _ _ _ _ hsplit with
                      ⟨post₁, hin, -⟩ | ⟨pre₂, -, hin⟩
                    · obtain ⟨-, hout⟩ :=
                        bTier_split_rej .globalMw gmws req gE _ pre post₁ e er
                          hin hfe
                      rw [hG] at hout
                      cases hout
                    · rcases append_cons_decomp _ _ _ _ _ hin with
                        ⟨post₂, hin2, -⟩ | ⟨pre₃, -, hin2⟩
                      · obtain ⟨-, hout⟩ :=
                          bTier_split_rej .pathMw routes req rmE _ pre₂ post₂ e er
                            hin2 hfe
                        rw [hR2] at hout
                        cases hout
                      · obtain ⟨h1, hout⟩ :=
                          tCbLoop_split_rej ci r m.callbacks _ req _ _ pre₃ post
                            e er hin2 hfe
                        rw [hT] at hout
                        injection hout with hout
                        subst hout
                        exact ⟨h1, rfl⟩

end BunNode

namespace BunNode

theorem handleIter_split_halt (routes gmws : List Route) (gE rmE : List MwEntry)
    (candCount : Nat) (req : Req)
    (hgE : ∀ ent ∈ gE, ∃ r m, gmws[ent.routeIndex]? = some r ∧
      matchRoute r req = some m)
    (hrmE : ∀ ent ∈ rmE, ∃ r m, routes[ent.routeIndex]? = some r ∧
      matchRoute r req = some m) :
    ∀ (l : List (Nat × Nat)) (st : DState) (pre post : List Ev) (e : Ev),
      (handleIter routes gmws gE rmE candCount req st l).2.1 = pre ++ e :: post →
      haltHdrCb e.cb → st.errorThrown = none → st.headersSent = false →
      (∀ x ∈ pre, errFreeCb x.cb ∧ x.cb.sendsHeaders = false) →
      post = [] ∧
        (handleIter routes gmws gE rmE candCount req st l).2.2 = .finished ∧
        (handleIter routes gmws gE rmE candCount req st l).1.headersSent = true ∧
        ∃ mm, (handleIter routes gmws gE rmE candCount req st l).1.matched =
          some mm := by
  intro l
  induction l with
  | nil =>
    intro st pre post e hsplit _ _ _ _
    simp [handleIter] at hsplit
  | cons p rest ih =>
    obtain ⟨j, ci⟩ := p
    intro st pre post e hsplit hhalt hstE hstH hpre
    cases hRh : st.contRh with
    | false =>
      rw [handleIter_cons_ret routes gmws gE rmE candCount req st j ci rest
        hstE hRh] at hsplit
      simp at hsplit
    | true =>
      cases hr : routes[ci]? with
      | none =>
        rw [handleIter_cons_noRoute routes gmws gE rmE candCount req st j ci rest
          hstE hRh hr] at hsplit ⊢
        exact ih st pre post e hsplit hhalt hstE hstH hpre
      | some r =>
        cases hm : matchRoute r req with
        | none =>
          rw [handleIter_cons_noMatch routes gmws gE rmE candCount req st j ci rest
            r hstE hRh hr hm] at hsplit ⊢
          exact ih st pre post e hsplit hhalt hstE hstH hpre
        | some m =>
          cases hG : (bTier .globalMw gmws req { st with matched := some m } gE).2.2 with
          | brkHandle =>
            rw [handleIter_cons_gBrk routes gmws gE rmE candCount req st j ci rest
              r m hstE hRh hr hm hG] at hsplit ⊢
            obtain ⟨h1, -, h3, ⟨r', hr', hmt⟩, ⟨ent, hent, hidx⟩, -⟩ :=
              bTier_split_halt .globalMw gmws req gE _ pre post e hsplit hhalt
            obtain ⟨r2, m2, hr2, hm2⟩ := hgE ent hent
            rw [hidx] at hr2
            rw [hr2] at hr'
            injection hr' with hr'
            subst hr'
            refine ⟨h1, rfl, h3, m2, ?_⟩
            rw [hmt]
            exact hm2
          | contHandle =>
            rw [handleIter_cons_gCont routes gmws gE rmE candCount req st j ci rest
              r m hstE hRh hr hm hG] at hsplit ⊢
            rcases append_cons_decomp _ _ _ _ _ hsplit with
              ⟨post₁, hin, -⟩ | ⟨pre₂, hpre₂, hin⟩
            · obtain ⟨-, hout, -⟩ :=
                bTier_split_halt .globalMw gmws req gE _ pre post₁ e hin hhalt
              rw [hG] at hout
              cases hout
            · subst hpre₂
              have hfreeG : ∀ x ∈ (bTier .globalMw gmws req { st with matched := some m } gE).2.1, errFreeCb x.cb :=
                fun x hx => (hpre x (List.mem_append.mpr (Or.inl hx))).1
              have hhdrG : ∀ x ∈ (bTier .globalMw gmws req { st with matched := some m } gE).2.1, x.cb.sendsHeaders = false :=
                fun x hx => (hpre x (List.mem_append.mpr (Or.inl hx))).2
              have hE1 :=
                (bTier_errorThrown_inv .globalMw gmws req gE _ hfreeG).trans hstE
              have hH1 :=
                (bTier_headersSent_inv .globalMw gmws req gE _ hhdrG).trans hstH
              exact ih _ pre₂ post e hin hhalt hE1 hH1
                (fun x hx => hpre x (List.mem_append.mpr (Or.inr hx)))
          | rej er =>
            rw [handleIter_cons_gRej routes gmws gE rmE candCount req st j ci rest
              r m er hstE hRh hr hm hG] at hsplit
            obtain ⟨-, hout, -⟩ :=
              bTier_split_halt .globalMw gmws req gE _ pre post e hsplit hhalt
            rw [hG] at hout
            cases hout
          | done =>
            cases hR2 : (bTier .pathMw routes req (bTier .globalMw gmws req { st with matched := some m } gE).1 rmE).2.2 with
            | brkHandle =>
              rw [handleIter_cons_rBrk routes gmws gE rmE candCount req st j ci rest
                r m hstE hRh hr hm hG hR2] at hsplit ⊢
              rcases append_cons_decomp _ _ _ _ _ hsplit with
                ⟨post₁, hin, -⟩ | ⟨pre₂, hpre₂, hin⟩
              · obtain ⟨-, hout, -⟩ :=
                  bTier_split_halt .globalMw gmws req gE _ pre post₁ e hin hhalt
                rw [hG] at hout
                cases hout
              · obtain ⟨h1, -, h3, ⟨r', hr', hmt⟩, ⟨ent, hent, hidx⟩, -⟩ :=
                  bTier_split_halt .pathMw routes req rmE _ pre₂ post e hin hhalt
                obtain ⟨r2, m2, hr2, hm2⟩ := hrmE ent hent
                rw [hidx] at hr2
                rw [hr2] at hr'
                injection hr' with hr'
                subst hr'
                refine ⟨h1, rfl, h3, m2, ?_⟩
                rw [hmt]
                exact hm2
            | contHandle =>
              rw [handleIter_cons_rCont routes gmws gE rmE candCount req st j ci rest
                r m hstE hRh hr hm hG hR2] at hsplit ⊢
              rcases append_cons_decomp _ _ _ _ _ hsplit with
                ⟨post₁, hin, -⟩ | ⟨pre₂, hpre₂, hin⟩
              · obtain ⟨-, hout, -⟩ :=
                  bTier_split_halt .globalMw gmws req gE _ pre post₁ e hin hhalt
                rw [hG] at hout
                cases hout
              · rcases append_cons_decomp _ _ _ _ _ hin with
                  ⟨post₂, hin2, -⟩ | ⟨pre₃, hpre₃, hin2⟩
                · obtain ⟨-, hout, -⟩ :=
                    bTier_split_halt .pathMw routes req rmE _ pre₂ post₂ e hin2 hhalt
                  rw [hR2] at hout
                  cases hout
                · subst hpre₂
                  subst hpre₃
                  have hfreeG : ∀ x ∈ (bTier .globalMw gmws req { st with matched := some m } gE).2.1, errFreeCb x.cb :=
                    fun x hx => (hpre x (List.mem_append.mpr (Or.inl hx))).1
                  have hhdrG : ∀ x ∈ (bTier .globalMw gmws req { st with matched := some m } gE).2.1, x.cb.sendsHeaders = false :=
                    fun x hx => (hpre x (List.mem_append.mpr (Or.inl hx))).2
                  have hE1 :=
                    (bTier_errorThrown_inv .globalMw gmws req gE _ hfreeG).trans hstE
                  have hH1 :=
                    (bTier_headersSent_inv .globalMw gmws req gE _ hhdrG).trans hstH
                  have hfreeR : ∀ x ∈ (bTier .pathMw routes req (bTier .globalMw gmws req { st with matched := some m } gE).1 rmE).2.1, errFreeCb x.cb :=
                    fun x hx => (hpre x (List.mem_append.mpr
                      (Or.inr (List.mem_append.mpr (Or.inl hx))))).1
                  have hhdrR : ∀ x ∈ (bTier .pathMw routes req (bTier .globalMw gmws req { st with matched := some m } gE).1 rmE).2.1, x.cb.sendsHeaders = false :=
                    fun x hx => (hpre x (List.mem_append.mpr
                      (Or.inr (List.mem_append.mpr (Or.inl hx))))).2
                  have hE2 :=
                    (bTier_errorThrown_inv .pathMw routes req rmE _ hfreeR).trans hE1
                  have hH2 :=
                    (bTier_headersSent_inv .pathMw routes req rmE _ hhdrR).trans hH1
                  exact ih _ pre₃ post e hin2 hhalt hE2 hH2
                    (fun x hx => hpre x (List.mem_append.mpr
                      (Or.inr (List.mem_append.mpr (Or.inr hx)))))
            | rej er =>
              rw [handleIter_cons_rRej routes gmws gE rmE candCount req st j ci rest
                r m er hstE hRh hr hm hG hR2] at hsplit
              rcases append_cons_decomp _ _ _ _ _ hsplit with
                ⟨post₁, hin, -⟩ | ⟨pre₂, hpre₂, hin⟩
              · obtain ⟨-, hout, -⟩ :=
                  bTier_split_halt .globalMw gmws req gE _ pre post₁ e hin hhalt
                rw [hG] at hout
                cases hout
              · obtain ⟨-, hout, -⟩ :=
                  bTier_split_halt .pathMw routes req rmE _ pre₂ post e hin hhalt
                rw [hR2] at hout
                cases hout
            | done =>
              cases hH : (bTier .pathMw routes req (bTier .globalMw gmws req { st with matched := some m } gE).1 rmE).1.headersSent with
              | true =>
                rw [handleIter_cons_hdr routes gmws gE rmE candCount req st j ci rest
                  r m hstE hRh hr hm hG hR2 hH] at hsplit
                rcases append_cons_decomp _ _ _ _ _ hsplit with
                  ⟨post₁, hin, -⟩ | ⟨pre₂, hpre₂, hin⟩
                · obtain ⟨-, hout, -⟩ :=
                    bTier_split_halt .globalMw gmws req gE _ pre post₁ e hin hhalt
                  rw [hG] at hout
                  cases hout
                · obtain ⟨-, hout, -⟩ :=
                    bTier_split_halt .pathMw routes req rmE _ pre₂ post e hin hhalt
                  rw [hR2] at hout
                  cases hout
              | false =>
                cases hT : (tCbLoop ci r m.callbacks (decide (j = candCount - 1)) req (bTier .pathMw routes req (bTier .globalMw gmws req { st with matched := some m } gE).1 rmE).1 (List.range m.callbacks.length)).2.2 with
                | finished =>
                  rw [handleIter_cons_tFin routes gmws gE rmE candCount req st j ci
                    rest r m hstE hRh hr hm hG hR2 hH hT] at hsplit ⊢
                  rcases append_cons_decomp _ _ _ _ _ hsplit with
                    ⟨post₁, hin, -⟩ | ⟨pre₂, hpre₂, hin⟩
                  · obtain ⟨-, hout, -⟩ :=
                      bTier_split_halt .globalMw gmws req gE _ pre post₁ e hin hhalt
                    rw [hG] at hout
                    cases hout
                  · rcases append_cons_decomp _ _ _ _ _ hin with
                      ⟨post₂, hin2, -⟩ | ⟨pre₃, hpre₃, hin2⟩
                    · obtain ⟨-, hout, -⟩ :=
                        bTier_split_halt .pathMw routes req rmE _ pre₂ post₂ e
                          hin2 hhalt
                      rw [hR2] at hout
                      cases hout
                    · rcases append_cons_decomp _ _ _ _ _ hin2 with
                        ⟨post₃, hin3, -⟩ | ⟨pre₄, hpre₄, hin3⟩
                      · obtain ⟨-, hout, -⟩ :=
                          tCbLoop_split_halt ci r m.callbacks _ req _ _ pre₃ post₃
                            e hin3 hhalt
                        rw [hT] at hout
                        cases hout
                      · subst hpre₂
                        subst hpre₃
                        subst hpre₄
                        have hfreeG : ∀ x ∈ (bTier .globalMw gmws req { st with matched := some m } gE).2.1, errFreeCb x.cb :=
                          fun x hx => (hpre x (List.mem_append.mpr (Or.inl hx))).1
                        have hhdrG : ∀ x ∈ (bTier .globalMw gmws req { st with matched := some m } gE).2.1, x.cb.sendsHeaders = false :=
                          fun x hx => (hpre x (List.mem_append.mpr (Or.inl hx))).2
                        have hE1 :=
                          (bTier_errorThrown_inv .globalMw gmws req gE _
                            hfreeG).trans hstE
                        have hH1 :=
                          (bTier_headersSent_inv .globalMw gmws req gE _
                            hhdrG).trans hstH
                        have hfreeR : ∀ x ∈ (bTier .pathMw routes req (bTier .globalMw gmws req { st with matched := some m } gE).1 rmE).2.1, errFreeCb x.cb :=
                          fun x hx => (hpre x (List.mem_append.mpr
                            (Or.inr (List.mem_append.mpr (Or.inl hx))))).1
                        have hhdrR : ∀ x ∈ (bTier .pathMw routes req (bTier .globalMw gmws req { st with matched := some m } gE).1 rmE).2.1, x.cb.sendsHeaders = false :=
                          fun x hx => (hpre x (List.mem_append.mpr
                            (Or.inr (List.mem_append.mpr (Or.inl hx))))).2
                        have hE2 :=
                          (bTier_errorThrown_inv .pathMw routes req rmE _
                            hfreeR).trans hE1
                        have hH2 :=
                          (bTier_headersSent_inv .pathMw routes req rmE _
                            hhdrR).trans hH1
                        have hfreeT : ∀ x ∈ (tCbLoop ci r m.callbacks (decide (j = candCount - 1)) req (bTier .pathMw routes req (bTier .globalMw gmws req { st with matched := some m } gE).1 rmE).1 (List.range m.callbacks.length)).2.1, errFreeCb x.cb :=
                          fun x hx => (hpre x (List.mem_append.mpr
                            (Or.inr (List.mem_append.mpr (Or.inr
                              (List.mem_append.mpr (Or.inl hx))))))).1
                        have hhdrT : ∀ x ∈ (tCbLoop ci r m.callbacks (decide (j = candCount - 1)) req (bTier .pathMw routes req (bTier .globalMw gmws req { st with matched := some m } gE).1 rmE).1 (List.range m.callbacks.length)).2.1, x.cb.sendsHeaders = false :=
                          fun x hx => (hpre x (List.mem_append.mpr
                            (Or.inr (List.mem_append.mpr (Or.inr
                              (List.mem_append.mpr (Or.inl hx))))))).2
                        have hE3 :=
                          (tCbLoop_errorThrown_inv ci r m.callbacks
                            (decide (j = candCount - 1)) req _ _ hfreeT).trans hE2
                        have hH3 :=
                          (tCbLoop_headersSent_inv ci r m.callbacks
                            (decide (j = candCount - 1)) req _ _ hhdrT).trans hH2
                        exact ih _ pre₄ post e hin3 hhalt hE3 hH3
                          (fun x hx => hpre x (List.mem_append.mpr
                            (Or.inr (List.mem_append.mpr (Or.inr
                              (List.mem_append.mpr (Or.inr hx)))))))
                | retM =>
                  rw [handleIter_cons_tRet routes gmws gE rmE candCount req st j ci
                    rest r m hstE hRh hr hm hG hR2 hH hT] at hsplit
                  rcases append_cons_decomp _ _ _ _ _ hsplit with
                    ⟨post₁, hin, -⟩ | ⟨pre₂, hpre₂, hin⟩
                  · obtain ⟨-, hout, -⟩ :=
                      bTier_split_halt .globalMw gmws req gE _ pre post₁ e hin hhalt
                    rw [hG] at hout
                    cases hout
                  · rcases append_cons_decomp _ _ _ _ _ hin with
                      ⟨post₂, hin2, -⟩ | ⟨pre₃, hpre₃, hin2⟩
                    · obtain ⟨-, hout, -⟩ :=
                        bTier_split_halt .pathMw routes req rmE _ pre₂ post₂ e
                          hin2 hhalt
                      rw [hR2] at hout
                      cases hout
                    · obtain ⟨-, hout, -⟩ :=
                        tCbLoop_split_halt ci r m.callbacks _ req _ _ pre₃ post
                          e hin2 hhalt
                      rw [hT] at hout
                      cases hout
                | brkHandle =>
                  rw [handleIter_cons_tBrk routes gmws gE rmE candCount req st j ci
                    rest r m hstE hRh hr hm hG hR2 hH hT] at hsplit ⊢
                  rcases append_cons_decomp _ _ _ _ _ hsplit with
                    ⟨post₁, hin, -⟩ | ⟨pre₂, hpre₂, hin⟩
                  · obtain ⟨-, hout, -⟩ :=
                      bTier_split_halt .globalMw gmws req gE _ pre post₁ e hin hhalt
                    rw [hG] at hout
                    cases hout
                  · rcases append_cons_decomp _ _ _ _ _ hin with
                      ⟨post₂, hin2, -⟩ | ⟨pre₃, hpre₃, hin2⟩
                    · obtain ⟨-, hout, -⟩ :=
                        bTier_split_halt .pathMw routes req rmE _ pre₂ post₂ e
                          hin2 hhalt
                      rw [hR2] at hout
                      cases hout
                    · obtain ⟨h1, -, h3, hmt, -⟩ :=
                        tCbLoop_split_halt ci r m.callbacks _ req _ _ pre₃ post
                          e hin2 hhalt
                      refine ⟨h1, rfl, h3, m, ?_⟩
                      rw [hmt]
                      exact hm
                | contHandle =>
                  rw [handleIter_cons_tCont routes gmws gE rmE candCount req st j ci
                    rest r m hstE hRh hr hm hG hR2 hH hT] at hsplit ⊢
                  rcases append_cons_decomp _ _ _ _ _ hsplit with
                    ⟨post₁, hin, -⟩ | ⟨pre₂, hpre₂, hin⟩
                  · obtain ⟨-, hout, -⟩ :=
                      bTier_split_halt .globalMw gmws req gE _ pre post₁ e hin hhalt
                    rw [hG] at hout
                    cases hout
                  · rcases append_cons_decomp _ _ _ _ _ hin with
                      ⟨post₂, hin2, -⟩ | ⟨pre₃, hpre₃, hin2⟩
                    · obtain ⟨-, hout, -⟩ :=
                        bTier_split_halt .pathMw routes req rmE _ pre₂ post₂ e
                          hin2 hhalt
                      rw [hR2] at hout
                      cases hout
                    · rcases append_cons_decomp _ _ _ _ _ hin2 with
                        ⟨post₃, hin3, -⟩ | ⟨pre₄, hpre₄, hin3⟩
                      · obtain ⟨-, hout, -⟩ :=
                          tCbLoop_split_halt ci r m.callbacks _ req _ _ pre₃ post₃
                            e hin3 hhalt
                        rw [hT] at hout
                        cases hout
                      · subst hpre₂
                        subst hpre₃
                        subst hpre₄
                        have hfreeG : ∀ x ∈ (bTier .globalMw gmws req { st with matched := some m } gE).2.1, errFreeCb x.cb :=
                          fun x hx => (hpre x (List.mem_append.mpr (Or.inl hx))).1
                        have hhdrG : ∀ x ∈ (bTier .globalMw gmws req { st with matched := some m } gE).2.1, x.cb.sendsHeaders = false :=
                          fun x hx => (hpre x (List.mem_append.mpr (Or.inl hx))).2
                        have hE1 :=
                          (bTier_errorThrown_inv .globalMw gmws req gE _
                            hfreeG).trans hstE
                        have hH1 :=
                          (bTier_headersSent_inv .globalMw gmws req gE _
                            hhdrG).trans hstH
                        have hfreeR : ∀ x ∈ (bTier .pathMw routes req (bTier .globalMw gmws req { st with matched := some m } gE).1 rmE).2.1, errFreeCb x.cb :=
                          fun x hx => (hpre x (List.mem_append.mpr
                            (Or.inr (List.mem_append.mpr (Or.inl hx))))).1
                        have hhdrR : ∀ x ∈ (bTier .pathMw routes req (bTier .globalMw gmws req { st with matched := some m } gE).1 rmE).2.1, x.cb.sendsHeaders = false :=
                          fun x hx => (hpre x (List.mem_append.mpr
                            (Or.inr (List.mem_append.mpr (Or.inl hx))))).2
                        have hE2 :=
                          (bTier_errorThrown_inv .pathMw routes req rmE _
                            hfreeR).trans hE1
                        have hH2 :=
                          (bTier_headersSent_inv .pathMw routes req rmE _
                            hhdrR).trans hH1
                        have hfreeT : ∀ x ∈ (tCbLoop ci r m.callbacks (decide (j = candCount - 1)) req (bTier .pathMw routes req (bTier .globalMw gmws req { st with matched := some m } gE).1 rmE).1 (List.range m.callbacks.length)).2.1, errFreeCb x.cb :=
                          fun x hx => (hpre x (List.mem_append.mpr
                            (Or.inr (List.mem_append.mpr (Or.inr
                              (List.mem_append.mpr (Or.inl hx))))))).1
                        have hhdrT : ∀ x ∈ (tCbLoop ci r m.callbacks (decide (j = candCount - 1)) req (bTier .pathMw routes req (bTier .globalMw gmws req { st with matched := some m } gE).1 rmE).1 (List.range m.callbacks.length)).2.1, x.cb.sendsHeaders = false :=
                          fun x hx => (hpre x (List.mem_append.mpr
                            (Or.inr (List.mem_append.mpr (Or.inr
                              (List.mem_append.mpr (Or.inl hx))))))).2
                        have hE3 :=
                          (tCbLoop_errorThrown_inv ci r m.callbacks
                            (decide (j = candCount - 1)) req _ _ hfreeT).trans hE2
                        have hH3 :=
                          (tCbLoop_headersSent_inv ci r m.callbacks
                            (decide (j = candCount - 1)) req _ _ hhdrT).trans hH2
                        exact ih _ pre₄ post e hin3 hhalt hE3 hH3
                          (fun x hx => hpre x (List.mem_append.mpr
                            (Or.inr (List.mem_append.mpr (Or.inr
                              (List.mem_append.mpr (Or.inr hx)))))))
                | rej er =>
                  rw [handleIter_cons_tRej routes gmws gE rmE candCount req st j ci
                    rest r m er hstE hRh hr hm hG hR2 hH hT] at hsplit
                  rcases append_cons_decomp _ _ _ _ _ hsplit with
                    ⟨post₁, hin, -⟩ | ⟨pre₂, hpre₂, hin⟩
                  · obtain ⟨-, hout, -⟩ :=
                      bTier_split_halt .globalMw gmws req gE _ pre post₁ e hin hhalt
                    rw [hG] at hout
                    cases hout
                  · rcases append_cons_decomp _ _ _ _ _ hin with
                      ⟨post₂, hin2, -⟩ | ⟨pre₃, hpre₃, hin2⟩
                    · obtain ⟨-, hout, -⟩ :=
                        bTier_split_halt .pathMw routes req rmE _ pre₂ post₂ e
                          hin2 hhalt
                      rw [hR2] at hout
                      cases hout
                    · obtain ⟨-, hout, -⟩ :=
                        tCbLoop_split_halt ci r m.callbacks _ req _ _ pre₃ post
                          e hin2 hhalt
                      rw [hT] at hout
                      cases hout

end BunNode

namespace BunNode

/-! ### `handleCore` equations for a non-empty candidate list -/

theorem handleCore_cands_fin (routes gmws : List Route) (gE rmE : List MwEntry)
    (cands : List Nat) (req : Req) (hne : cands.isEmpty = false)
    (h : (handleIter routes gmws gE rmE cands.length req initDState cands.enum).2.2 = .finished) :
    handleCore routes gmws gE rmE cands req =
      ⟨(handleIter routes gmws gE rmE cands.length req initDState cands.enum).2.1, .ok (finalRet (handleIter routes gmws gE rmE cands.length req initDState cands.enum).1), (handleIter routes gmws gE rmE cands.length req initDState cands.enum).1⟩ := by
  simp [handleCore, hne, h]

theorem handleCore_cands_ret (routes gmws : List Route) (gE rmE : List MwEntry)
    (cands : List Nat) (req : Req) (rr : HandleRet) (hne : cands.isEmpty = false)
    (h : (handleIter routes gmws gE rmE cands.length req initDState cands.enum).2.2 = .ret rr) :
    handleCore routes gmws gE rmE cands req =
      ⟨(handleIter routes gmws gE rmE cands.length req initDState cands.enum).2.1, .ok rr, (handleIter routes gmws gE rmE cands.length req initDState cands.enum).1⟩ := by
  simp [handleCore, hne, h]

theorem handleCore_cands_thrown (routes gmws : List Route) (gE rmE : List MwEntry)
    (cands : List Nat) (req : Req) (t : ThrownOut) (hne : cands.isEmpty = false)
    (h : (handleIter routes gmws gE rmE cands.length req initDState cands.enum).2.2 = .thrown t) :
    handleCore routes gmws gE rmE cands req =
      ⟨(handleIter routes gmws gE rmE cands.length req initDState cands.enum).2.1, .thrown t, (handleIter routes gmws gE rmE cands.length req initDState cands.enum).1⟩ := by
  simp [handleCore, hne, h]

theorem handleCore_cands_events (routes gmws : List Route) (gE rmE : List MwEntry)
    (cands : List Nat) (req : Req) (hne : cands.isEmpty = false) :
    (handleCore routes gmws gE rmE cands req).events = (handleIter routes gmws gE rmE cands.length req initDState cands.enum).2.1 := by
  cases h : (handleIter routes gmws gE rmE cands.length req initDState cands.enum).2.2 with
  | finished => rw [handleCore_cands_fin routes gmws gE rmE cands req hne h]
  | ret rr => rw [handleCore_cands_ret routes gmws gE rmE cands req rr hne h]
  | thrown t => rw [handleCore_cands_thrown routes gmws gE rmE cands req t hne h]

theorem sectionA_split_rej (gmws routes : List Route) (req : Req) (st : DState)
    (gE rmE : List MwEntry) (pre post : List Ev) (e : Ev) (er : ErrVal)
    (hsplit : (sectionA gmws routes req st gE rmE).2.1 = pre ++ e :: post)
    (hfe : firstNextErr e.cb = some er) :
    post = [] ∧ (sectionA gmws routes req st gE rmE).2.2 = .thrownOut (.raw er) := by
  cases hP : (aTier .globalMw gmws req st gE).2.2 with
  | rej er' =>
    rw [sectionA_rej gmws routes req st gE rmE er' hP] at hsplit ⊢
    obtain ⟨h1, hout⟩ :=
      aTier_split_rej .globalMw gmws req gE st pre post e er hsplit hfe
    rw [hP] at hout
    injection hout with hout
    subst hout
    exact ⟨h1, rfl⟩
  | done =>
    cases hE : (aTier .globalMw gmws req st gE).1.errorThrown with
    | some t' =>
      rw [sectionA_err gmws routes req st gE rmE t' hP hE] at hsplit
      obtain ⟨-, hout⟩ :=
        aTier_split_rej .globalMw gmws req gE st pre post e er hsplit hfe
      rw [hP] at hout
      cases hout
    | none =>
      cases hH : (aTier .globalMw gmws req st gE).1.headersSent with
      | true =>
        rw [sectionA_headers gmws routes req st gE rmE hP hE hH] at hsplit
        obtain ⟨-, hout⟩ :=
          aTier_split_rej .globalMw gmws req gE st pre post e er hsplit hfe
        rw [hP] at hout
        cases hout
      | false =>
        cases hQ : (aTier .pathMw routes req
            (aTier .globalMw gmws req st gE).1 rmE).2.2 with
        | rej er' =>
          rw [sectionA_path_rej gmws routes req st gE rmE er' hP hE hH hQ]
            at hsplit ⊢
          rcases append_cons_decomp _ _ _ _ _ hsplit with
            ⟨post₁, hin, -⟩ | ⟨pre₂, -, hin⟩
          · obtain ⟨-, hout⟩ :=
              aTier_split_rej .globalMw gmws req gE st pre post₁ e er hin hfe
            rw [hP] at hout
            cases hout
          · obtain ⟨h1, hout⟩ :=
              aTier_split_rej .pathMw routes req rmE _ pre₂ post e er hin hfe
            rw [hQ] at hout
            injection hout with hout
            subst hout
            exact ⟨h1, rfl⟩
        | done =>
          cases hQE : (aTier .pathMw routes req
              (aTier .globalMw gmws req st gE).1 rmE).1.errorThrown with
          | some t' =>
            rw [sectionA_path_err gmws routes req st gE rmE t' hP hE hH hQ hQE]
              at hsplit
            rcases append_cons_decomp _ _ _ _ _ hsplit with
              ⟨post₁, hin, -⟩ | ⟨pre₂, -, hin⟩
            · obtain ⟨-, hout⟩ :=
                aTier_split_rej .globalMw gmws req gE st pre post₁ e er hin hfe
              rw [hP] at hout
              cases hout
            · obtain ⟨-, hout⟩ :=
                aTier_split_rej .pathMw routes req rmE _ pre₂ post e er hin hfe
              rw [hQ] at hout
              cases hout
          | none =>
            cases hQH : (aTier .pathMw routes req
                (aTier .globalMw gmws req st gE).1 rmE).1.headersSent with
            | true =>
              rw [sectionA_path_headers gmws routes req st gE rmE hP hE hH hQ hQE
                hQH] at hsplit
              rcases append_cons_decomp _ _ _ _ _ hsplit with
                ⟨post₁, hin, -⟩ | ⟨pre₂, -, hin⟩
              · obtain ⟨-, hout⟩ :=
                  aTier_split_rej .globalMw gmws req gE st pre post₁ e er hin hfe
                rw [hP] at hout
                cases hout
              · obtain ⟨-, hout⟩ :=
                  aTier_split_rej .pathMw routes req rmE _ pre₂ post e er hin hfe
                rw [hQ] at hout
                cases hout
            | false =>
              rw [sectionA_fall gmws routes req st gE rmE hP hE hH hQ hQE hQH]
                at hsplit
              rcases append_cons_decomp _ _ _ _ _ hsplit with
                ⟨post₁, hin, -⟩ | ⟨pre₂, -, hin⟩
              · obtain ⟨-, hout⟩ :=
                  aTier_split_rej .globalMw gmws req gE st pre post₁ e er hin hfe
                rw [hP] at hout
                cases hout
              · obtain ⟨-, hout⟩ :=
                  aTier_split_rej .pathMw routes req rmE _ pre₂ post e er hin hfe
                rw [hQ] at hout
                cases hout

/-- C2 (amended): a callback (of any tier) that makes `response.headersSent`
become true by sending headers itself, and that neither invokes `next` nor
throws, halts dispatch: it is the last callback executed, the final
`headersSent` is true, and `handle()` resolves with a `MatchResult` — the
re-match of the route whose callback halted (for a middleware this is the
middleware route's own match, not the active terminal candidate's).
Without the no-`next` proviso the claim fails: a callback that invokes
`next()` and then sends headers does not stop the chain — see the
counterexample. -/
theorem c2_headers_sent_halt (routes : List Route) (req : Req)
    (pre post : List Ev) (e : Ev)
    (hsplit : (handleRun routes req).events = pre ++ e :: post)
    (hhdr : e.cb.sendsHeaders = true)
    (hnonext : e.cb.nextCalls = []) (hnothrow : e.cb.throws = none)
    (hpre : ∀ x ∈ pre, errFreeCb x.cb ∧ x.cb.sendsHeaders = false ∧
      x.cb.retTruthy = false) :
    post = [] ∧ (handleRun routes req).finalSt.headersSent = true ∧
      ∃ mm, (handleRun routes req).out = .ok (.matched mm) := by
  rw [handleRun_eq] at hsplit ⊢
  cases hcands : computeHandlers routes req with
  | nil =>
    rw [hcands] at hsplit
    rw [handleCore_noCands_events] at hsplit
    obtain ⟨h1, mm, h2, h3⟩ := sectionA_split_halt (globalMwsOf routes) routes req
      initDState (computeGlobalMws (globalMwsOf routes) req)
      (computeRouteMws routes req) pre post e hsplit
      ⟨hnonext, hnothrow, Or.inl hhdr⟩ rfl (fun x hx => (hpre x hx).1)
      (fun ent hent => computeGlobalMws_consistent _ req ent hent)
      (fun ent hent => computeRouteMws_consistent _ req ent hent)
    rw [handleCore_noCands_ret _ _ _ _ _ _ h2]
    exact ⟨h1, h3, mm, rfl⟩
  | cons c cs =>
    have hne : (c :: cs).isEmpty = false := rfl
    rw [hcands] at hsplit
    rw [handleCore_cands_events _ _ _ _ _ _ hne] at hsplit
    obtain ⟨h1, h2, h3, mm, h4⟩ := handleIter_split_halt routes
      (globalMwsOf routes) (computeGlobalMws (globalMwsOf routes) req)
      (computeRouteMws routes req) (c :: cs).length req
      (fun ent hent => computeGlobalMws_consistent _ req ent hent)
      (fun ent hent => computeRouteMws_consistent _ req ent hent)
      (c :: cs).enum initDState pre post e hsplit
      ⟨hnonext, hnothrow, hhdr⟩ rfl rfl
      (fun x hx => ⟨(hpre x hx).1, (hpre x hx).2.1⟩)
    rw [handleCore_cands_fin _ _ _ _ _ _ hne h2]
    have hfr : finalRet (handleIter routes (globalMwsOf routes)
        (computeGlobalMws (globalMwsOf routes) req)
        (computeRouteMws routes req) (c :: cs).length req initDState
        (c :: cs).enum).1 = .matched mm := by
      unfold finalRet
      rw [h3, h4]
    exact ⟨h1, h3, mm, by rw [hfr]⟩

def c2exM : MatchResult := ⟨none, "GET", "/a", [], [], []⟩

def c2exRoute : Route :=
  ⟨none, none, none, none, [],
    [⟨[NextArg.nil], true, false, none⟩, ⟨[], false, false, none⟩],
    fun _ _ _ => some c2exM⟩

/-- C2 counterexample: a global middleware callback calls `next()` and then
sends headers.  Dispatch does NOT halt: the middleware's second callback
still executes (two trace events), because the per-callback promise was
already resolved by `next()` before the executor saw `headersSent`. -/
theorem c2_counterexample :
    (handleRun [c2exRoute] reqA).events =
        [⟨.globalMw, 0, 0, ⟨[NextArg.nil], true, false, none⟩⟩,
          ⟨.globalMw, 0, 1, ⟨[], false, false, none⟩⟩] ∧
      (handleRun [c2exRoute] reqA).out = .ok (.matched c2exM) := ⟨rfl, rfl⟩

def c2wCb : CbBeh := ⟨[], true, false, none⟩

def c2wM : MatchResult := ⟨none, "GET", "/w2", [], [], []⟩

def c2wRoute : Route :=
  ⟨none, none, none, none, [], [c2wCb], fun _ _ _ => some c2wM⟩

theorem c2_witness :
    ([] : List Ev) = [] ∧
      (handleRun [c2wRoute] reqA).finalSt.headersSent = true ∧
      ∃ mm, (handleRun [c2wRoute] reqA).out = .ok (.matched mm) :=
  c2_headers_sent_halt [c2wRoute] reqA [] [] ⟨.globalMw, 0, 0, c2wCb⟩
    rfl rfl rfl rfl (fun x hx => absurd hx (List.not_mem_nil x))

/-- C5 (amended): when the FIRST invocation of the `next` continuation by a
callback passes a value other than `undefined`/`null`/`"next"`/`"skip"`, the
chain is aborted at that callback: it is the last executed callback and the
value propagates out of `handle()` as a rejection carrying the raw value;
`next()` with no argument (or `null`/`undefined`) instead resolves the
callback's promise with the current continue-middlewares flag, so the loop
proceeds with the state unchanged (third conjunct).  If the callback first
called `next()` with no argument, a later `next(err)` does NOT abort — see
the counterexample. -/
theorem c5_next_error_rejects (routes : List Route) (req : Req)
    (pre post : List Ev) (e : Ev) (er : ErrVal)
    (hsplit : (handleRun routes req).events = pre ++ e :: post)
    (hfe : firstNextErr e.cb = some er) :
    post = [] ∧ (handleRun routes req).out = .thrown (.raw er) ∧
      ∀ (st : DState) (cb : CbBeh), cb.nextCalls = [NextArg.nil] →
        cb.sendsHeaders = false → cb.retTruthy = false → cb.throws = none →
        siteRouteMw st cb = (st, .boolR st.contMw) := by
  rw [handleRun_eq] at hsplit ⊢
  cases hcands : computeHandlers routes req with
  | nil =>
    rw [hcands] at hsplit
    rw [handleCore_noCands_events] at hsplit
    obtain ⟨h1, h2⟩ := sectionA_split_rej (globalMwsOf routes) routes req
      initDState (computeGlobalMws (globalMwsOf routes) req)
      (computeRouteMws routes req) pre post e er hsplit hfe
    rw [handleCore_noCands_thrown _ _ _ _ _ _ h2]
    exact ⟨h1, rfl, fun st cb a b c d => siteRouteMw_passNil st cb a b c d⟩
  | cons c cs =>
    have hne : (c :: cs).isEmpty = false := rfl
    rw [hcands] at hsplit
    rw [handleCore_cands_events _ _ _ _ _ _ hne] at hsplit
    obtain ⟨h1, h2⟩ := handleIter_split_rej routes (globalMwsOf routes)
      (computeGlobalMws (globalMwsOf routes) req) (computeRouteMws routes req)
      (c :: cs).length req (c :: cs).enum initDState pre post e er hsplit hfe
    rw [handleCore_cands_thrown _ _ _ _ _ _ _ hne h2]
    exact ⟨h1, rfl, fun st cb a b c d => siteRouteMw_passNil st cb a b c d⟩

def c5exM : MatchResult := ⟨none, "GET", "/a", [], [], []⟩

def c5exRoute : Route :=
  ⟨none, none, none, none, [],
    [⟨[NextArg.nil, NextArg.err (.strVal "E")], false, false, none⟩,
      ⟨[], false, false, none⟩],
    fun _ _ _ => some c5exM⟩

/-- C5 counterexample: a callback calls `next()` first and later
`next("E")`.  The chain is NOT aborted at that callback — the next callback
still executes (two trace events) because the promise was already resolved —
and the recorded error surfaces only at the next checkpoint, coerced into a
wrapped `Error`, not as the raw value. -/
theorem c5_counterexample :
    (handleRun [c5exRoute] reqA).events =
        [⟨.globalMw, 0, 0, ⟨[NextArg.nil, NextArg.err (.strVal "E")],
          false, false, none⟩⟩,
          ⟨.globalMw, 0, 1, ⟨[], false, false, none⟩⟩] ∧
      (handleRun [c5exRoute] reqA).out = .thrown (.wrapped "E") := ⟨rfl, rfl⟩

def c5wCb : CbBeh := ⟨[NextArg.err (.strVal "boom")], false, false, none⟩

def c5wM : MatchResult := ⟨none, "GET", "/w5", [], [], []⟩

def c5wRoute : Route :=
  ⟨none, none, none, none, [], [c5wCb], fun _ _ _ => some c5wM⟩

theorem c5_witness :
    ([] : List Ev) = [] ∧
      (handleRun [c5wRoute] reqA).out = .thrown (.raw (.strVal "boom")) ∧
      ∀ (st : DState) (cb : CbBeh), cb.nextCalls = [NextArg.nil] →
        cb.sendsHeaders = false → cb.retTruthy = false → cb.throws = none →
        siteRouteMw st cb = (st, .boolR st.contMw) :=
  c5_next_error_rejects [c5wRoute] reqA [] [] ⟨.globalMw, 0, 0, c5wCb⟩
    (.strVal "boom") rfl rfl

end BunNode

namespace BunNode

/-! ### C8: the do-nothing last terminal callback -/

/-- Trace of a run of terminal-callback positions that all execute. -/
def termTrace (ri : Nat) (cbs : List CbBeh) : List Nat → List Ev
  | [] => []
  | k :: ks =>
    match cbs[k]? with
    | none => termTrace ri cbs ks
    | some cb => ⟨.terminal, ri, k, cb⟩ :: termTrace ri cbs ks

theorem tCbLoop_pass_append (ri : Nat) (r : Route) (cbs : List CbBeh)
    (isLastH : Bool) (req : Req) :
    ∀ (ks ks' : List Nat) (st : DState), st.contRh = true →
      (∀ k ∈ ks, ∃ cb, cbs[k]? = some cb ∧ cb.nextCalls = [NextArg.nil] ∧
        cb.sendsHeaders = false ∧ cb.retTruthy = false ∧ cb.throws = none) →
      tCbLoop ri r cbs isLastH req st (ks ++ ks') =
        ((tCbLoop ri r cbs isLastH req st ks').1,
          termTrace ri cbs ks ++ (tCbLoop ri r cbs isLastH req st ks').2.1,
          (tCbLoop ri r cbs isLastH req st ks').2.2) := by
  intro ks
  induction ks with
  | nil =>
    intro ks' st _ _
    simp [termTrace]
  | cons k ks ih =>
    intro ks' st hrh hall
    obtain ⟨cb, hcb, hnil, hhd, hrt, hth⟩ := hall k (List.mem_cons_self _ _)
    have hsite := siteTerminal_passNil st cb (decide (k = cbs.length - 1))
      hnil hhd hrt hth
    have hp1 : (siteTerminal st cb (decide (k = cbs.length - 1))).2 ≠
        .endRouting := by simp [hsite]
    have hp2 : (siteTerminal st cb (decide (k = cbs.length - 1))).2 ≠
        .continueHandlers := by simp [hsite]
    have hp3 : ∀ er, (siteTerminal st cb (decide (k = cbs.length - 1))).2 ≠
        .rejected er := by intro er; simp [hsite]
    have h1 : (siteTerminal st cb (decide (k = cbs.length - 1))).1 = st := by
      rw [hsite]
    rw [List.cons_append,
      tCbLoop_cons_other ri r cbs isLastH req st k (ks ++ ks') cb hrh hcb
        hp1 hp2 hp3, h1,
      ih ks' st hrh (fun x hx => hall x (List.mem_cons_of_mem _ hx))]
    simp [termTrace, hcb]

/-- C8 (amended): when the single candidate terminal route's matched
callbacks consist of pass-through callbacks (each just calls `next()`)
followed by a last callback that neither calls `next` nor produces a
response, the engine resolves `"end-routing"`, re-matches the candidate into
`matchedRoute` — but `handle()` resolves `undefined`: the final lines return
the matched route only when a response was sent, and none was.  (The claim
that the route's `MatchResult` is returned does not hold in this revision;
see the counterexample.) -/
theorem c8_last_callback_fallback (routes : List Route) (req : Req) (ci : Nat)
    (r : Route) (m : MatchResult) (passCbs : List CbBeh) (d : CbBeh)
    (hgE : computeGlobalMws (globalMwsOf routes) req = [])
    (hrmE : computeRouteMws routes req = [])
    (hcands : computeHandlers routes req = [ci])
    (hr : routes[ci]? = some r) (hm : matchRoute r req = some m)
    (hcbs : m.callbacks = passCbs ++ [d])
    (hpass : ∀ cb ∈ passCbs, cb.nextCalls = [NextArg.nil] ∧
      cb.sendsHeaders = false ∧ cb.retTruthy = false ∧ cb.throws = none)
    (hd1 : d.nextCalls = []) (hd2 : d.sendsHeaders = false)
    (hd3 : d.retTruthy = false) (hd4 : d.throws = none) :
    (handleRun routes req).out = .ok .undefRes ∧
      (handleRun routes req).finalSt.matched = some m ∧
      (handleRun routes req).finalSt.headersSent = false := by
  rw [handleRun_eq, hgE, hrmE, hcands]
  have hlen : m.callbacks.length = passCbs.length + 1 := by
    rw [hcbs]
    simp
  have hcbd : m.callbacks[passCbs.length]? = some d := by
    rw [hcbs, List.getElem?_append_right (Nat.le_refl _)]
    simp
  have hsite : siteTerminal { initDState with matched := some m } d
      (decide (passCbs.length = m.callbacks.length - 1)) =
      ({ initDState with matched := some m }, .endRouting) :=
    siteTerminal_doNothing _ d _ hd1 hd2 hd3 hd4
  have hstep : tCbLoop ci r m.callbacks true req
      { initDState with matched := some m } [passCbs.length] =
      (⟨false, none, false, false, matchRoute r req⟩,
        [⟨.terminal, ci, passCbs.length, d⟩], .brkHandle) := by
    rw [tCbLoop_cons_end ci r m.callbacks true req _ passCbs.length [] d rfl hcbd
      (by rw [hsite])]
    rw [hsite]
    rfl
  have hpassall : ∀ k ∈ List.range passCbs.length, ∃ cb,
      m.callbacks[k]? = some cb ∧ cb.nextCalls = [NextArg.nil] ∧
      cb.sendsHeaders = false ∧ cb.retTruthy = false ∧ cb.throws = none := by
    intro k hk
    have hk' : k < passCbs.length := List.mem_range.mp hk
    cases hcbk : passCbs[k]? with
    | none =>
      rw [List.getElem?_eq_none_iff] at hcbk
      omega
    | some cb =>
      obtain ⟨a, b, c, dd⟩ := hpass cb (List.getElem?_mem hcbk)
      refine ⟨cb, ?_, a, b, c, dd⟩
      rw [hcbs, List.getElem?_append, if_pos hk']
      exact hcbk
  have hrange : List.range m.callbacks.length =
      List.range passCbs.length ++ [passCbs.length] := by
    rw [hlen, List.range_succ]
  have hpT : tCbLoop ci r m.callbacks true req
      { initDState with matched := some m } (List.range m.callbacks.length) =
      (⟨false, none, false, false, matchRoute r req⟩,
        termTrace ci m.callbacks (List.range passCbs.length) ++
          [⟨.terminal, ci, passCbs.length, d⟩], .brkHandle) := by
    rw [hrange,
      tCbLoop_pass_append ci r m.callbacks true req (List.range passCbs.length)
        [passCbs.length] _ rfl hpassall, hstep]
  have hne : ([ci] : List Nat).isEmpty = false := rfl
  have hfin : (handleIter routes (globalMwsOf routes) [] []
      ([ci] : List Nat).length req initDState ([ci] : List Nat).enum).2.2 =
      .finished := by
    show (handleIter routes (globalMwsOf routes) [] [] 1 req initDState
      [(0, ci)]).2.2 = .finished
    rw [handleIter_cons_tBrk routes (globalMwsOf routes) [] [] 1 req initDState
      0 ci [] r m rfl rfl hr hm rfl rfl rfl
      (by
        show (tCbLoop ci r m.callbacks true req
          { initDState with matched := some m }
          (List.range m.callbacks.length)).2.2 = .brkHandle
        rw [hpT])]
  have hI1 : (handleIter routes (globalMwsOf routes) [] []
      ([ci] : List Nat).length req initDState ([ci] : List Nat).enum).1 =
      ⟨false, none, false, false, some m⟩ := by
    show (handleIter routes (globalMwsOf routes) [] [] 1 req initDState
      [(0, ci)]).1 = _
    rw [handleIter_cons_tBrk routes (globalMwsOf routes) [] [] 1 req initDState
      0 ci [] r m rfl rfl hr hm rfl rfl rfl
      (by
        show (tCbLoop ci r m.callbacks true req
          { initDState with matched := some m }
          (List.range m.callbacks.length)).2.2 = .brkHandle
        rw [hpT])]
    show (tCbLoop ci r m.callbacks true req
      { initDState with matched := some m }
      (List.range m.callbacks.length)).1 = _
    rw [hpT, hm]
  rw [handleCore_cands_fin routes (globalMwsOf routes) [] [] [ci] req hne hfin]
  rw [hI1]
  exact ⟨rfl, rfl, rfl⟩

end BunNode

namespace BunNode

def c8exM : MatchResult :=
  ⟨none, "GET", "/a", [], [], [⟨[], false, false, none⟩]⟩

def c8exRoute : Route :=
  ⟨none, some "/a", some "GET", none, [], [], fun _ _ _ => some c8exM⟩

/-- C8 counterexample: a single terminal route whose only matched callback
neither calls `next` nor produces a response.  The route is re-matched into
`matchedRoute` (final state records it), yet `handle()` resolves `undefined`
instead of that `MatchResult`. -/
theorem c8_counterexample :
    computeHandlers [c8exRoute] reqA = [0] ∧
      (handleRun [c8exRoute] reqA).finalSt.matched = some c8exM ∧
      (handleRun [c8exRoute] reqA).out = .ok .undefRes := ⟨rfl, rfl, rfl⟩

def c8wM : MatchResult :=
  ⟨none, "GET", "/w8", [], [], [⟨[], false, false, none⟩]⟩

def c8wRoute : Route :=
  ⟨none, some "/w8", some "GET", none, [], [], fun _ _ _ => some c8wM⟩

theorem c8_witness :
    (handleRun [c8wRoute] reqA).out = .ok .undefRes ∧
      (handleRun [c8wRoute] reqA).finalSt.matched = some c8wM ∧
      (handleRun [c8wRoute] reqA).finalSt.headersSent = false :=
  c8_last_callback_fallback [c8wRoute] reqA 0 c8wRoute c8wM []
    ⟨[], false, false, none⟩ rfl rfl rfl rfl rfl rfl
    (fun cb h => absurd h (List.not_mem_nil cb)) rfl rfl rfl rfl

end BunNode

namespace BunNode

/-! ### C4: the `next('skip')` sentinel -/

theorem siteRouteMw_skip (st : DState) (cb : CbBeh)
    (h1 : cb.nextCalls = [NextArg.skip]) (h2 : cb.throws = none)
    (h3 : cb.sendsHeaders = false) :
    siteRouteMw st cb = ({ st with contMw := false }, .boolR false) := by
  simp only [siteRouteMw, execCb, h1, h2, h3, runNexts, stepNext, keepFirst,
    resolveOr, Option.getD_some, if_false, Bool.false_eq_true, ite_false]
  cases hh : st.headersSent <;> simp [hh]

/-- One ghost event per callback of a middleware run, at consecutive
callback positions starting from `off`. -/
def mwRunTrace (t : Tier) (ri : Nat) : Nat → List CbBeh → List Ev
  | _, [] => []
  | off, cb :: rest => ⟨t, ri, off, cb⟩ :: mwRunTrace t ri (off + 1) rest

/-- Splitting `List.range` at an interior position into ranges of
consecutive positions. -/
theorem range_consec_split (p a : Nat) :
    List.range (p + (a + 1)) = List.range' 0 p ++ (p :: List.range' (p + 1) a) := by
  rw [List.range_eq_range' (p + (a + 1)),
    show p + (a + 1) = (a + 1) + p by omega,
    ← List.range'_append 0 p (a + 1) 1]
  congr 1
  rw [show 0 + 1 * p = p by omega, List.range'_succ]

/-- A run of consecutive positions holding pass-through middleware callbacks
(each just calls `next()`): every one of them executes — whatever the
current `continueProcessingMiddlewares` flag is, the promise resolves with a
boolean, which matches none of the executor's control strings, so the
callback loop continues — and the state is unchanged. -/
theorem bCbLoop_pass_run (tier : Tier) (ri : Nat) (r : Route) (req : Req) :
    ∀ (cbs2 : List CbBeh) (off : Nat) (ks' : List Nat) (st : DState),
      (∀ i, i < cbs2.length → r.callbacks[off + i]? = cbs2[i]?) →
      (∀ cb ∈ cbs2, cb.nextCalls = [NextArg.nil] ∧ cb.sendsHeaders = false ∧
        cb.retTruthy = false ∧ cb.throws = none) →
      bCbLoop tier ri r req st (List.range' off cbs2.length ++ ks') =
        ((bCbLoop tier ri r req st ks').1,
          mwRunTrace tier ri off cbs2 ++ (bCbLoop tier ri r req st ks').2.1,
          (bCbLoop tier ri r req st ks').2.2) := by
  intro cbs2
  induction cbs2 with
  | nil =>
    intro off ks' st _ _
    simp [mwRunTrace]
  | cons cb cs ih =>
    intro off ks' st hlook hall
    obtain ⟨hnil, hhd, hrt, hth⟩ := hall cb (List.mem_cons_self _ _)
    have hcb : r.callbacks[off]? = some cb := by
      have h0 := hlook 0 (Nat.succ_pos _)
      simpa using h0
    have hlook2 : ∀ i, i < cs.length → r.callbacks[(off + 1) + i]? = cs[i]? := by
      intro i hi
      have h2 := hlook (i + 1) (by simp only [List.length_cons]; omega)
      rw [show off + (i + 1) = off + 1 + i by omega] at h2
      rw [h2]
      exact List.getElem?_cons_succ
    have hsite := siteRouteMw_passNil st cb hnil hhd hrt hth
    have hp1 : (siteRouteMw st cb).2 ≠ .endRouting := by simp [hsite]
    have hp2 : (siteRouteMw st cb).2 ≠ .skipMiddlewares := by simp [hsite]
    have hp3 : (siteRouteMw st cb).2 ≠ .continueHandlers := by simp [hsite]
    have hp4 : ∀ er, (siteRouteMw st cb).2 ≠ .rejected er := fun er => by simp [hsite]
    have h1 : (siteRouteMw st cb).1 = st := by rw [hsite]
    have hrange : List.range' off (cb :: cs).length =
        off :: List.range' (off + 1) cs.length := by
      show List.range' off (cs.length + 1) = _
      rw [List.range'_succ]
    rw [hrange, List.cons_append,
      bCbLoop_cons_other tier ri r req st off (List.range' (off + 1) cs.length ++ ks')
        cb hcb hp1 hp2 hp3 hp4, h1,
      ih (off + 1) ks' st hlook2 (fun x hx => hall x (List.mem_cons_of_mem _ hx))]
    simp [mwRunTrace]

/-- C4 (amended): `next('skip')` is not treated as an error, but its effect
is narrower within the skipping route and wider across tiers than claimed.
The skipping callback's promise resolves `false`, which matches none of the
executor's control strings, so the REMAINING callbacks of the skipping
middleware route itself still execute in turn (here `afterCbs`, whose events
all appear after the skip event); and `continueProcessingMiddlewares` is
cleared permanently while BOTH middleware tier loops check it before
entering each route, so no later middleware route of either tier runs — the
later global-middleware entries `postE` and the entire (unconstrained)
cached path-middleware list contribute no events — while dispatch still
falls through to terminal-route execution, whose callbacks all run.  (The
original claim that the sentinel halts only the current tier fails: see the
counterexample.) -/
theorem c4_skip_sentinel (routes : List Route) (req : Req) (gi ci : Nat)
    (g r : Route) (preCbs : List CbBeh) (skipCb : CbBeh) (afterCbs : List CbBeh)
    (postE : List MwEntry) (m : MatchResult) (passCbs : List CbBeh) (d : CbBeh)
    (hgE : computeGlobalMws (globalMwsOf routes) req =
      ⟨gi, List.range g.callbacks.length⟩ :: postE)
    (hg : (globalMwsOf routes)[gi]? = some g)
    (hgcb : g.callbacks = preCbs ++ skipCb :: afterCbs)
    (hpreP : ∀ cb ∈ preCbs, cb.nextCalls = [NextArg.nil] ∧
      cb.sendsHeaders = false ∧ cb.retTruthy = false ∧ cb.throws = none)
    (hafterP : ∀ cb ∈ afterCbs, cb.nextCalls = [NextArg.nil] ∧
      cb.sendsHeaders = false ∧ cb.retTruthy = false ∧ cb.throws = none)
    (hskip : skipCb.nextCalls = [NextArg.skip]) (hth : skipCb.throws = none)
    (hshdr : skipCb.sendsHeaders = false)
    (hcands : computeHandlers routes req = [ci])
    (hr : routes[ci]? = some r) (hm : matchRoute r req = some m)
    (hcbs : m.callbacks = passCbs ++ [d])
    (hpass : ∀ cb ∈ passCbs, cb.nextCalls = [NextArg.nil] ∧
      cb.sendsHeaders = false ∧ cb.retTruthy = false ∧ cb.throws = none)
    (hd1 : d.nextCalls = []) (hd2 : d.sendsHeaders = false)
    (hd3 : d.retTruthy = false) (hd4 : d.throws = none) :
    (handleRun routes req).events =
        mwRunTrace .globalMw gi 0 preCbs ++
          ⟨.globalMw, gi, preCbs.length, skipCb⟩ ::
            (mwRunTrace .globalMw gi (preCbs.length + 1) afterCbs ++
              (termTrace ci m.callbacks (List.range passCbs.length) ++
                [⟨.terminal, ci, passCbs.length, d⟩])) ∧
      (handleRun routes req).out = .ok .undefRes := by
  rw [handleRun_eq, hgE, hcands]
  have hlen : m.callbacks.length = passCbs.length + 1 := by
    rw [hcbs]
    simp
  have hcbd : m.callbacks[passCbs.length]? = some d := by
    rw [hcbs, List.getElem?_append_right (Nat.le_refl _)]
    simp
  have hpassall : ∀ k ∈ List.range passCbs.length, ∃ cb,
      m.callbacks[k]? = some cb ∧ cb.nextCalls = [NextArg.nil] ∧
      cb.sendsHeaders = false ∧ cb.retTruthy = false ∧ cb.throws = none := by
    intro k hk
    have hk' : k < passCbs.length := List.mem_range.mp hk
    cases hcbk : passCbs[k]? with
    | none =>
      rw [List.getElem?_eq_none_iff] at hcbk
      omega
    | some cb =>
      obtain ⟨a, b, c, dd⟩ := hpass cb (List.getElem?_mem hcbk)
      refine ⟨cb, ?_, a, b, c, dd⟩
      rw [hcbs, List.getElem?_append, if_pos hk']
      exact hcbk
  have hrange : List.range m.callbacks.length =
      List.range passCbs.length ++ [passCbs.length] := by
    rw [hlen, List.range_succ]
  have hpTgen : ∀ st : DState, st.contRh = true →
      tCbLoop ci r m.callbacks true req st (List.range m.callbacks.length) =
        ({ st with
            contMw := false
            contRh := false
            matched := matchRoute r req },
          termTrace ci m.callbacks (List.range passCbs.length) ++
            [⟨.terminal, ci, passCbs.length, d⟩], .brkHandle) := by
    intro st hrh
    have hsited : siteTerminal st d
        (decide (passCbs.length = m.callbacks.length - 1)) =
        (st, .endRouting) :=
      siteTerminal_doNothing st d _ hd1 hd2 hd3 hd4
    have hstep : tCbLoop ci r m.callbacks true req st [passCbs.length] =
        ({ st with
            contMw := false
            contRh := false
            matched := matchRoute r req },
          [⟨.terminal, ci, passCbs.length, d⟩], .brkHandle) := by
      rw [tCbLoop_cons_end ci r m.callbacks true req st passCbs.length [] d hrh
        hcbd (by rw [hsited])]
      rw [hsited]
    rw [hrange,
      tCbLoop_pass_append ci r m.callbacks true req (List.range passCbs.length)
        [passCbs.length] st hrh hpassall, hstep]
  have hlenG : g.callbacks.length = preCbs.length + (afterCbs.length + 1) := by
    rw [hgcb]
    simp
  have hlookPre : ∀ i, i < preCbs.length → g.callbacks[0 + i]? = preCbs[i]? := by
    intro i hi
    rw [Nat.zero_add, hgcb, List.getElem?_append, if_pos hi]
  have hcbskip : g.callbacks[preCbs.length]? = some skipCb := by
    rw [hgcb, List.getElem?_append_right (Nat.le_refl _)]
    simp
  have hlookAfter : ∀ i, i < afterCbs.length →
      g.callbacks[(preCbs.length + 1) + i]? = afterCbs[i]? := by
    intro i hi
    rw [hgcb,
      List.getElem?_append_right
        (by omega : preCbs.length ≤ (preCbs.length + 1) + i),
      show (preCbs.length + 1) + i - preCbs.length = i + 1 by omega]
    exact List.getElem?_cons_succ
  have hsiteS : siteRouteMw (⟨false, none, true, true, some m⟩ : DState) skipCb =
      ((⟨false, none, false, true, some m⟩ : DState), .boolR false) :=
    siteRouteMw_skip _ skipCb hskip hth hshdr
  have hrangeG : List.range g.callbacks.length =
      List.range' 0 preCbs.length ++
        (preCbs.length :: List.range' (preCbs.length + 1) afterCbs.length) := by
    rw [hlenG]
    exact range_consec_split preCbs.length afterCbs.length
  have hinner : bCbLoop .globalMw gi g req
      (⟨false, none, true, true, some m⟩ : DState)
      (preCbs.length :: List.range' (preCbs.length + 1) afterCbs.length) =
      ((⟨false, none, false, true, some m⟩ : DState),
        ⟨.globalMw, gi, preCbs.length, skipCb⟩ ::
          mwRunTrace .globalMw gi (preCbs.length + 1) afterCbs,
        .cont) := by
    have hp1 : (siteRouteMw (⟨false, none, true, true, some m⟩ : DState) skipCb).2 ≠
        .endRouting := by simp [hsiteS]
    have hp2 : (siteRouteMw (⟨false, none, true, true, some m⟩ : DState) skipCb).2 ≠
        .skipMiddlewares := by simp [hsiteS]
    have hp3 : (siteRouteMw (⟨false, none, true, true, some m⟩ : DState) skipCb).2 ≠
        .continueHandlers := by simp [hsiteS]
    have hp4 : ∀ er,
        (siteRouteMw (⟨false, none, true, true, some m⟩ : DState) skipCb).2 ≠
          .rejected er := fun er => by simp [hsiteS]
    have h1 : (siteRouteMw (⟨false, none, true, true, some m⟩ : DState) skipCb).1 =
        (⟨false, none, false, true, some m⟩ : DState) := by rw [hsiteS]
    rw [bCbLoop_cons_other .globalMw gi g req _ preCbs.length
      (List.range' (preCbs.length + 1) afterCbs.length) skipCb hcbskip
      hp1 hp2 hp3 hp4, h1,
      show List.range' (preCbs.length + 1) afterCbs.length =
        List.range' (preCbs.length + 1) afterCbs.length ++ ([] : List Nat)
        from (List.append_nil _).symm,
      bCbLoop_pass_run .globalMw gi g req afterCbs (preCbs.length + 1) []
        (⟨false, none, false, true, some m⟩ : DState) hlookAfter hafterP]
    simp [mwRunTrace, bCbLoop]
  have hbloop : bCbLoop .globalMw gi g req
      (⟨false, none, true, true, some m⟩ : DState)
      (List.range g.callbacks.length) =
      ((⟨false, none, false, true, some m⟩ : DState),
        mwRunTrace .globalMw gi 0 preCbs ++
          ⟨.globalMw, gi, preCbs.length, skipCb⟩ ::
            mwRunTrace .globalMw gi (preCbs.length + 1) afterCbs,
        .cont) := by
    rw [hrangeG,
      bCbLoop_pass_run .globalMw gi g req preCbs 0
        (preCbs.length :: List.range' (preCbs.length + 1) afterCbs.length)
        (⟨false, none, true, true, some m⟩ : DState) hlookPre hpreP,
      hinner]
  have hbloopP : bCbLoop .globalMw
      (⟨gi, List.range g.callbacks.length⟩ : MwEntry).routeIndex g req
      { initDState with matched := some m }
      (⟨gi, List.range g.callbacks.length⟩ : MwEntry).callbackIndexes =
      ((⟨false, none, false, true, some m⟩ : DState),
        mwRunTrace .globalMw gi 0 preCbs ++
          ⟨.globalMw, gi, preCbs.length, skipCb⟩ ::
            mwRunTrace .globalMw gi (preCbs.length + 1) afterCbs,
        .cont) := hbloop
  have hbG : bTier .globalMw (globalMwsOf routes) req
      { initDState with matched := some m }
      ((⟨gi, List.range g.callbacks.length⟩ : MwEntry) :: postE) =
      ((⟨false, none, false, true, some m⟩ : DState),
        mwRunTrace .globalMw gi 0 preCbs ++
          ⟨.globalMw, gi, preCbs.length, skipCb⟩ ::
            mwRunTrace .globalMw gi (preCbs.length + 1) afterCbs,
        .done) := by
    rw [bTier_cons_cont .globalMw (globalMwsOf routes) req _
      ⟨gi, List.range g.callbacks.length⟩ postE g rfl hg (by rw [hbloopP]),
      hbloopP]
    show ((bTier .globalMw (globalMwsOf routes) req
        (⟨false, none, false, true, some m⟩ : DState) postE).1,
      (mwRunTrace .globalMw gi 0 preCbs ++
        ⟨.globalMw, gi, preCbs.length, skipCb⟩ ::
          mwRunTrace .globalMw gi (preCbs.length + 1) afterCbs) ++
        (bTier .globalMw (globalMwsOf routes) req
          (⟨false, none, false, true, some m⟩ : DState) postE).2.1,
      (bTier .globalMw (globalMwsOf routes) req
        (⟨false, none, false, true, some m⟩ : DState) postE).2.2) = _
    rw [bTier_noMw .globalMw (globalMwsOf routes) req
      (⟨false, none, false, true, some m⟩ : DState) postE rfl]
    simp
  have hbG1 : (bTier .globalMw (globalMwsOf routes) req
      { initDState with matched := some m }
      ((⟨gi, List.range g.callbacks.length⟩ : MwEntry) :: postE)).1 =
      (⟨false, none, false, true, some m⟩ : DState) := by
    rw [hbG]
  have hbG2 : (bTier .globalMw (globalMwsOf routes) req
      { initDState with matched := some m }
      ((⟨gi, List.range g.callbacks.length⟩ : MwEntry) :: postE)).2.1 =
      mwRunTrace .globalMw gi 0 preCbs ++
        ⟨.globalMw, gi, preCbs.length, skipCb⟩ ::
          mwRunTrace .globalMw gi (preCbs.length + 1) afterCbs := by
    rw [hbG]
  have hbR : bTier .pathMw routes req
      (⟨false, none, false, true, some m⟩ : DState)
      (computeRouteMws routes req) =
      ((⟨false, none, false, true, some m⟩ : DState), [], .done) :=
    bTier_noMw _ _ _ _ _ rfl
  have hbR1 : (bTier .pathMw routes req
      (⟨false, none, false, true, some m⟩ : DState)
      (computeRouteMws routes req)).1 =
      (⟨false, none, false, true, some m⟩ : DState) := by
    rw [hbR]
  have hbR2 : (bTier .pathMw routes req
      (⟨false, none, false, true, some m⟩ : DState)
      (computeRouteMws routes req)).2.1 = [] := by
    rw [hbR]
  have hpT := hpTgen (⟨false, none, false, true, some m⟩ : DState) rfl
  have hpT1 : (tCbLoop ci r m.callbacks (decide ((0 : Nat) = 1 - 1)) req
      (⟨false, none, false, true, some m⟩ : DState)
      (List.range m.callbacks.length)).1 =
      (⟨false, none, false, false, matchRoute r req⟩ : DState) := by
    show (tCbLoop ci r m.callbacks true req
      (⟨false, none, false, true, some m⟩ : DState)
      (List.range m.callbacks.length)).1 =
      (⟨false, none, false, false, matchRoute r req⟩ : DState)
    rw [hpT]
  have hpT2 : (tCbLoop ci r m.callbacks (decide ((0 : Nat) = 1 - 1)) req
      (⟨false, none, false, true, some m⟩ : DState)
      (List.range m.callbacks.length)).2.1 =
      termTrace ci m.callbacks (List.range passCbs.length) ++
        [⟨.terminal, ci, passCbs.length, d⟩] := by
    show (tCbLoop ci r m.callbacks true req
      (⟨false, none, false, true, some m⟩ : DState)
      (List.range m.callbacks.length)).2.1 = _
    rw [hpT]
  have hpT3 : (tCbLoop ci r m.callbacks (decide ((0 : Nat) = 1 - 1)) req
      (⟨false, none, false, true, some m⟩ : DState)
      (List.range m.callbacks.length)).2.2 = .brkHandle := by
    show (tCbLoop ci r m.callbacks true req
      (⟨false, none, false, true, some m⟩ : DState)
      (List.range m.callbacks.length)).2.2 = TCbOut.brkHandle
    rw [hpT]
  have h5 : (bTier .globalMw (globalMwsOf routes) req
      { initDState with matched := some m }
      ((⟨gi, List.range g.callbacks.length⟩ : MwEntry) :: postE)).2.2 = .done := by
    rw [hbG]
  have h6 : (bTier .pathMw routes req
      (bTier .globalMw (globalMwsOf routes) req
        { initDState with matched := some m }
        ((⟨gi, List.range g.callbacks.length⟩ : MwEntry) :: postE)).1
      (computeRouteMws routes req)).2.2 = .done := by
    rw [hbG1, hbR]
  have h7 : (bTier .pathMw routes req
      (bTier .globalMw (globalMwsOf routes) req
        { initDState with matched := some m }
        ((⟨gi, List.range g.callbacks.length⟩ : MwEntry) :: postE)).1
      (computeRouteMws routes req)).1.headersSent = false := by
    rw [hbG1, hbR1]
  have h8 : (tCbLoop ci r m.callbacks (decide ((0 : Nat) = 1 - 1)) req
      (bTier .pathMw routes req
        (bTier .globalMw (globalMwsOf routes) req
          { initDState with matched := some m }
          ((⟨gi, List.range g.callbacks.length⟩ : MwEntry) :: postE)).1
        (computeRouteMws routes req)).1
      (List.range m.callbacks.length)).2.2 = .brkHandle := by
    rw [hbG1, hbR1]
    exact hpT3
  have hfin : (handleIter routes (globalMwsOf routes)
      ((⟨gi, List.range g.callbacks.length⟩ : MwEntry) :: postE)
      (computeRouteMws routes req) ([ci] : List Nat).length req initDState
      ([ci] : List Nat).enum).2.2 = .finished := by
    show (handleIter routes (globalMwsOf routes)
      ((⟨gi, List.range g.callbacks.length⟩ : MwEntry) :: postE)
      (computeRouteMws routes req) 1 req initDState [(0, ci)]).2.2 = .finished
    rw [handleIter_cons_tBrk routes (globalMwsOf routes)
      ((⟨gi, List.range g.callbacks.length⟩ : MwEntry) :: postE)
      (computeRouteMws routes req) 1 req initDState 0 ci [] r m rfl rfl hr hm
      h5 h6 h7 h8]
  have hevs : (handleIter routes (globalMwsOf routes)
      ((⟨gi, List.range g.callbacks.length⟩ : MwEntry) :: postE)
      (computeRouteMws routes req) ([ci] : List Nat).length req initDState
      ([ci] : List Nat).enum).2.1 =
      mwRunTrace .globalMw gi 0 preCbs ++
        ⟨.globalMw, gi, preCbs.length, skipCb⟩ ::
          (mwRunTrace .globalMw gi (preCbs.length + 1) afterCbs ++
            (termTrace ci m.callbacks (List.range passCbs.length) ++
              [⟨.terminal, ci, passCbs.length, d⟩])) := by
    show (handleIter routes (globalMwsOf routes)
      ((⟨gi, List.range g.callbacks.length⟩ : MwEntry) :: postE)
      (computeRouteMws routes req) 1 req initDState [(0, ci)]).2.1 = _
    rw [handleIter_cons_tBrk routes (globalMwsOf routes)
      ((⟨gi, List.range g.callbacks.length⟩ : MwEntry) :: postE)
      (computeRouteMws routes req) 1 req initDState 0 ci [] r m rfl rfl hr hm
      h5 h6 h7 h8, hbG2, hbG1, hbR2, hbR1, hpT2]
    simp
  have hI1 : (handleIter routes (globalMwsOf routes)
      ((⟨gi, List.range g.callbacks.length⟩ : MwEntry) :: postE)
      (computeRouteMws routes req) ([ci] : List Nat).length req initDState
      ([ci] : List Nat).enum).1 =
      (⟨false, none, false, false, some m⟩ : DState) := by
    show (handleIter routes (globalMwsOf routes)
      ((⟨gi, List.range g.callbacks.length⟩ : MwEntry) :: postE)
      (computeRouteMws routes req) 1 req initDState [(0, ci)]).1 = _
    rw [handleIter_cons_tBrk routes (globalMwsOf routes)
      ((⟨gi, List.range g.callbacks.length⟩ : MwEntry) :: postE)
      (computeRouteMws routes req) 1 req initDState 0 ci [] r m rfl rfl hr hm
      h5 h6 h7 h8, hbG1, hbR1, hpT1, hm]
  rw [handleCore_cands_fin routes (globalMwsOf routes)
    ((⟨gi, List.range g.callbacks.length⟩ : MwEntry) :: postE)
    (computeRouteMws routes req) [ci] req rfl hfin]
  refine ⟨hevs, ?_⟩
  show HandleOut.ok (finalRet _) = _
  rw [hI1]
  rfl

end BunNode

namespace BunNode

def c4gRoute : Route :=
  ⟨none, none, none, none, [],
    [⟨[NextArg.skip], false, false, none⟩, ⟨[NextArg.nil], false, false, none⟩],
    fun _ _ _ => some ⟨none, "GET", "/a", [], [], []⟩⟩

def c4pM : MatchResult :=
  ⟨none, "GET", "/a", [], [], [⟨[NextArg.nil], false, false, none⟩]⟩

def c4pRoute : Route :=
  ⟨none, some "/a", none, none, [], [⟨[NextArg.nil], false, false, none⟩],
    fun _ _ _ => some c4pM⟩

def c4tM : MatchResult :=
  ⟨none, "GET", "/a", [], [], [⟨[], false, false, none⟩]⟩

def c4tRoute : Route :=
  ⟨none, some "/a", some "GET", none, [], [], fun _ _ _ => some c4tM⟩

/-- C4 counterexample: the first callback of a two-callback global
middleware route invokes `next('skip')`.  The SECOND callback of that same
route still executes (second trace event), so the sentinel does not even
halt the remainder of the current route; and a path middleware that matches
the request (the cached path-middleware list contains it) never executes —
the trace jumps from the skipping route straight to the terminal route's
callback, so the sentinel does not merely halt "the current middleware
tier": the next tier is skipped too. -/
theorem c4_counterexample :
    computeRouteMws [c4gRoute, c4pRoute, c4tRoute] reqA = [⟨1, [0]⟩] ∧
      (handleRun [c4gRoute, c4pRoute, c4tRoute] reqA).events =
        [⟨.globalMw, 0, 0, ⟨[NextArg.skip], false, false, none⟩⟩,
          ⟨.globalMw, 0, 1, ⟨[NextArg.nil], false, false, none⟩⟩,
          ⟨.terminal, 2, 0, ⟨[], false, false, none⟩⟩] := ⟨rfl, rfl⟩

def c4wG : Route :=
  ⟨none, none, none, none, [],
    [⟨[NextArg.nil], false, false, none⟩, ⟨[NextArg.skip], false, false, none⟩,
      ⟨[NextArg.nil], false, false, none⟩],
    fun _ _ _ => some ⟨none, "GET", "/a", [], [], []⟩⟩

def c4wG2 : Route :=
  ⟨none, none, none, none, [], [⟨[NextArg.nil], false, false, none⟩],
    fun _ _ _ => some ⟨none, "GET", "/a", [], [], []⟩⟩

def c4wPM : MatchResult :=
  ⟨none, "GET", "/a", [], [], [⟨[NextArg.nil], false, false, none⟩]⟩

def c4wP : Route :=
  ⟨none, some "/a", none, none, [], [⟨[NextArg.nil], false, false, none⟩],
    fun _ _ _ => some c4wPM⟩

def c4wTM : MatchResult :=
  ⟨none, "GET", "/a", [], [], [⟨[], false, false, none⟩]⟩

def c4wT : Route :=
  ⟨none, some "/a", some "GET", none, [], [], fun _ _ _ => some c4wTM⟩

theorem c4_witness :
    (handleRun [c4wG, c4wG2, c4wP, c4wT] reqA).events =
        mwRunTrace .globalMw 0 0 [⟨[NextArg.nil], false, false, none⟩] ++
          ⟨.globalMw, 0, 1, ⟨[NextArg.skip], false, false, none⟩⟩ ::
            (mwRunTrace .globalMw 0 2 [⟨[NextArg.nil], false, false, none⟩] ++
              (termTrace 3 c4wTM.callbacks (List.range ([] : List CbBeh).length) ++
                [⟨.terminal, 3, ([] : List CbBeh).length, ⟨[], false, false, none⟩⟩])) ∧
      (handleRun [c4wG, c4wG2, c4wP, c4wT] reqA).out = .ok .undefRes :=
  c4_skip_sentinel [c4wG, c4wG2, c4wP, c4wT] reqA 0 3 c4wG c4wT
    [⟨[NextArg.nil], false, false, none⟩] ⟨[NextArg.skip], false, false, none⟩
    [⟨[NextArg.nil], false, false, none⟩] [⟨1, [0]⟩] c4wTM []
    ⟨[], false, false, none⟩
    rfl rfl rfl
    (fun cb h => by
      simp only [List.mem_singleton] at h
      subst h
      exact ⟨rfl, rfl, rfl, rfl⟩)
    (fun cb h => by
      simp only [List.mem_singleton] at h
      subst h
      exact ⟨rfl, rfl, rfl, rfl⟩)
    rfl rfl rfl rfl rfl rfl rfl
    (fun cb h => absurd h (List.not_mem_nil cb))
    rfl rfl rfl rfl

end BunNode
